import Mathlib

/-!
# False-position quadratic solver (`server.c`): embedding and verified properties

The numerical core of `server.c` is embedded twice.

* Over an arbitrary linearly ordered field `K` (sections `Core` and `Variant`): a C
  `double` is read as an element of `K`, so a theorem on this embedding is a statement
  of exact arithmetic (no rounding, no overflow); at `K = ℚ` every definition
  evaluates. It carries the properties that are stated for exact real arithmetic
  (C13, C17, C20) and those that relate the outputs of a run to one another and do
  not depend on how a value was computed (C4, C5, C7, C10, C11, C12, C14).
* On the values of a `double` (namespace `B64`): IEEE 754 binary64 with round to
  nearest, ties to even, signed zeros, infinities and NaN, every operation rounded on
  its own (no fused multiply-add, no extended precision, as in an x86-64 build). It
  carries the properties of what the program does on the numbers it receives (C1, C2,
  C3, C6, C8, C9, C15, C16, C18, C19); every definition evaluates.

Conventions of both embeddings:

* the loop `for (n = 0; n < MAX_ITER; n++)` runs on the number of passes that are
  left, `MAX_ITER - n`;
* the caller's buffer `FPRow *rows` is a map from index to row, written with
  `Function.update`; the out-parameters `*root` and `err` are threaded through as
  values;
* the response text is kept as text for the failure responses and as the tuple of
  values handed to the final `snprintf` for the success response.

Conventions of the embedding over `K`:

* the only division of the solver whose divisor is not guarded is the one of the
  relative error `ea`; its result is an `Option K`, `none` standing for the
  non-finite value (`inf` or `NaN`) a C division by zero yields, and a comparison
  with `none` is false, as it is in C;
* the C library is a parameter (`LibC`): `sqrt`, and the number of characters
  `snprintf` reports for one graph point and for one table row;
* the graph and the table are the lists of the entries whose text the loops request.

Conventions of the embedding on `double`s:

* `sqrt` is a parameter of `discriminant_info`; `dsqrt` is the correctly rounded one;
* `snprintf` is modelled by the number of characters it returns; an entry is written
  in full when that number is below the size it is given, and the position after
  the loop is kept, so that a position beyond the buffer is visible.
-/

namespace FalsePosition

/-- The constant `MAX_ITER`. -/
def MAX_ITER : Nat := 200

/-- One row of the iteration table (`FPRow`). -/
structure FPRow (K : Type) where
  n : Int
  xl : K
  xu : K
  xr : K
  fxl : K
  fxu : K
  fxr : K
  ea : Option K
deriving DecidableEq

/-- What `false_position` leaves behind: its return value, the row buffer, `*root` and `err`. -/
structure FPOut (K : Type) where
  ret : Int
  rows : Nat → FPRow K
  root : K
  err : String

/-- The local variables of the loop of `false_position`, with the row buffer. -/
structure FPState (K : Type) where
  n : Nat
  xl : K
  xu : K
  fxl : K
  fxu : K
  xr_old : K
  rows : Nat → FPRow K

/-- The three ways one pass of the loop body can end. -/
inductive PassOut (K : Type) where
  | fail (err : String)
  | conv (rows : Nat → FPRow K) (root : K)
  | cont (s : FPState K)

/-- The parts of the C library the core calls. -/
structure LibC (K : Type) where
  sqrt : K → K
  point_len : K → K → Nat
  row_len : FPRow K → Nat

/-- The values handed to the final `snprintf` of `build_json`, or the text of a failure body. -/
inductive Response (K : Type) where
  | failure (jbody : String)
  | success (root froot : K) (iterations : Int) (last_ea : Option K) (dtype : Int)
      (disc_val r1 r2 : K) (graph : List (K × K)) (table : List (FPRow K))
deriving DecidableEq

/-- The message of the bracket check. -/
def NO_BRACKET_MSG : String :=
  "f(xL) and f(xU) must have opposite signs. No root is bracketed in this interval."

/-- The message of the denominator check. -/
def DENOM_MSG : String :=
  "Denominator too small — function values at xL and xU are nearly equal."

/-- The body of the response for `a = 0`. -/
def DOMAIN_BODY : String :=
  "\x7b\"success\":false,\"error\":\"Coefficient \x27a\x27 cannot be zero — that would not be a quadratic equation.\"\x7d"

/-- The body `snprintf` builds from `errmsg` when the solver fails. -/
def failure_body (errmsg : String) : String :=
  "\x7b\"success\":false,\"error\":\"" ++ errmsg ++ "\"\x7d"

section Core

variable {K : Type} [LinearOrderedField K]

/-- The function `fquad`: the quadratic `a*x*x + b*x + c`. -/
def fquad (a b c x : K) : K := a * x * x + b * x + c

/-- A C division whose divisor may be zero: `none` is the non-finite result. -/
def cdiv (x y : K) : Option K := if y = 0 then none else some (x / y)

/-- The comparison `ea < tol` of C: false when `ea` is not finite. -/
def ea_lt (ea : Option K) (tol : K) : Prop :=
  match ea with
  | some e => e < tol
  | none => False

instance (ea : Option K) (tol : K) : Decidable (ea_lt ea tol) := by
  unfold ea_lt; cases ea <;> infer_instance

/-- The value of `ea` in pass `n` (0-based): `100.0` in the first pass, else
`fabs((xr - xr_old) / xr) * 100.0`. -/
def ea_of (n : Nat) (xr xr_old : K) : Option K :=
  if n = 0 then some 100 else (cdiv (xr - xr_old) xr).map (fun q => |q| * 100)

/-- The body of the loop of `false_position`, lines 96-126. -/
def fp_pass (a b c tol : K) (s : FPState K) : PassOut K :=
  let denom := s.fxl - s.fxu
  if |denom| < 1e-15 then .fail DENOM_MSG
  else
    let xr := s.xu - s.fxu * (s.xl - s.xu) / denom
    let fxr := fquad a b c xr
    let ea := ea_of s.n xr s.xr_old
    let rows := Function.update s.rows s.n ⟨(s.n : Int) + 1, s.xl, s.xu, xr, s.fxl, s.fxu, fxr, ea⟩
    if |fxr| < 1e-14 ∨ (0 < s.n ∧ ea_lt ea tol) then .conv rows xr
    else if s.fxl * fxr < 0 then .cont ⟨s.n + 1, s.xl, xr, s.fxl, fxr, xr, rows⟩
    else .cont ⟨s.n + 1, xr, s.xu, fxr, s.fxu, xr, rows⟩

/-- The loop of `false_position`; `left` is `MAX_ITER - n`, so `left = 0` is the exit
through the loop condition, lines 128-129. -/
def fp_loop (a b c tol root : K) (err : String) : Nat → FPState K → FPOut K
  | 0, s => ⟨(s.n : Int), s.rows, (s.rows (s.n - 1)).xr, err⟩
  | left + 1, s =>
    match fp_pass a b c tol s with
    | .fail e => ⟨-1, s.rows, root, e⟩
    | .conv rows xr => ⟨(s.n : Int) + 1, rows, xr, err⟩
    | .cont s' => fp_loop a b c tol root err left s'

/-- The function `false_position`, lines 79-130. -/
def false_position (a b c xl xu tol : K) (rows : Nat → FPRow K) (root : K) (err : String) :
    FPOut K :=
  let fxl := fquad a b c xl
  let fxu := fquad a b c xu
  if fxl * fxu > 0 then ⟨-1, rows, root, NO_BRACKET_MSG⟩
  else
    let tol := if tol ≤ 0 then 1e-4 else tol
    fp_loop a b c tol root err MAX_ITER ⟨0, xl, xu, fxl, fxu, xl, rows⟩

/-- The function `discriminant_info`, lines 135-149: the tag, and `*r1`, `*r2` after the call. -/
def discriminant_info (lib : LibC K) (a b c r1 r2 : K) : Int × K × K :=
  let disc := b * b - 4 * a * c
  if disc > 0 then (2, (-b + lib.sqrt disc) / (2 * a), (-b - lib.sqrt disc) / (2 * a))
  else if |disc| < 1e-12 then (1, -b / (2 * a), -b / (2 * a))
  else (0, r1, r2)

/-- The loop of `graph_json`, lines 164-170: the points whose text was requested;
`left` is `steps + 1 - i`, so the loop condition is `0 < left && pos < max - 80`. -/
def graph_loop (lib : LibC K) (a b c gxl step : K) (max : Int) :
    Nat → Nat → Int → List (K × K) → List (K × K)
  | 0, _, _, acc => acc
  | left + 1, i, pos, acc =>
    if pos < max - 80 then
      let x := gxl + (i : K) * step
      let y := fquad a b c x
      let pos := if i ≠ 0 then pos + 1 else pos
      graph_loop lib a b c gxl step max left (i + 1) (pos + lib.point_len x y) (acc ++ [(x, y)])
    else acc

/-- The function `graph_json`, lines 154-172: the sample points written into a buffer of `max` bytes. -/
def graph_json (lib : LibC K) (a b c xl xu : K) (max : Int) : List (K × K) :=
  let span := |xu - xl|
  let gxl := xl - span * (1 / 2)
  let gxr := xu + span * (1 / 2)
  let steps : Nat := 200
  let step := (gxr - gxl) / (steps : K)
  graph_loop lib a b c gxl step max (steps + 1) 0 1 []

/-- The table loop of `build_json`, lines 190-201; `left` is `nrows - i`. -/
def table_loop (lib : LibC K) (rows : Nat → FPRow K) (max : Int) :
    Nat → Nat → Int → List (FPRow K) → List (FPRow K)
  | 0, _, _, acc => acc
  | left + 1, i, tp, acc =>
    if tp < max - 300 then
      let tp := if i ≠ 0 then tp + 1 else tp
      table_loop lib rows max left (i + 1) (tp + lib.row_len (rows i)) (acc ++ [rows i])
    else acc

/-- The function `build_json`, lines 177-238. -/
def build_json (lib : LibC K) (ca cb cc xl_orig xu_orig : K) (rows : Nat → FPRow K)
    (nrows : Int) (root : K) : Response K :=
  let graph := graph_json lib ca cb cc xl_orig xu_orig 65536
  let table := table_loop lib rows 65536 nrows.toNat 0 1 []
  let d := discriminant_info lib ca cb cc 0 0
  let disc_val := cb * cb - 4 * ca * cc
  let froot := fquad ca cb cc root
  let last_ea := if nrows > 1 then (rows (nrows - 1).toNat).ea else some 100
  .success root froot nrows last_ea d.1 disc_val d.2.1 d.2.2 graph table

/-- The function `handle_solve`, lines 286-304, from the six parsed numbers: the response and the
static row buffer after the request. -/
def handle_solve (lib : LibC K) (ca cb cc xl xu tol : K) (rows : Nat → FPRow K) :
    Response K × (Nat → FPRow K) :=
  if |ca| < 1e-10 then (.failure DOMAIN_BODY, rows)
  else
    let r := false_position ca cb cc xl xu tol rows 0 ""
    if r.ret < 0 then (.failure (failure_body r.err), r.rows)
    else (build_json lib ca cb cc xl xu r.rows r.ret r.root, r.rows)

/-! ### Views of the loop used by the proofs

The definitions below name parts of `fp_pass` (`xr_of`, `row_of`, `conv_test`, `fp_next`) and
iterate them (`fp_state`); `fp_pass_fail`, `fp_pass_conv`, `fp_pass_cont` and `fp_loop_spec`
tie them to the embedding above. -/

/-- The estimate `xr` of a pass, line 102. -/
def xr_of (s : FPState K) : K := s.xu - s.fxu * (s.xl - s.xu) / (s.fxl - s.fxu)

/-- The row a pass writes at index `s.n`, lines 107-114. -/
def row_of (a b c : K) (s : FPState K) : FPRow K :=
  ⟨(s.n : Int) + 1, s.xl, s.xu, xr_of s, s.fxl, s.fxu, fquad a b c (xr_of s),
    ea_of s.n (xr_of s) s.xr_old⟩

/-- The convergence test of a pass, line 117. -/
def conv_test (a b c tol : K) (s : FPState K) : Prop :=
  |fquad a b c (xr_of s)| < 1e-14 ∨ (0 < s.n ∧ ea_lt (ea_of s.n (xr_of s) s.xr_old) tol)

instance (a b c tol : K) (s : FPState K) : Decidable (conv_test a b c tol s) := by
  unfold conv_test; infer_instance

/-- The state the bracket update of lines 123-126 leaves for the next pass. -/
def fp_next (a b c : K) (s : FPState K) : FPState K :=
  if s.fxl * fquad a b c (xr_of s) < 0 then
    ⟨s.n + 1, s.xl, xr_of s, s.fxl, fquad a b c (xr_of s), xr_of s,
      Function.update s.rows s.n (row_of a b c s)⟩
  else
    ⟨s.n + 1, xr_of s, s.xu, fquad a b c (xr_of s), s.fxu, xr_of s,
      Function.update s.rows s.n (row_of a b c s)⟩

/-- The state at the start of pass `i` (0-based) when no earlier pass has stopped. -/
def fp_state (a b c : K) (s : FPState K) (i : Nat) : FPState K := (fp_next a b c)^[i] s

/-- The start state of the loop of `false_position`, lines 83-93. -/
def fp_init (a b c xl xu : K) (rows : Nat → FPRow K) : FPState K :=
  ⟨0, xl, xu, fquad a b c xl, fquad a b c xu, xl, rows⟩

/-- The tolerance after line 90. -/
def norm_tol (tol : K) : K := if tol ≤ 0 then 1e-4 else tol

/-- A loop state with another row buffer. -/
def with_rows (s : FPState K) (rows : Nat → FPRow K) : FPState K :=
  ⟨s.n, s.xl, s.xu, s.fxl, s.fxu, s.xr_old, rows⟩

end Core

/-! ### The C library at `K = ℚ`

Used to evaluate the embedding at concrete inputs: the character counts follow the
C standard's description of `%d` and `%.pf` for a value printed exactly. -/

/-- The number of decimal digits of a natural number. -/
def dec_len (n : Nat) : Nat := (Nat.toDigits 10 n).length

/-- The number of characters `printf` writes for an exact value under `%.pf`: a sign for
a negative value, the digits of the integer part of the value rounded to `p` places, the
point and `p` digits. -/
def fmt_len (p : Nat) (v : ℚ) : Nat :=
  (if v < 0 then 1 else 0) + dec_len (⌊|v| * 10 ^ p + 1 / 2⌋.toNat / 10 ^ p) + 1 + p

/-- The number of characters of an `ea` under `%.6f`; a non-finite value prints as `inf`. -/
def ea_len (ea : Option ℚ) : Nat :=
  match ea with
  | some e => fmt_len 6 e
  | none => 3

/-- The number of characters of an `int` under `%d`. -/
def int_len (n : Int) : Nat := (if n < 0 then 1 else 0) + dec_len n.natAbs

/-- A square root on the rationals: exact on the squares of rationals, rounded down in
numerator and denominator elsewhere. -/
def qsqrt (v : ℚ) : ℚ := (Nat.sqrt v.num.toNat : ℚ) / (Nat.sqrt v.den : ℚ)

/-- The C library at `K = ℚ`: `qsqrt`, the length of the point format of line 169
(11 characters around two `%.6f`) and of the row format of lines 193-196 (51 characters
around a `%d`, six `%.8f` and a `%.6f`). -/
def libQ : LibC ℚ where
  sqrt := qsqrt
  point_len := fun x y => 11 + fmt_len 6 x + fmt_len 6 y
  row_len := fun r => 51 + int_len r.n + fmt_len 8 r.xl + fmt_len 8 r.xu + fmt_len 8 r.xr +
    fmt_len 8 r.fxl + fmt_len 8 r.fxu + fmt_len 8 r.fxr + ea_len r.ea

/-- The row of a zero-initialised static buffer. -/
def zeroRow : FPRow ℚ := ⟨0, 0, 0, 0, 0, 0, 0, some 0⟩

/-- The static row buffer of `handle_solve` before the first request. -/
def zeroRows : Nat → FPRow ℚ := fun _ => zeroRow

/-! ### A variant of the solver, to compare with

The loop of `false_position` with the tie of line 123 sent to the other branch:
`fxl * fxr <= 0.0` where the source has `fxl * fxr < 0.0`. It is not in the source. -/

section Variant

variable {K : Type} [LinearOrderedField K]

/-- The loop body `fp_pass` with `≤` in the bracket update. -/
def fp_pass_tie (a b c tol : K) (s : FPState K) : PassOut K :=
  let denom := s.fxl - s.fxu
  if |denom| < 1e-15 then .fail DENOM_MSG
  else
    let xr := s.xu - s.fxu * (s.xl - s.xu) / denom
    let fxr := fquad a b c xr
    let ea := ea_of s.n xr s.xr_old
    let rows := Function.update s.rows s.n ⟨(s.n : Int) + 1, s.xl, s.xu, xr, s.fxl, s.fxu, fxr, ea⟩
    if |fxr| < 1e-14 ∨ (0 < s.n ∧ ea_lt ea tol) then .conv rows xr
    else if s.fxl * fxr ≤ 0 then .cont ⟨s.n + 1, s.xl, xr, s.fxl, fxr, xr, rows⟩
    else .cont ⟨s.n + 1, xr, s.xu, fxr, s.fxu, xr, rows⟩

/-- The loop `fp_loop` over `fp_pass_tie`. -/
def fp_loop_tie (a b c tol root : K) (err : String) : Nat → FPState K → FPOut K
  | 0, s => ⟨(s.n : Int), s.rows, (s.rows (s.n - 1)).xr, err⟩
  | left + 1, s =>
    match fp_pass_tie a b c tol s with
    | .fail e => ⟨-1, s.rows, root, e⟩
    | .conv rows xr => ⟨(s.n : Int) + 1, rows, xr, err⟩
    | .cont s' => fp_loop_tie a b c tol root err left s'

/-- The solver `false_position` over `fp_loop_tie`. -/
def false_position_tie (a b c xl xu tol : K) (rows : Nat → FPRow K) (root : K) (err : String) :
    FPOut K :=
  let fxl := fquad a b c xl
  let fxu := fquad a b c xu
  if fxl * fxu > 0 then ⟨-1, rows, root, NO_BRACKET_MSG⟩
  else
    let tol := if tol ≤ 0 then 1e-4 else tol
    fp_loop_tie a b c tol root err MAX_ITER ⟨0, xl, xu, fxl, fxu, xl, rows⟩

end Variant

/-- A row buffer left by an earlier request, for the comparison of two calls. -/
def usedRows : Nat → FPRow ℚ := fun i => ⟨(i : Int) + 1, 7, 8, 9, 1, -1, 3, none⟩

/-! ## The binary64 embedding

The same functions of `server.c`, now on the values a C `double` takes (IEEE 754
binary64, round to nearest, ties to even): every operation returns the rounding of the
exact result, with the signed zeros, infinities and NaN of the standard. The claims
that speak of what the program does on every input are settled on this embedding; the
embedding over an ordered field above is kept for the claims that are stated for exact
real arithmetic and for those that relate the outputs of a run to one another. -/

namespace B64

/-- A `double`: a finite value (`fin 0` is `+0.0`), `-0.0`, an infinity with its sign,
or NaN. -/
inductive Dbl where
  | fin (q : ℚ)
  | nzero
  | inf (neg : Bool)
  | nan
deriving DecidableEq

/-- The value `k n`. The match makes an evaluator compute `n` once, before `k` uses it,
instead of once at every place where `k` uses it. -/
def withNat {α : Type} (n : Nat) (k : Nat → α) : α :=
  match n with
  | 0 => k 0
  | m + 1 => k (m + 1)

/-- The value `k i`, with `i` computed once. -/
def withInt {α : Type} (i : Int) (k : Int → α) : α :=
  match i with
  | .ofNat n => withNat n fun m => k (.ofNat m)
  | .negSucc n => withNat n fun m => k (.negSucc m)

/-- The value `k q`, with the numerator and the denominator of `q` computed once. -/
def withRat {α : Type} (q : ℚ) (k : ℚ → α) : α :=
  withInt q.num fun n => withNat q.den fun d => k (mkRat n d)

/-- One step of a binary search for `⌊log₂ n⌋`: `acc + k` if `2^(acc+k) ≤ n`, else `acc`. -/
def ilog2_bit (k n acc : Nat) : Nat :=
  cond (Nat.ble (Nat.pow 2 (Nat.add acc k)) n) (Nat.add acc k) acc

/-- The number `⌊log₂ n⌋` for `1 ≤ n < 2^4096`, by binary search on its twelve bits (and
`4095` for a larger `n`). -/
def ilog2 (n : Nat) : Nat :=
  withNat n fun n =>
  withNat (ilog2_bit 2048 n 0) fun a =>
  withNat (ilog2_bit 1024 n a) fun a =>
  withNat (ilog2_bit 512 n a) fun a =>
  withNat (ilog2_bit 256 n a) fun a =>
  withNat (ilog2_bit 128 n a) fun a =>
  withNat (ilog2_bit 64 n a) fun a =>
  withNat (ilog2_bit 32 n a) fun a =>
  withNat (ilog2_bit 16 n a) fun a =>
  withNat (ilog2_bit 8 n a) fun a =>
  withNat (ilog2_bit 4 n a) fun a =>
  withNat (ilog2_bit 2 n a) fun a => ilog2_bit 1 n a

/-- The power `2^k` for an integer `k`. -/
def pow2 (k : Int) : ℚ :=
  if 0 ≤ k then ((2 ^ k.toNat : Nat) : ℚ) else 1 / ((2 ^ (-k).toNat : Nat) : ℚ)

/-- The number `⌊log₂ (n/d)⌋` for `n, d ≥ 1`: the difference of the two logarithms, or one
less when `n/d` is below that power of two. -/
def flog2 (n d : Nat) : Int :=
  withInt ((ilog2 n : Int) - (ilog2 d : Int)) fun e0 =>
    if (if 0 ≤ e0 then d * 2 ^ e0.toNat ≤ n else d ≤ n * 2 ^ (-e0).toNat) then e0 else e0 - 1

/-- The integer nearest to `n / (d·2^s)`, ties to the even one: how many units `2^s` the
nearest multiple of `2^s` to `n/d` holds. -/
def rne (n d : Nat) (s : Int) : Nat :=
  withNat (if 0 ≤ s then n else n * 2 ^ (-s).toNat) fun N =>
    withNat (if 0 ≤ s then d * 2 ^ s.toNat else d) fun D =>
      withNat (N / D) fun Q =>
        withNat (N % D) fun R =>
          if 2 * R < D then Q else if D < 2 * R then Q + 1 else if Q % 2 = 0 then Q else Q + 1

/-- The multiple of the unit in the last place nearest to `n/d > 0`, ties to the even
multiple; the unit is `2^(e-52)` with `e = max ⌊log₂ (n/d)⌋ (-1022)`. -/
def rnd_mag (n d : Nat) : ℚ :=
  withInt (max (flog2 n d) (-1022) - 52) fun s => ((rne n d s : Nat) : ℚ) * pow2 s

/-- A zero with the given sign. -/
def Dbl.zero (neg : Bool) : Dbl := if neg then .nzero else .fin 0

/-- The `double` nearest to the real number `q`: the rounding every operation applies
to its exact result, and the value `atof` and the compiler give a decimal numeral. A
magnitude that rounds to `2^1024` or more gives an infinity, one that rounds to zero a
zero with the sign of `q`. -/
def rnd (q : ℚ) : Dbl :=
  withInt q.num fun p =>
    withNat q.den fun d =>
      if p = 0 then .fin 0
      else withRat (rnd_mag p.natAbs d) fun m =>
        if pow2 1024 ≤ m then .inf (decide (p < 0))
        else if m = 0 then Dbl.zero (decide (p < 0))
        else .fin (if p < 0 then -m else m)

/-- The sign bit of a `double` (NaN counted as positive). -/
def Dbl.neg? : Dbl → Bool
  | .fin q => decide (q < 0)
  | .nzero => true
  | .inf s => s
  | .nan => false

/-- The value of a finite `double`. -/
def Dbl.val : Dbl → ℚ
  | .fin q => q
  | _ => 0

/-- Whether a `double` is `+0.0` or `-0.0`. -/
def Dbl.zero? : Dbl → Bool
  | .fin q => decide (q = 0)
  | .nzero => true
  | _ => false

/-- The sum of two `double`s; an exact sum of zero of two values that are not both zeros
is `+0.0`. -/
def Dbl.add : Dbl → Dbl → Dbl
  | .nan, _ => .nan
  | _, .nan => .nan
  | .inf s, .inf t => if s = t then .inf s else .nan
  | .inf s, _ => .inf s
  | _, .inf t => .inf t
  | x, y =>
    if x.zero? && y.zero? then Dbl.zero (x.neg? && y.neg?)
    else rnd (x.val + y.val)

/-- The unary minus. -/
def Dbl.neg : Dbl → Dbl
  | .fin q => if q = 0 then .nzero else .fin (-q)
  | .nzero => .fin 0
  | .inf s => .inf (!s)
  | .nan => .nan

/-- The difference of two `double`s. -/
def Dbl.sub (x y : Dbl) : Dbl := Dbl.add x (Dbl.neg y)

/-- The product of two `double`s. -/
def Dbl.mul : Dbl → Dbl → Dbl
  | .nan, _ => .nan
  | _, .nan => .nan
  | .inf s, y => if y.zero? then .nan else .inf (xor s y.neg?)
  | x, .inf t => if x.zero? then .nan else .inf (xor x.neg? t)
  | x, y =>
    if x.zero? || y.zero? then Dbl.zero (xor x.neg? y.neg?)
    else rnd (x.val * y.val)

/-- The quotient of two `double`s. -/
def Dbl.div : Dbl → Dbl → Dbl
  | .nan, _ => .nan
  | _, .nan => .nan
  | .inf _, .inf _ => .nan
  | .inf s, y => .inf (xor s y.neg?)
  | x, .inf t => Dbl.zero (xor x.neg? t)
  | x, y =>
    if y.zero? then (if x.zero? then .nan else .inf (xor x.neg? y.neg?))
    else if x.zero? then Dbl.zero (xor x.neg? y.neg?)
    else rnd (x.val / y.val)

/-- The value `k x`, with `x` computed once: the form of a C variable `double x = …`
that is used several times. -/
def withDbl {α : Type} (x : Dbl) (k : Dbl → α) : α :=
  match x with
  | .fin q => withRat q fun r => k (.fin r)
  | .nzero => k .nzero
  | .inf true => k (.inf true)
  | .inf false => k (.inf false)
  | .nan => k .nan

/-- The function `fabs`. -/
def fabs : Dbl → Dbl
  | .fin q => .fin |q|
  | .nzero => .fin 0
  | .inf _ => .inf false
  | .nan => .nan

/-- The comparison `x < y` of C: false when an operand is NaN. -/
def Dbl.lt : Dbl → Dbl → Bool
  | .nan, _ => false
  | _, .nan => false
  | .inf s, .inf t => s && !t
  | .inf s, _ => s
  | _, .inf t => !t
  | x, y => decide (x.val < y.val)

/-- The comparison `x <= y` of C: false when an operand is NaN. -/
def Dbl.le : Dbl → Dbl → Bool
  | .nan, _ => false
  | _, .nan => false
  | .inf s, .inf t => s || !t
  | .inf s, _ => s
  | _, .inf t => !t
  | x, y => decide (x.val ≤ y.val)

instance : Add Dbl := ⟨Dbl.add⟩
instance : Sub Dbl := ⟨Dbl.sub⟩
instance : Mul Dbl := ⟨Dbl.mul⟩
instance : Div Dbl := ⟨Dbl.div⟩
instance : Neg Dbl := ⟨Dbl.neg⟩
instance : LT Dbl := ⟨fun x y => Dbl.lt x y = true⟩
instance : LE Dbl := ⟨fun x y => Dbl.le x y = true⟩
instance (x y : Dbl) : Decidable (x < y) := inferInstanceAs (Decidable (Dbl.lt x y = true))
instance (x y : Dbl) : Decidable (x ≤ y) := inferInstanceAs (Decidable (Dbl.le x y = true))
instance (n : Nat) : OfNat Dbl n := ⟨rnd (n : ℚ)⟩
instance : OfScientific Dbl := ⟨fun m s e => rnd (OfScientific.ofScientific m s e : ℚ)⟩

/-- Binary search for `⌊√n⌋`: the bits `2^(k-1), …, 2^0` of the result, above `acc`. -/
def isqrt_aux : Nat → Nat → Nat → Nat
  | 0, acc, _ => acc
  | k + 1, acc, n =>
    if (acc + 2 ^ k) ^ 2 ≤ n then isqrt_aux k (acc + 2 ^ k) n else isqrt_aux k acc n

/-- The number `⌊√n⌋` for `n < 2^106`. -/
def isqrt (n : Nat) : Nat := withNat n fun m => isqrt_aux 53 0 m

/-- The function `sqrt` of the C library, correctly rounded as IEEE 754 requires: for
`q > 0` with `2^e ≤ q < 2^(e+1)` the result lies in `[2^⌊e/2⌋, 2^(⌊e/2⌋+1))`, where the
spacing of the `double`s is `u = 2^(⌊e/2⌋-52)`; it is `n·u` or `(n+1)·u` for
`n = ⌊√q / u⌋`, whichever is nearer (the midpoint is never met). -/
def dsqrt : Dbl → Dbl
  | .nan => .nan
  | .nzero => .nzero
  | .inf s => if s then .nan else .inf false
  | .fin q =>
    if q < 0 then .nan
    else if q = 0 then .fin 0
    else
      let u := pow2 (flog2 q.num.natAbs q.den / 2 - 52)
      let t := q / (u * u)
      let n := isqrt ⌊t⌋.toNat
      .fin ((if t < ((2 * n + 1 : Nat) : ℚ) ^ 2 / 4 then (n : ℚ) else (n : ℚ) + 1) * u)

/-- The conversion of an `int` to `double`. -/
def ofInt (i : Int) : Dbl := rnd (i : ℚ)

/-- Binary search for `⌊log₁₀ n⌋`: the bits `2^(k-1), …, 2^0` of the result, above `acc`. -/
def ndigits_aux : Nat → Nat → Nat → Nat
  | 0, acc, _ => acc
  | k + 1, acc, n =>
    if 10 ^ (acc + 2 ^ k) ≤ n then ndigits_aux k (acc + 2 ^ k) n else ndigits_aux k acc n

/-- The number of decimal digits of `n < 10^1024`; the number `0` has one digit. -/
def ndigits (n : Nat) : Nat := withNat n fun m => ndigits_aux 10 0 m + 1

/-- The number of characters of an `int` under `%d`. -/
def ilen (n : Int) : Nat := (if n < 0 then 1 else 0) + ndigits n.natAbs

/-- The number of characters of a `double` under `%.pf`: for a finite value a sign if it
is negative, the digits of the integer part of the value rounded to `p` places, the point
and `p` digits; `-0.0` prints with its sign, the infinities as `inf` and `-inf`, NaN as
`nan`. -/
def flen (p : Nat) : Dbl → Nat
  | .fin q => (if q < 0 then 1 else 0) + ndigits (⌊|q| * 10 ^ p + 1 / 2⌋.toNat / 10 ^ p) + 1 + p
  | .nzero => 3 + p
  | .inf s => if s then 4 else 3
  | .nan => 3

/-- The real number `a·x² + b·x + c` at finite `double`s: the value of the quadratic
before any rounding. -/
def real_f (a b c x : Dbl) : ℚ := FalsePosition.fquad a.val b.val c.val x.val

/-- The real number `b² − 4ac` at finite `double`s. -/
def real_disc (a b c : Dbl) : ℚ := b.val * b.val - 4 * a.val * c.val


/-- One row of the iteration table (`FPRow`), every `double` field a `Dbl`. -/
structure FPRow where
  n : Int
  xl : Dbl
  xu : Dbl
  xr : Dbl
  fxl : Dbl
  fxu : Dbl
  fxr : Dbl
  ea : Dbl
deriving DecidableEq

/-- What `false_position` leaves behind: its return value, the row buffer, `*root` and `err`. -/
structure FPOut where
  ret : Int
  rows : Nat → FPRow
  root : Dbl
  err : String

/-- The local variables of the loop of `false_position`, with the row buffer. -/
structure FPState where
  n : Nat
  xl : Dbl
  xu : Dbl
  fxl : Dbl
  fxu : Dbl
  xr_old : Dbl
  rows : Nat → FPRow

/-- The three ways one pass of the loop body can end. -/
inductive PassOut where
  | fail (err : String)
  | conv (rows : Nat → FPRow) (root : Dbl)
  | cont (s : FPState)

/-- What a loop of `snprintf` calls leaves in a buffer of `max` bytes: the entries whose
text fits in full, and `pos` after the loop. With `pos > max` the closing `snprintf` of
lines 171 and 202 is handed a negative size and writes outside the buffer. -/
structure TextOut (α : Type) where
  whole : List α
  pos : Int
deriving DecidableEq

/-- The values handed to the final `snprintf` of `build_json`, or the text of a failure body. -/
inductive Response where
  | failure (jbody : String)
  | success (root froot : Dbl) (iterations : Int) (last_ea : Dbl) (dtype : Int)
      (disc_val r1 r2 : Dbl) (graph : TextOut (Dbl × Dbl)) (table : TextOut FPRow)
deriving DecidableEq

/-- The function `fquad`, line 43: `a*x*x + b*x + c`, each operation rounded. -/
def fquad (a b c x : Dbl) : Dbl := a * x * x + b * x + c

/-- The value of `ea` of a pass, line 105: `100.0` in the first pass (`n == 0`), and
`fabs((xr - xr_old) / xr) * 100.0` later. -/
def ea_of (n : Nat) (xr xr_old : Dbl) : Dbl :=
  if n = 0 then 100.0 else fabs ((xr - xr_old) / xr) * 100.0

/-- The body of the loop of `false_position`, lines 96-126. -/
def fp_pass (a b c tol : Dbl) (s : FPState) : PassOut :=
  withDbl (s.fxl - s.fxu) fun denom =>
    if fabs denom < 1e-15 then .fail DENOM_MSG
    else
      withDbl (s.xu - s.fxu * (s.xl - s.xu) / denom) fun xr =>
        withDbl (fquad a b c xr) fun fxr =>
          withDbl (ea_of s.n xr s.xr_old) fun ea =>
            let rows := Function.update s.rows s.n
              ⟨(s.n : Int) + 1, s.xl, s.xu, xr, s.fxl, s.fxu, fxr, ea⟩
            if fabs fxr < 1e-14 ∨ (0 < s.n ∧ ea < tol) then .conv rows xr
            else if s.fxl * fxr < 0.0 then .cont ⟨s.n + 1, s.xl, xr, s.fxl, fxr, xr, rows⟩
            else .cont ⟨s.n + 1, xr, s.xu, fxr, s.fxu, xr, rows⟩

/-- The loop of `false_position`; `left` is `MAX_ITER - n`, so `left = 0` is the exit
through the loop condition, lines 128-129. -/
def fp_loop (a b c tol root : Dbl) (err : String) : Nat → FPState → FPOut
  | 0, s => ⟨(s.n : Int), s.rows, (s.rows (s.n - 1)).xr, err⟩
  | left + 1, s =>
    match fp_pass a b c tol s with
    | .fail e => ⟨-1, s.rows, root, e⟩
    | .conv rows xr => ⟨(s.n : Int) + 1, rows, xr, err⟩
    | .cont s' => fp_loop a b c tol root err left s'

/-- The function `false_position`, lines 79-130. -/
def false_position (a b c xl xu tol : Dbl) (rows : Nat → FPRow) (root : Dbl) (err : String) :
    FPOut :=
  withDbl (fquad a b c xl) fun fxl =>
    withDbl (fquad a b c xu) fun fxu =>
      if fxl * fxu > 0.0 then ⟨-1, rows, root, NO_BRACKET_MSG⟩
      else
        let tol := if tol ≤ 0.0 then 1e-4 else tol
        fp_loop a b c tol root err MAX_ITER ⟨0, xl, xu, fxl, fxu, xl, rows⟩

/-- The function `discriminant_info`, lines 135-149, with the `sqrt` of the C library as a
parameter: the tag, and `*r1`, `*r2` after the call. -/
def discriminant_info (sqrt : Dbl → Dbl) (a b c r1 r2 : Dbl) : Int × Dbl × Dbl :=
  let disc := b * b - 4.0 * a * c
  if disc > 0.0 then (2, (-b + sqrt disc) / (2.0 * a), (-b - sqrt disc) / (2.0 * a))
  else if fabs disc < 1e-12 then (1, -b / (2.0 * a), -b / (2.0 * a))
  else (0, r1, r2)

/-- The number of characters of the point format of line 169, 11 characters around two
`%.6f`: what `snprintf` returns for it. -/
def point_len (x y : Dbl) : Nat := 11 + flen 6 x + flen 6 y

/-- The number of characters of the row format of lines 193-196, 51 characters around a
`%d`, six `%.8f` and a `%.6f`. -/
def row_len (r : FPRow) : Nat :=
  51 + ilen r.n + flen 8 r.xl + flen 8 r.xu + flen 8 r.xr + flen 8 r.fxl + flen 8 r.fxu +
    flen 8 r.fxr + flen 6 r.ea

/-- The loop of `graph_json`, lines 164-170; `left` is `steps + 1 - i`. A point is written
in full when its text is shorter than the `max - pos` bytes `snprintf` is given; `pos`
advances by the full length in either case. -/
def graph_loop (a b c gxl step : Dbl) (max : Int) :
    Nat → Nat → Int → List (Dbl × Dbl) → TextOut (Dbl × Dbl)
  | 0, _, pos, acc => ⟨acc, pos⟩
  | left + 1, i, pos, acc =>
    if pos < max - 80 then
      withDbl (gxl + ofInt i * step) fun x =>
        withDbl (fquad a b c x) fun y =>
          withInt (if i ≠ 0 then pos + 1 else pos) fun pos =>
            withNat (point_len x y) fun len =>
              withInt (pos + len) fun pos' =>
                graph_loop a b c gxl step max left (i + 1) pos'
                  (if (len : Int) < max - pos then acc ++ [(x, y)] else acc)
    else ⟨acc, pos⟩

/-- The function `graph_json`, lines 154-172, on a buffer of `max` bytes. -/
def graph_json (a b c xl xu : Dbl) (max : Int) : TextOut (Dbl × Dbl) :=
  withDbl (fabs (xu - xl)) fun span =>
    withDbl (xl - span * 0.5) fun gxl =>
      withDbl (xu + span * 0.5) fun gxr =>
        let steps : Int := 200
        withDbl ((gxr - gxl) / ofInt steps) fun step =>
          graph_loop a b c gxl step max (steps.toNat + 1) 0 1 []

/-- The table loop of `build_json`, lines 190-201; `left` is `nrows - i`. -/
def table_loop (rows : Nat → FPRow) (max : Int) :
    Nat → Nat → Int → List FPRow → TextOut FPRow
  | 0, _, tp, acc => ⟨acc, tp⟩
  | left + 1, i, tp, acc =>
    if tp < max - 300 then
      withInt (if i ≠ 0 then tp + 1 else tp) fun tp =>
        withNat (row_len (rows i)) fun len =>
          withInt (tp + len) fun tp' =>
            table_loop rows max left (i + 1) tp'
              (if (len : Int) < max - tp then acc ++ [rows i] else acc)
    else ⟨acc, tp⟩

/-- The function `build_json`, lines 177-238. -/
def build_json (sqrt : Dbl → Dbl) (ca cb cc xl_orig xu_orig : Dbl) (rows : Nat → FPRow)
    (nrows : Int) (root : Dbl) : Response :=
  let graph := graph_json ca cb cc xl_orig xu_orig 65536
  let table := table_loop rows 65536 nrows.toNat 0 1 []
  let d := discriminant_info sqrt ca cb cc 0 0
  let disc_val := cb * cb - 4.0 * ca * cc
  let froot := fquad ca cb cc root
  let last_ea := if nrows > 1 then (rows (nrows - 1).toNat).ea else 100.0
  .success root froot nrows last_ea d.1 disc_val d.2.1 d.2.2 graph table

/-- The function `handle_solve`, lines 286-304, from the six parsed numbers: the response
and the static row buffer after the request. -/
def handle_solve (sqrt : Dbl → Dbl) (ca cb cc xl xu tol : Dbl) (rows : Nat → FPRow) :
    Response × (Nat → FPRow) :=
  if fabs ca < 1e-10 then (.failure DOMAIN_BODY, rows)
  else
    let r := false_position ca cb cc xl xu tol rows 0.0 ""
    if r.ret < 0 then (.failure (failure_body r.err), r.rows)
    else (build_json sqrt ca cb cc xl xu r.rows r.ret r.root, r.rows)

/-! ### Views of the loop used by the proofs -/

/-- The estimate `xr` of a pass, line 102. -/
def xr_of (s : FPState) : Dbl := s.xu - s.fxu * (s.xl - s.xu) / (s.fxl - s.fxu)

/-- The row a pass writes at index `s.n`, lines 107-114. -/
def row_of (a b c : Dbl) (s : FPState) : FPRow :=
  ⟨(s.n : Int) + 1, s.xl, s.xu, xr_of s, s.fxl, s.fxu, fquad a b c (xr_of s),
    ea_of s.n (xr_of s) s.xr_old⟩

/-- The convergence test of a pass, line 117. -/
def conv_test (a b c tol : Dbl) (s : FPState) : Prop :=
  fabs (fquad a b c (xr_of s)) < 1e-14 ∨ (0 < s.n ∧ ea_of s.n (xr_of s) s.xr_old < tol)

instance (a b c tol : Dbl) (s : FPState) : Decidable (conv_test a b c tol s) := by
  unfold conv_test; infer_instance

/-- The state the bracket update of lines 123-126 leaves for the next pass. -/
def fp_next (a b c : Dbl) (s : FPState) : FPState :=
  if s.fxl * fquad a b c (xr_of s) < 0.0 then
    ⟨s.n + 1, s.xl, xr_of s, s.fxl, fquad a b c (xr_of s), xr_of s,
      Function.update s.rows s.n (row_of a b c s)⟩
  else
    ⟨s.n + 1, xr_of s, s.xu, fquad a b c (xr_of s), s.fxu, xr_of s,
      Function.update s.rows s.n (row_of a b c s)⟩

/-- The state at the start of pass `i` (0-based) when no earlier pass has stopped. -/
def fp_state (a b c : Dbl) (s : FPState) (i : Nat) : FPState := (fp_next a b c)^[i] s

/-- The start state of the loop of `false_position`, lines 83-93. -/
def fp_init (a b c xl xu : Dbl) (rows : Nat → FPRow) : FPState :=
  ⟨0, xl, xu, fquad a b c xl, fquad a b c xu, xl, rows⟩

/-- The tolerance after line 90. -/
def norm_tol (tol : Dbl) : Dbl := if tol ≤ 0.0 then 1e-4 else tol

/-- The row of a zero-initialised static buffer. -/
def zeroRow : FPRow := ⟨0, .fin 0, .fin 0, .fin 0, .fin 0, .fin 0, .fin 0, .fin 0⟩

/-- The static row buffer of `handle_solve` before the first request. -/
def zeroRows : Nat → FPRow := fun _ => zeroRow

/-- Two `double`s of strictly opposite signs: one below zero, the other above. -/
def opp_sign (x y : Dbl) : Prop := (x < 0.0 ∧ 0.0 < y) ∨ (0.0 < x ∧ y < 0.0)

/-- Two `double`s of the same strict sign. -/
def same_sign (x y : Dbl) : Prop := (x < 0.0 ∧ y < 0.0) ∨ (0.0 < x ∧ 0.0 < y)

instance (x y : Dbl) : Decidable (opp_sign x y) := by unfold opp_sign; infer_instance
instance (x y : Dbl) : Decidable (same_sign x y) := by unfold same_sign; infer_instance

end B64

/-! ## Lemmas on the run of the solver -/

section Lemmas
variable {K : Type} [LinearOrderedField K]

theorem fp_pass_fail {a b c tol : K} {s : FPState K} {e : String}
    (h : fp_pass a b c tol s = .fail e) : |s.fxl - s.fxu| < 1e-15 ∧ e = DENOM_MSG := by
  unfold fp_pass at h
  simp only at h
  split_ifs at h with h1 h2 h3
  · exact ⟨h1, by injection h with h; exact h.symm⟩

theorem fp_pass_conv {a b c tol : K} {s : FPState K} {rows : Nat → FPRow K} {xr : K}
    (h : fp_pass a b c tol s = .conv rows xr) :
    ¬ |s.fxl - s.fxu| < 1e-15 ∧ conv_test a b c tol s ∧ xr = xr_of s ∧
      rows = Function.update s.rows s.n (row_of a b c s) := by
  unfold fp_pass at h
  simp only at h
  split_ifs at h with h1 h2 h3
  · injection h with hr hx
    exact ⟨h1, h2, hx.symm, hr.symm⟩

theorem fp_pass_cont {a b c tol : K} {s s' : FPState K}
    (h : fp_pass a b c tol s = .cont s') :
    ¬ |s.fxl - s.fxu| < 1e-15 ∧ ¬ conv_test a b c tol s ∧
      ((s.fxl * fquad a b c (xr_of s) < 0 ∧
          s' = ⟨s.n + 1, s.xl, xr_of s, s.fxl, fquad a b c (xr_of s), xr_of s,
            Function.update s.rows s.n (row_of a b c s)⟩) ∨
        (¬ s.fxl * fquad a b c (xr_of s) < 0 ∧
          s' = ⟨s.n + 1, xr_of s, s.xu, fquad a b c (xr_of s), s.fxu, xr_of s,
            Function.update s.rows s.n (row_of a b c s)⟩)) := by
  unfold fp_pass at h
  simp only at h
  split_ifs at h with h1 h2 h3
  · injection h with h
    exact ⟨h1, h2, Or.inl ⟨h3, h.symm⟩⟩
  · injection h with h
    exact ⟨h1, h2, Or.inr ⟨h3, h.symm⟩⟩

theorem fp_next_n (a b c : K) (s : FPState K) : (fp_next a b c s).n = s.n + 1 := by
  unfold fp_next; split <;> rfl

theorem fp_next_rows (a b c : K) (s : FPState K) :
    (fp_next a b c s).rows = Function.update s.rows s.n (row_of a b c s) := by
  unfold fp_next; split <;> rfl

theorem fp_loop_succ (a b c tol root : K) (err : String) (k : Nat) (s : FPState K) :
    fp_loop a b c tol root err (k + 1) s =
      match fp_pass a b c tol s with
      | .fail e => ⟨-1, s.rows, root, e⟩
      | .conv rows xr => ⟨(s.n : Int) + 1, rows, xr, err⟩
      | .cont s' => fp_loop a b c tol root err k s' := rfl

theorem fp_pass_cont_eq {a b c tol : K} {s s' : FPState K}
    (h : fp_pass a b c tol s = .cont s') : s' = fp_next a b c s := by
  rcases (fp_pass_cont h).2.2 with ⟨h3, rfl⟩ | ⟨h3, rfl⟩
  · unfold fp_next; rw [if_pos h3]
  · unfold fp_next; rw [if_neg h3]

theorem fp_state_succ (a b c : K) (s : FPState K) (i : Nat) :
    fp_state a b c s (i + 1) = fp_state a b c (fp_next a b c s) i := by
  unfold fp_state; rw [Function.iterate_succ_apply]

theorem fp_state_succ2 (a b c : K) (s : FPState K) (i : Nat) :
    fp_state a b c s (i + 1) = fp_next a b c (fp_state a b c s i) := by
  unfold fp_state; rw [Function.iterate_succ_apply']

/-- The run of the loop: the passes `0 .. j-1` go on, and pass `j` fails, converges, or
`j` passes were all there were. -/
theorem fp_loop_spec (a b c tol root : K) (err : String) :
    ∀ (k : Nat) (s : FPState K), ∃ j, j ≤ k ∧
      (∀ i, i < j → ¬ |(fp_state a b c s i).fxl - (fp_state a b c s i).fxu| < 1e-15 ∧
        ¬ conv_test a b c tol (fp_state a b c s i)) ∧
      ((j < k ∧ |(fp_state a b c s j).fxl - (fp_state a b c s j).fxu| < 1e-15 ∧
          fp_loop a b c tol root err k s = ⟨-1, (fp_state a b c s j).rows, root, DENOM_MSG⟩) ∨
        (j < k ∧ ¬ |(fp_state a b c s j).fxl - (fp_state a b c s j).fxu| < 1e-15 ∧
          conv_test a b c tol (fp_state a b c s j) ∧
          fp_loop a b c tol root err k s =
            ⟨((fp_state a b c s j).n : Int) + 1, (fp_state a b c s (j + 1)).rows,
              xr_of (fp_state a b c s j), err⟩) ∨
        (j = k ∧ fp_loop a b c tol root err k s =
            ⟨((fp_state a b c s j).n : Int), (fp_state a b c s j).rows,
              ((fp_state a b c s j).rows ((fp_state a b c s j).n - 1)).xr, err⟩)) := by
  intro k
  induction k with
  | zero =>
    intro s
    exact ⟨0, le_refl _, fun i hi => absurd hi (Nat.not_lt_zero i), Or.inr (Or.inr ⟨rfl, rfl⟩)⟩
  | succ k ih =>
    intro s
    cases hp : fp_pass a b c tol s with
    | fail e =>
      obtain ⟨h1, rfl⟩ := fp_pass_fail hp
      refine ⟨0, Nat.zero_le _, fun i hi => absurd hi (Nat.not_lt_zero i), Or.inl ⟨Nat.succ_pos k, h1, ?_⟩⟩
      rw [fp_loop_succ, hp]; rfl
    | conv rows xr =>
      obtain ⟨h1, h2, rfl, rfl⟩ := fp_pass_conv hp
      refine ⟨0, Nat.zero_le _, fun i hi => absurd hi (Nat.not_lt_zero i),
        Or.inr (Or.inl ⟨Nat.succ_pos k, h1, h2, ?_⟩)⟩
      rw [fp_loop_succ, hp]
      show _ = FPOut.mk _ (fp_next a b c s).rows _ _
      rw [fp_next_rows]; rfl
    | cont s' =>
      have hs' := fp_pass_cont_eq hp
      obtain ⟨h1, h2, -⟩ := fp_pass_cont hp
      subst hs'
      have hl : fp_loop a b c tol root err (k + 1) s =
          fp_loop a b c tol root err k (fp_next a b c s) := by
        rw [fp_loop_succ, hp]
      obtain ⟨j, hjk, hgo, hend⟩ := ih (fp_next a b c s)
      refine ⟨j + 1, Nat.succ_le_succ hjk, ?_, ?_⟩
      · intro i hi
        cases i with
        | zero => exact ⟨h1, h2⟩
        | succ i =>
          rw [fp_state_succ]
          exact hgo i (Nat.lt_of_succ_lt_succ hi)
      · rw [hl]
        simp only [fp_state_succ]
        rcases hend with ⟨hj, hd, he⟩ | ⟨hj, hd, hc, he⟩ | ⟨hj, he⟩
        · exact Or.inl ⟨Nat.succ_lt_succ hj, hd, he⟩
        · exact Or.inr (Or.inl ⟨Nat.succ_lt_succ hj, hd, hc, he⟩)
        · exact Or.inr (Or.inr ⟨by rw [hj], he⟩)

theorem abs_le_abs_sub_of_mul_neg {x y : K} (h : x * y < 0) : |x| ≤ |x - y| ∧ |y| ≤ |x - y| := by
  rcases mul_neg_iff.mp h with ⟨hx, hy⟩ | ⟨hx, hy⟩
  · rw [abs_of_pos hx, abs_of_neg hy, abs_of_pos (by linarith)]
    constructor <;> linarith
  · rw [abs_of_neg hx, abs_of_pos hy, abs_of_neg (by linarith)]
    constructor <;> linarith


theorem fp_state_zero (a b c : K) (s : FPState K) : fp_state a b c s 0 = s := rfl

theorem fp_state_n (a b c : K) (s : FPState K) (i : Nat) : (fp_state a b c s i).n = s.n + i := by
  induction i with
  | zero => rfl
  | succ i ih => rw [fp_state_succ2, fp_next_n, ih]; rfl

/-- Pass `i` writes the row of index `s.n + i` only. -/
theorem fp_state_rows (a b c : K) (s : FPState K) (i idx : Nat) :
    (fp_state a b c s i).rows idx =
      if s.n ≤ idx ∧ idx < s.n + i then row_of a b c (fp_state a b c s (idx - s.n))
      else s.rows idx := by
  induction i with
  | zero =>
    rw [if_neg (by omega)]; rfl
  | succ i ih =>
    rw [fp_state_succ2, fp_next_rows, fp_state_n, Function.update_apply]
    by_cases h : idx = s.n + i
    · rw [if_pos h, if_pos (by omega)]
      have : idx - s.n = i := by omega
      rw [this]
    · rw [if_neg h, ih]
      by_cases h2 : s.n ≤ idx ∧ idx < s.n + i
      · rw [if_pos h2, if_pos (by omega)]
      · rw [if_neg h2, if_neg (by omega)]

/-- One non-converging pass keeps a strict bracket, and leaves endpoint values that are
at least `1e-14` apart. -/
theorem fp_next_bracket (a b c : K) (s : FPState K) (hb : s.fxl * s.fxu < 0)
    (hc : ¬ |fquad a b c (xr_of s)| < 1e-14) :
    (fp_next a b c s).fxl * (fp_next a b c s).fxu < 0 ∧
      1e-14 ≤ |(fp_next a b c s).fxl - (fp_next a b c s).fxu| := by
  have hc1 : (1e-14 : K) ≤ |fquad a b c (xr_of s)| := not_lt.mp hc
  have hpos : (0 : K) < 1e-14 := by norm_num
  have hne : fquad a b c (xr_of s) ≠ 0 := by
    intro h0
    rw [h0, abs_zero] at hc1
    exact absurd hpos (not_lt.mpr hc1)
  unfold fp_next
  split
  · next h3 =>
    exact ⟨h3, le_trans hc1 (abs_le_abs_sub_of_mul_neg h3).2⟩
  · next h3 =>
    have hxl : s.fxl ≠ 0 := by
      intro h0; rw [h0, zero_mul] at hb; exact lt_irrefl _ hb
    have h4 : 0 < s.fxl * fquad a b c (xr_of s) :=
      lt_of_le_of_ne (not_lt.mp h3) (Ne.symm (mul_ne_zero hxl hne))
    have h5 : fquad a b c (xr_of s) * s.fxu < 0 := by
      have h6 : (s.fxl * fquad a b c (xr_of s)) * (s.fxl * s.fxu) < 0 :=
        mul_neg_of_pos_of_neg h4 hb
      have h7 : (s.fxl * fquad a b c (xr_of s)) * (s.fxl * s.fxu) =
          (s.fxl * s.fxl) * (fquad a b c (xr_of s) * s.fxu) := by ring
      rw [h7] at h6
      have h8 : 0 < s.fxl * s.fxl := mul_self_pos.mpr hxl
      by_contra hcon
      exact absurd h6 (not_lt.mpr (mul_nonneg h8.le (not_lt.mp hcon)))
    exact ⟨h5, le_trans hc1 (abs_le_abs_sub_of_mul_neg h5).1⟩

/-- From a strict bracket, the state of every pass that is reached is a strict bracket. -/
theorem fp_state_bracket (a b c tol : K) (s : FPState K) (hb : s.fxl * s.fxu < 0) (j : Nat)
    (hgo : ∀ i, i < j → ¬ conv_test a b c tol (fp_state a b c s i)) :
    (fp_state a b c s j).fxl * (fp_state a b c s j).fxu < 0 ∧
      (0 < j → 1e-14 ≤ |(fp_state a b c s j).fxl - (fp_state a b c s j).fxu|) := by
  induction j with
  | zero => exact ⟨hb, fun h => absurd h (lt_irrefl 0)⟩
  | succ j ih =>
    have hj := (ih (fun i hi => hgo i (Nat.lt_succ_of_lt hi))).1
    have hc : ¬ |fquad a b c (xr_of (fp_state a b c s j))| < 1e-14 :=
      fun h => hgo j (Nat.lt_succ_self j) (Or.inl h)
    rw [fp_state_succ2]
    exact ⟨(fp_next_bracket a b c _ hj hc).1, fun _ => (fp_next_bracket a b c _ hj hc).2⟩

theorem false_position_no_bracket (a b c xl xu tol : K) (rows : Nat → FPRow K) (root : K)
    (err : String) (h : fquad a b c xl * fquad a b c xu > 0) :
    false_position a b c xl xu tol rows root err = ⟨-1, rows, root, NO_BRACKET_MSG⟩ := by
  unfold false_position
  simp only
  rw [if_pos h]

theorem false_position_loop (a b c xl xu tol : K) (rows : Nat → FPRow K) (root : K)
    (err : String) (h : ¬ fquad a b c xl * fquad a b c xu > 0) :
    false_position a b c xl xu tol rows root err =
      fp_loop a b c (norm_tol tol) root err MAX_ITER (fp_init a b c xl xu rows) := by
  unfold false_position
  simp only
  rw [if_neg h]
  rfl

/-- The run of `false_position` once the bracket check is passed: either pass `j` fails on
its denominator, or `m` records are written and the call succeeds. -/
theorem false_position_run (a b c xl xu tol : K) (rows : Nat → FPRow K) (root : K)
    (err : String) (h : ¬ fquad a b c xl * fquad a b c xu > 0) :
    (∃ j : Nat, j < 200 ∧
      (∀ i, i < j → ¬ |(fp_state a b c (fp_init a b c xl xu rows) i).fxl -
          (fp_state a b c (fp_init a b c xl xu rows) i).fxu| < 1e-15 ∧
        ¬ conv_test a b c (norm_tol tol) (fp_state a b c (fp_init a b c xl xu rows) i)) ∧
      |(fp_state a b c (fp_init a b c xl xu rows) j).fxl -
          (fp_state a b c (fp_init a b c xl xu rows) j).fxu| < 1e-15 ∧
      false_position a b c xl xu tol rows root err =
        ⟨-1, (fp_state a b c (fp_init a b c xl xu rows) j).rows, root, DENOM_MSG⟩) ∨
    (∃ m : Nat, 1 ≤ m ∧ m ≤ 200 ∧
      (∀ i, i < m → ¬ |(fp_state a b c (fp_init a b c xl xu rows) i).fxl -
          (fp_state a b c (fp_init a b c xl xu rows) i).fxu| < 1e-15) ∧
      (∀ i, i + 1 < m →
        ¬ conv_test a b c (norm_tol tol) (fp_state a b c (fp_init a b c xl xu rows) i)) ∧
      (conv_test a b c (norm_tol tol) (fp_state a b c (fp_init a b c xl xu rows) (m - 1)) ∨
        m = 200) ∧
      false_position a b c xl xu tol rows root err =
        ⟨((m : Nat) : Int), (fp_state a b c (fp_init a b c xl xu rows) m).rows,
          xr_of (fp_state a b c (fp_init a b c xl xu rows) (m - 1)), err⟩) := by
  rw [false_position_loop a b c xl xu tol rows root err h]
  obtain ⟨j, hj, hgo, hend⟩ :=
    fp_loop_spec a b c (norm_tol tol) root err MAX_ITER (fp_init a b c xl xu rows)
  have hM : MAX_ITER = 200 := rfl
  rw [hM] at hj hend ⊢
  have hn : ∀ i, (fp_state a b c (fp_init a b c xl xu rows) i).n = i := by
    intro i; rw [fp_state_n]; exact Nat.zero_add i
  rcases hend with ⟨hlt, hd, he⟩ | ⟨hlt, hd, hc, he⟩ | ⟨heq, he⟩
  · exact Or.inl ⟨j, hlt, hgo, hd, he⟩
  · refine Or.inr ⟨j + 1, Nat.succ_pos j, hlt, ?_, ?_, Or.inl hc, ?_⟩
    · intro i hi
      rcases Nat.lt_succ_iff_lt_or_eq.mp hi with h1 | h1
      · exact (hgo i h1).1
      · rw [h1]; exact hd
    · intro i hi
      exact (hgo i (by omega)).2
    · rw [he, hn]
      rfl
  · subst heq
    refine Or.inr ⟨200, by norm_num, le_refl _, fun i hi => (hgo i hi).1,
      fun i hi => (hgo i (by omega)).2, Or.inr rfl, ?_⟩
    rw [he, hn, fp_state_rows]
    rw [if_pos (by simp [fp_init])]
    rfl


/-- When an endpoint value is zero at the start and the denominator is accepted, the
first estimate is the endpoint that is a root. -/
theorem fp_init_zero (a b c xl xu : K) (rows : Nat → FPRow K)
    (h0 : fquad a b c xl * fquad a b c xu = 0)
    (hd : ¬ |fquad a b c xl - fquad a b c xu| < 1e-15) :
    fquad a b c (xr_of (fp_init a b c xl xu rows)) = 0 ∧
      (xr_of (fp_init a b c xl xu rows) = xl ∨ xr_of (fp_init a b c xl xu rows) = xu) := by
  have hpos : (0 : K) < 1e-15 := by norm_num
  have hne : fquad a b c xl - fquad a b c xu ≠ 0 := by
    intro h; rw [h, abs_zero] at hd; exact hd hpos
  rcases mul_eq_zero.mp h0 with h | h
  · have hu : fquad a b c xu ≠ 0 := by
      intro hu; rw [h, hu, sub_zero] at hne; exact hne rfl
    have hx : xr_of (fp_init a b c xl xu rows) = xl := by
      simp only [xr_of, fp_init, h, zero_sub]
      rw [div_neg, mul_div_assoc, mul_div_cancel₀ _ hu]
      ring
    rw [hx]
    exact ⟨h, Or.inl rfl⟩
  · have hx : xr_of (fp_init a b c xl xu rows) = xu := by
      simp only [xr_of, fp_init, h]
      simp
    rw [hx]
    exact ⟨h, Or.inr rfl⟩

/-- The outcome of `false_position` once the bracket check is passed: the only failure is
the denominator check of the first pass; otherwise `m` records are written, no pass but
the last meets the convergence test, and the last one does unless it is pass 200. -/
theorem false_position_outcome (a b c xl xu tol : K) (rows : Nat → FPRow K) (root : K)
    (err : String) (h : ¬ fquad a b c xl * fquad a b c xu > 0) :
    (|fquad a b c xl - fquad a b c xu| < 1e-15 ∧
      false_position a b c xl xu tol rows root err = ⟨-1, rows, root, DENOM_MSG⟩) ∨
    (¬ |fquad a b c xl - fquad a b c xu| < 1e-15 ∧ ∃ m : Nat, 1 ≤ m ∧ m ≤ 200 ∧
      (∀ i, i < m → ¬ |(fp_state a b c (fp_init a b c xl xu rows) i).fxl -
          (fp_state a b c (fp_init a b c xl xu rows) i).fxu| < 1e-15) ∧
      (∀ i, i + 1 < m →
        ¬ conv_test a b c (norm_tol tol) (fp_state a b c (fp_init a b c xl xu rows) i)) ∧
      (conv_test a b c (norm_tol tol) (fp_state a b c (fp_init a b c xl xu rows) (m - 1)) ∨
        m = 200) ∧
      false_position a b c xl xu tol rows root err =
        ⟨((m : Nat) : Int), (fp_state a b c (fp_init a b c xl xu rows) m).rows,
          xr_of (fp_state a b c (fp_init a b c xl xu rows) (m - 1)), err⟩) := by
  rcases false_position_run a b c xl xu tol rows root err h with
    ⟨j, _, hgo, hd, he⟩ | ⟨m, hm1, hm2, hd, hgo, hc, he⟩
  · cases j with
    | zero => exact Or.inl ⟨hd, he⟩
    | succ j =>
      exfalso
      have h0 := hgo 0 (Nat.succ_pos j)
      rcases lt_or_eq_of_le (not_lt.mp h) with hlt | heq
      · have hb := (fp_state_bracket a b c (norm_tol tol) (fp_init a b c xl xu rows) hlt (j + 1)
          (fun i hi => (hgo i hi).2)).2 (Nat.succ_pos j)
        have : (1e-15 : K) < 1e-14 := by norm_num
        exact absurd (lt_of_lt_of_le this hb) (not_lt.mpr hd.le)
      · exact h0.2 (Or.inl (by
          rw [fp_state_zero, (fp_init_zero a b c xl xu rows heq h0.1).1, abs_zero]; norm_num))
  · exact Or.inr ⟨hd 0 hm1, m, hm1, hm2, hd, hgo, hc, he⟩

/-- The rows of the buffer after `m` passes: row `i < m` is the row of pass `i`, the
others are the caller's. -/
theorem fp_init_rows (a b c xl xu : K) (rows : Nat → FPRow K) (m idx : Nat) :
    (fp_state a b c (fp_init a b c xl xu rows) m).rows idx =
      if idx < m then row_of a b c (fp_state a b c (fp_init a b c xl xu rows) idx)
      else rows idx := by
  rw [fp_state_rows]
  have h0 : (fp_init a b c xl xu rows).n = 0 := rfl
  rw [h0]
  by_cases h : idx < m
  · rw [if_pos h, if_pos (by omega)]; rfl
  · rw [if_neg h, if_neg (by omega)]; rfl

theorem fp_next_with_rows (a b c : K) (s : FPState K) (r r0 : Nat → FPRow K) :
    with_rows (fp_next a b c (with_rows s r)) r0 = with_rows (fp_next a b c s) r0 := by
  unfold fp_next
  by_cases h : s.fxl * fquad a b c (xr_of s) < 0
  · rw [if_pos h, if_pos (show (with_rows s r).fxl * fquad a b c (xr_of (with_rows s r)) < 0 from h)]
    rfl
  · rw [if_neg h, if_neg (show ¬ (with_rows s r).fxl * fquad a b c (xr_of (with_rows s r)) < 0 from h)]
    rfl

theorem fp_next_forget (a b c : K) (s s' : FPState K) (r0 : Nat → FPRow K)
    (h : with_rows s r0 = with_rows s' r0) :
    with_rows (fp_next a b c s) r0 = with_rows (fp_next a b c s') r0 := by
  have h1 := fp_next_with_rows a b c s r0 r0
  have h2 := fp_next_with_rows a b c s' r0 r0
  rw [← h1, ← h2, h]

/-- The loop variables of a pass do not depend on the row buffer the run started from. -/
theorem fp_state_forget (a b c xl xu : K) (rows rows' r0 : Nat → FPRow K) (i : Nat) :
    with_rows (fp_state a b c (fp_init a b c xl xu rows) i) r0 =
      with_rows (fp_state a b c (fp_init a b c xl xu rows') i) r0 := by
  induction i with
  | zero => rfl
  | succ i ih =>
    rw [fp_state_succ2, fp_state_succ2]
    exact fp_next_forget a b c _ _ r0 ih

theorem xr_of_forget {s s' : FPState K} {r0 : Nat → FPRow K}
    (h : with_rows s r0 = with_rows s' r0) : xr_of s = xr_of s' := by
  have : xr_of (with_rows s r0) = xr_of (with_rows s' r0) := by rw [h]
  exact this

theorem row_of_forget (a b c : K) {s s' : FPState K} {r0 : Nat → FPRow K}
    (h : with_rows s r0 = with_rows s' r0) : row_of a b c s = row_of a b c s' := by
  have : row_of a b c (with_rows s r0) = row_of a b c (with_rows s' r0) := by rw [h]
  exact this

theorem conv_test_forget (a b c tol : K) {s s' : FPState K} {r0 : Nat → FPRow K}
    (h : with_rows s r0 = with_rows s' r0) : conv_test a b c tol s ↔ conv_test a b c tol s' := by
  have : conv_test a b c tol (with_rows s r0) ↔ conv_test a b c tol (with_rows s' r0) := by rw [h]
  exact this


/-- The record view of a run that passed the bracket check: a failure leaves everything
but `err` as it was; a success returns `m` records, row `i < m` being the row of pass `i`. -/
theorem false_position_records (a b c xl xu tol : K) (rows : Nat → FPRow K) (root : K)
    (err : String) (h : ¬ fquad a b c xl * fquad a b c xu > 0) :
    (|fquad a b c xl - fquad a b c xu| < 1e-15 ∧
      false_position a b c xl xu tol rows root err = ⟨-1, rows, root, DENOM_MSG⟩) ∨
    (¬ |fquad a b c xl - fquad a b c xu| < 1e-15 ∧ ∃ m : Nat, 1 ≤ m ∧ m ≤ 200 ∧
      (false_position a b c xl xu tol rows root err).ret = ((m : Nat) : Int) ∧
      (false_position a b c xl xu tol rows root err).err = err ∧
      (false_position a b c xl xu tol rows root err).root =
        xr_of (fp_state a b c (fp_init a b c xl xu rows) (m - 1)) ∧
      (∀ i, i < m → (false_position a b c xl xu tol rows root err).rows i =
        row_of a b c (fp_state a b c (fp_init a b c xl xu rows) i)) ∧
      (∀ i, m ≤ i → (false_position a b c xl xu tol rows root err).rows i = rows i) ∧
      (∀ i, i + 1 < m →
        ¬ conv_test a b c (norm_tol tol) (fp_state a b c (fp_init a b c xl xu rows) i)) ∧
      (conv_test a b c (norm_tol tol) (fp_state a b c (fp_init a b c xl xu rows) (m - 1)) ∨
        m = 200)) := by
  rcases false_position_outcome a b c xl xu tol rows root err h with
    hf | ⟨hd, m, hm1, hm2, _, hgo, hc, he⟩
  · exact Or.inl hf
  · refine Or.inr ⟨hd, m, hm1, hm2, ?_, ?_, ?_, ?_, ?_, hgo, hc⟩
    · rw [he]
    · rw [he]
    · rw [he]
    · intro i hi
      rw [he]
      show (fp_state a b c (fp_init a b c xl xu rows) m).rows i = _
      rw [fp_init_rows, if_pos hi]
    · intro i hi
      rw [he]
      show (fp_state a b c (fp_init a b c xl xu rows) m).rows i = _
      rw [fp_init_rows, if_neg (by omega)]

theorem fp_state_init_n (a b c xl xu : K) (rows : Nat → FPRow K) (i : Nat) :
    (fp_state a b c (fp_init a b c xl xu rows) i).n = i := by
  rw [fp_state_n]; exact Nat.zero_add i

/-- A run is settled by the loop variables alone: when pass `j < 200` is the first to meet
the convergence test, from whatever row buffer, `j + 1` records are returned. -/
theorem false_position_stop (a b c xl xu tol : K) (rows rows' : Nat → FPRow K) (root : K)
    (err : String) (j : Nat) (hj : j < 200)
    (hp : ¬ fquad a b c xl * fquad a b c xu > 0)
    (hd : ¬ |fquad a b c xl - fquad a b c xu| < 1e-15)
    (hgo : ∀ i, i < j →
      ¬ conv_test a b c (norm_tol tol) (fp_state a b c (fp_init a b c xl xu rows') i))
    (hc : conv_test a b c (norm_tol tol) (fp_state a b c (fp_init a b c xl xu rows') j)) :
    (false_position a b c xl xu tol rows root err).ret = ((j + 1 : Nat) : Int) ∧
    (false_position a b c xl xu tol rows root err).root =
      xr_of (fp_state a b c (fp_init a b c xl xu rows') j) ∧
    (∀ i, i ≤ j → (false_position a b c xl xu tol rows root err).rows i =
      row_of a b c (fp_state a b c (fp_init a b c xl xu rows') i)) := by
  have hfg := fun i => fp_state_forget a b c xl xu rows rows' rows i
  rcases false_position_records a b c xl xu tol rows root err hp with
    ⟨hd', _⟩ | ⟨_, m, hm1, hm2, hret, _, hroot, hrows, _, hgo', hc'⟩
  · exact absurd hd' hd
  · have hm : m = j + 1 := by
      rcases Nat.lt_trichotomy m (j + 1) with h | h | h
      · exfalso
        rcases hc' with hc' | hc'
        · exact hgo (m - 1) (by omega) ((conv_test_forget a b c _ (hfg (m - 1))).mp hc')
        · omega
      · exact h
      · exfalso
        exact hgo' j (by omega) ((conv_test_forget a b c _ (hfg j)).mpr hc)
    subst hm
    refine ⟨hret, ?_, ?_⟩
    · rw [hroot]
      exact xr_of_forget (hfg j)
    · intro i hi
      rw [hrows i (by omega)]
      exact row_of_forget a b c (hfg i)

/-- The carried values are the values of the quadratic at the endpoints, in every pass. -/
theorem fp_state_values (a b c xl xu : K) (rows : Nat → FPRow K) (i : Nat) :
    (fp_state a b c (fp_init a b c xl xu rows) i).fxl =
        fquad a b c (fp_state a b c (fp_init a b c xl xu rows) i).xl ∧
      (fp_state a b c (fp_init a b c xl xu rows) i).fxu =
        fquad a b c (fp_state a b c (fp_init a b c xl xu rows) i).xu := by
  induction i with
  | zero => exact ⟨rfl, rfl⟩
  | succ i ih =>
    rw [fp_state_succ2]
    unfold fp_next
    split
    · exact ⟨ih.1, rfl⟩
    · exact ⟨rfl, ih.2⟩

/-- The distances of the estimate from the two endpoints. -/
theorem xr_of_sub (s : FPState K) (hd : s.fxl - s.fxu ≠ 0) :
    xr_of s - s.xl = (s.xu - s.xl) * (s.fxl / (s.fxl - s.fxu)) ∧
      xr_of s - s.xu = (s.xu - s.xl) * (s.fxu / (s.fxl - s.fxu)) := by
  unfold xr_of
  constructor
  · field_simp
    ring
  · field_simp
    ring

/-- With values of strictly opposite signs at two distinct endpoints, the estimate lies
strictly between the endpoints. -/
theorem xr_of_between (s : FPState K) (hb : s.fxl * s.fxu < 0) (hne : s.xl ≠ s.xu) :
    min s.xl s.xu < xr_of s ∧ xr_of s < max s.xl s.xu := by
  have hd : s.fxl - s.fxu ≠ 0 := by
    intro h
    have : s.fxl = s.fxu := sub_eq_zero.mp h
    rw [this] at hb
    exact absurd hb (not_lt.mpr (mul_self_nonneg _))
  obtain ⟨h1, h2⟩ := xr_of_sub s hd
  have hq : 0 < s.fxl / (s.fxl - s.fxu) ∧ s.fxu / (s.fxl - s.fxu) < 0 := by
    rcases mul_neg_iff.mp hb with ⟨hl, hu⟩ | ⟨hl, hu⟩
    · have : 0 < s.fxl - s.fxu := by linarith
      exact ⟨div_pos hl this, div_neg_of_neg_of_pos hu this⟩
    · have : s.fxl - s.fxu < 0 := by linarith
      exact ⟨div_pos_of_neg_of_neg hl this, div_neg_of_pos_of_neg hu this⟩
  rcases lt_or_gt_of_ne hne with h | h
  · rw [min_eq_left h.le, max_eq_right h.le]
    have hp : 0 < s.xu - s.xl := by linarith
    have e1 := mul_pos hp hq.1
    have e2 := mul_neg_of_pos_of_neg hp hq.2
    constructor <;> linarith
  · rw [min_eq_right (le_of_lt h), max_eq_left (le_of_lt h)]
    have hp : s.xu - s.xl < 0 := by linarith
    have e1 := mul_neg_of_neg_of_pos hp hq.1
    have e2 := mul_pos_of_neg_of_neg hp hq.2
    constructor <;> linarith

/-- The endpoints of the next pass: one is kept and the other becomes the estimate. -/
theorem fp_next_ends (a b c : K) (s : FPState K) :
    ((fp_next a b c s).xl = s.xl ∧ (fp_next a b c s).xu = xr_of s) ∨
      ((fp_next a b c s).xl = xr_of s ∧ (fp_next a b c s).xu = s.xu) := by
  unfold fp_next
  split
  · exact Or.inl ⟨rfl, rfl⟩
  · exact Or.inr ⟨rfl, rfl⟩

/-- The bracket of the next pass lies inside the bracket of this pass when the estimate
does. -/
theorem fp_next_inside (a b c : K) (s : FPState K)
    (h : min s.xl s.xu < xr_of s ∧ xr_of s < max s.xl s.xu) :
    min s.xl s.xu ≤ min (fp_next a b c s).xl (fp_next a b c s).xu ∧
      max (fp_next a b c s).xl (fp_next a b c s).xu ≤ max s.xl s.xu := by
  rcases fp_next_ends a b c s with ⟨h1, h2⟩ | ⟨h1, h2⟩
  · rw [h1, h2]
    exact ⟨le_min (min_le_left _ _) h.1.le, max_le (le_max_left _ _) h.2.le⟩
  · rw [h1, h2]
    exact ⟨le_min h.1.le (min_le_right _ _), max_le h.2.le (le_max_right _ _)⟩

/-- From a strict bracket, the two endpoints of every pass that is reached are distinct. -/
theorem fp_state_ends_ne (a b c tol xl xu : K) (rows : Nat → FPRow K)
    (hb : fquad a b c xl * fquad a b c xu < 0) (j : Nat)
    (hgo : ∀ i, i < j → ¬ conv_test a b c tol (fp_state a b c (fp_init a b c xl xu rows) i)) :
    (fp_state a b c (fp_init a b c xl xu rows) j).xl ≠
      (fp_state a b c (fp_init a b c xl xu rows) j).xu := by
  intro h
  have hbr := (fp_state_bracket a b c tol (fp_init a b c xl xu rows) hb j hgo).1
  obtain ⟨v1, v2⟩ := fp_state_values a b c xl xu rows j
  rw [v1, v2, h] at hbr
  exact absurd hbr (not_lt.mpr (mul_self_nonneg _))

/-- From a strict bracket, the bracket of every pass that is reached lies inside the
caller's, and its estimate lies strictly inside it. -/
theorem fp_state_inside (a b c tol xl xu : K) (rows : Nat → FPRow K)
    (hb : fquad a b c xl * fquad a b c xu < 0) (j : Nat)
    (hgo : ∀ i, i < j → ¬ conv_test a b c tol (fp_state a b c (fp_init a b c xl xu rows) i)) :
    min xl xu ≤ min (fp_state a b c (fp_init a b c xl xu rows) j).xl
        (fp_state a b c (fp_init a b c xl xu rows) j).xu ∧
      max (fp_state a b c (fp_init a b c xl xu rows) j).xl
        (fp_state a b c (fp_init a b c xl xu rows) j).xu ≤ max xl xu := by
  induction j with
  | zero => exact ⟨le_refl _, le_refl _⟩
  | succ j ih =>
    have hgo' : ∀ i, i < j →
        ¬ conv_test a b c tol (fp_state a b c (fp_init a b c xl xu rows) i) :=
      fun i hi => hgo i (Nat.lt_succ_of_lt hi)
    have hbr := (fp_state_bracket a b c tol (fp_init a b c xl xu rows) hb j hgo').1
    have hne := fp_state_ends_ne a b c tol xl xu rows hb j hgo'
    have hin := fp_next_inside a b c _ (xr_of_between _ hbr hne)
    rw [fp_state_succ2]
    exact ⟨le_trans (ih hgo').1 hin.1, le_trans hin.2 (ih hgo').2⟩

theorem norm_tol_default (tol : K) (ht : tol ≤ 0) : norm_tol tol = 1e-4 := by
  unfold norm_tol
  rw [if_pos ht]

theorem norm_tol_fixed : norm_tol (1e-4 : K) = 1e-4 := by
  unfold norm_tol
  rw [if_neg (by norm_num)]

/-- The tie of the bracket update is not met by a pass whose `fxl` is not zero: the two
loop bodies agree. -/
theorem fp_pass_tie_eq (a b c tol : K) (s : FPState K) (hl : s.fxl ≠ 0) :
    fp_pass_tie a b c tol s = fp_pass a b c tol s := by
  unfold fp_pass_tie fp_pass
  simp only
  by_cases h1 : |s.fxl - s.fxu| < 1e-15
  · rw [if_pos h1, if_pos h1]
  · rw [if_neg h1, if_neg h1]
    by_cases h2 : |fquad a b c (s.xu - s.fxu * (s.xl - s.xu) / (s.fxl - s.fxu))| < 1e-14 ∨
        (0 < s.n ∧
          ea_lt (ea_of s.n (s.xu - s.fxu * (s.xl - s.xu) / (s.fxl - s.fxu)) s.xr_old) tol)
    · rw [if_pos h2, if_pos h2]
    · rw [if_neg h2, if_neg h2]
      have hr : fquad a b c (s.xu - s.fxu * (s.xl - s.xu) / (s.fxl - s.fxu)) ≠ 0 := by
        intro h0
        apply h2
        left
        rw [h0, abs_zero]
        norm_num
      have hne : s.fxl * fquad a b c (s.xu - s.fxu * (s.xl - s.xu) / (s.fxl - s.fxu)) ≠ 0 :=
        mul_ne_zero hl hr
      by_cases h3 : s.fxl * fquad a b c (s.xu - s.fxu * (s.xl - s.xu) / (s.fxl - s.fxu)) < 0
      · rw [if_pos h3, if_pos h3.le]
      · rw [if_neg h3, if_neg (fun h => h3 (lt_of_le_of_ne h hne))]

/-- The two loop bodies agree on a pass that fails or converges. -/
theorem fp_pass_tie_eq_stop (a b c tol : K) (s : FPState K)
    (h : |s.fxl - s.fxu| < 1e-15 ∨ conv_test a b c tol s) :
    fp_pass_tie a b c tol s = fp_pass a b c tol s := by
  unfold fp_pass_tie fp_pass
  simp only
  by_cases h1 : |s.fxl - s.fxu| < 1e-15
  · rw [if_pos h1, if_pos h1]
  · rw [if_neg h1, if_neg h1]
    have h2 : conv_test a b c tol s := h.resolve_left h1
    exact (if_pos h2).trans (if_pos h2).symm

theorem fp_loop_tie_succ (a b c tol root : K) (err : String) (k : Nat) (s : FPState K) :
    fp_loop_tie a b c tol root err (k + 1) s =
      match fp_pass_tie a b c tol s with
      | .fail e => ⟨-1, s.rows, root, e⟩
      | .conv rows xr => ⟨(s.n : Int) + 1, rows, xr, err⟩
      | .cont s' => fp_loop_tie a b c tol root err k s' := rfl

/-- From a strict bracket the two loops agree. -/
theorem fp_loop_tie_eq (a b c tol root : K) (err : String) :
    ∀ (k : Nat) (s : FPState K), s.fxl * s.fxu < 0 →
      fp_loop_tie a b c tol root err k s = fp_loop a b c tol root err k s := by
  intro k
  induction k with
  | zero => intro s _; rfl
  | succ k ih =>
    intro s hb
    have hl : s.fxl ≠ 0 := by
      intro h0; rw [h0, zero_mul] at hb; exact lt_irrefl _ hb
    rw [fp_loop_tie_succ, fp_loop_succ, fp_pass_tie_eq a b c tol s hl]
    cases hp : fp_pass a b c tol s with
    | fail e => rfl
    | conv rows xr => rfl
    | cont s' =>
      have hc := (fp_pass_cont hp).2.1
      have hs' := fp_pass_cont_eq hp
      subst hs'
      exact ih _ (fp_next_bracket a b c s hb (fun h => hc (Or.inl h))).1

/-- The two solvers agree on every input. -/
theorem false_position_tie_eq (a b c xl xu tol : K) (rows : Nat → FPRow K) (root : K)
    (err : String) :
    false_position_tie a b c xl xu tol rows root err =
      false_position a b c xl xu tol rows root err := by
  unfold false_position_tie false_position
  simp only
  by_cases hp : fquad a b c xl * fquad a b c xu > 0
  · rw [if_pos hp, if_pos hp]
  · rw [if_neg hp, if_neg hp]
    rcases lt_or_eq_of_le (not_lt.mp hp) with hlt | heq
    · exact fp_loop_tie_eq a b c _ root err MAX_ITER _ hlt
    · show fp_loop_tie a b c (norm_tol tol) root err (199 + 1) (fp_init a b c xl xu rows) =
        fp_loop a b c (norm_tol tol) root err (199 + 1) (fp_init a b c xl xu rows)
      have hstop : |(fp_init a b c xl xu rows).fxl - (fp_init a b c xl xu rows).fxu| < 1e-15 ∨
          conv_test a b c (norm_tol tol) (fp_init a b c xl xu rows) := by
        by_cases hd : |fquad a b c xl - fquad a b c xu| < 1e-15
        · exact Or.inl hd
        · refine Or.inr (Or.inl ?_)
          rw [(fp_init_zero a b c xl xu rows heq hd).1, abs_zero]
          norm_num
      rw [fp_loop_tie_succ, fp_loop_succ, fp_pass_tie_eq_stop a b c _ _ hstop]
      cases hpass : fp_pass a b c (norm_tol tol) (fp_init a b c xl xu rows) with
      | fail e => rfl
      | conv rows xr => rfl
      | cont s' =>
        exfalso
        obtain ⟨h1, h2, _⟩ := fp_pass_cont hpass
        rcases hstop with h | h
        · exact h1 h
        · exact h2 h

/-- The outcome of `false_position` does not depend on what the row buffer held: the
return value, the root, the message and the rows below the return value are the same from
any two buffers. -/
theorem false_position_indep (a b c xl xu tol : K) (rows rows' : Nat → FPRow K) (root : K)
    (err : String) :
    (false_position a b c xl xu tol rows root err).ret =
        (false_position a b c xl xu tol rows' root err).ret ∧
      (false_position a b c xl xu tol rows root err).root =
        (false_position a b c xl xu tol rows' root err).root ∧
      (false_position a b c xl xu tol rows root err).err =
        (false_position a b c xl xu tol rows' root err).err ∧
      (∀ i : Nat, (i : Int) < (false_position a b c xl xu tol rows root err).ret →
        (false_position a b c xl xu tol rows root err).rows i =
          (false_position a b c xl xu tol rows' root err).rows i) := by
  have hneg : ∀ i : Nat, ¬ (i : Int) < -1 := fun i h => by omega
  by_cases hp : fquad a b c xl * fquad a b c xu > 0
  · rw [false_position_no_bracket a b c xl xu tol rows root err hp,
      false_position_no_bracket a b c xl xu tol rows' root err hp]
    exact ⟨rfl, rfl, rfl, fun i hi => absurd hi (hneg i)⟩
  rcases false_position_records a b c xl xu tol rows root err hp with
    ⟨hd, he⟩ | ⟨hd, m, hm1, hm2, hret, herr, hroot, hrows, _, hgo, hc⟩
  · rcases false_position_records a b c xl xu tol rows' root err hp with
      ⟨_, he'⟩ | ⟨hd', _⟩
    · rw [he, he']
      exact ⟨rfl, rfl, rfl, fun i hi => absurd hi (hneg i)⟩
    · exact absurd hd hd'
  · rcases false_position_records a b c xl xu tol rows' root err hp with
      ⟨hd', _⟩ | ⟨_, m', hm1', hm2', hret', herr', hroot', hrows', _, hgo', hc'⟩
    · exact absurd hd' hd
    · have hfg := fun i => fp_state_forget a b c xl xu rows rows' rows i
      have hm : m = m' := by
        rcases Nat.lt_trichotomy m m' with h | h | h
        · exfalso
          rcases hc with hc | hc
          · exact hgo' (m - 1) (by omega) ((conv_test_forget a b c _ (hfg (m - 1))).mp hc)
          · omega
        · exact h
        · exfalso
          rcases hc' with hc' | hc'
          · exact hgo (m' - 1) (by omega) ((conv_test_forget a b c _ (hfg (m' - 1))).mpr hc')
          · omega
      subst hm
      refine ⟨by rw [hret, hret'], ?_, by rw [herr, herr'], ?_⟩
      · rw [hroot, hroot']
        exact xr_of_forget (hfg (m - 1))
      · intro i hi
        rw [hret] at hi
        have hi' : i < m := by exact_mod_cast hi
        rw [hrows i hi', hrows' i hi']
        exact row_of_forget a b c (hfg i)

omit [LinearOrderedField K] in
/-- The table loop reads the rows `i .. i + left - 1` only. -/
theorem table_loop_congr (lib : LibC K) (rows rows' : Nat → FPRow K) (max : Int) :
    ∀ (left i : Nat) (tp : Int) (acc : List (FPRow K)),
      (∀ j : Nat, i ≤ j → j < i + left → rows j = rows' j) →
      table_loop lib rows max left i tp acc = table_loop lib rows' max left i tp acc := by
  intro left
  induction left with
  | zero => intro i tp acc _; rfl
  | succ left ih =>
    intro i tp acc h
    unfold table_loop
    rw [h i (le_refl i) (by omega)]
    by_cases hg : tp < max - 300
    · rw [if_pos hg, if_pos hg]
      exact ih (i + 1) _ _ (fun j hj1 hj2 => h j (by omega) (by omega))
    · rw [if_neg hg, if_neg hg]

/-- The response `build_json` makes reads the rows below `nrows` only. -/
theorem build_json_congr (lib : LibC K) (ca cb cc xl xu : K) (rows rows' : Nat → FPRow K)
    (nrows : Int) (root : K) (h : ∀ i : Nat, (i : Int) < nrows → rows i = rows' i) :
    build_json lib ca cb cc xl xu rows nrows root =
      build_json lib ca cb cc xl xu rows' nrows root := by
  unfold build_json
  simp only
  have ht : table_loop lib rows 65536 nrows.toNat 0 1 [] =
      table_loop lib rows' 65536 nrows.toNat 0 1 [] :=
    table_loop_congr lib rows rows' 65536 nrows.toNat 0 1 []
      (fun j _ hj => h j (by omega))
  rw [ht]
  by_cases h1 : nrows > 1
  · rw [if_pos h1, if_pos h1, h (nrows - 1).toNat (by omega)]
  · rw [if_neg h1, if_neg h1]

end Lemmas

/-! ## Lemmas on the `double`s and on the run of the solver over them -/

namespace B64

theorem lt_def (x y : Dbl) : (x < y) = (Dbl.lt x y = true) := rfl
theorem mul_def (x y : Dbl) : x * y = Dbl.mul x y := rfl
theorem zero_lit : (0.0 : Dbl) = .fin 0 := by decide!

theorem withNat_eq {α : Type} (n : Nat) (k : Nat → α) : withNat n k = k n := by
  cases n <;> rfl

theorem withInt_eq {α : Type} (i : Int) (k : Int → α) : withInt i k = k i := by
  cases i <;> simp only [withInt, withNat_eq]

theorem withRat_eq {α : Type} (q : ℚ) (k : ℚ → α) : withRat q k = k q := by
  unfold withRat
  rw [withInt_eq, withNat_eq, Rat.mkRat_self]

theorem withDbl_eq {α : Type} (x : Dbl) (k : Dbl → α) : withDbl x k = k x := by
  cases x with
  | fin q => simp only [withDbl, withRat_eq]
  | nzero => rfl
  | inf s => cases s <;> rfl
  | nan => rfl

theorem pow2_pos (k : Int) : 0 < pow2 k := by
  unfold pow2
  split_ifs <;> positivity

theorem rnd_mag_nonneg (n d : Nat) : 0 ≤ rnd_mag n d := by
  unfold rnd_mag
  rw [withInt_eq]
  exact mul_nonneg (Nat.cast_nonneg _) (pow2_pos _).le

/-- A rounded value below zero comes from a number below zero. -/
theorem rnd_neg {q : ℚ} (h : Dbl.lt (rnd q) (.fin 0) = true) : q < 0 := by
  unfold rnd at h
  simp only [withInt_eq, withNat_eq, withRat_eq] at h
  have hm := rnd_mag_nonneg q.num.natAbs q.den
  split_ifs at h with h1 h2 h3 h4
  · simp [Dbl.lt, Dbl.val] at h
  · exact Rat.num_neg.mp (by simpa [Dbl.lt] using h)
  · by_contra hq
    have hq' : ¬ q.num < 0 := fun h' => hq (Rat.num_neg.mp h')
    simp [Dbl.zero, hq', Dbl.lt, Dbl.val] at h
  · exact Rat.num_neg.mp h4
  · simp only [Dbl.lt, Dbl.val, decide_eq_true_eq] at h
    exact absurd h (not_lt.mpr hm)

/-- A rounded value above zero comes from a number above zero. -/
theorem rnd_pos {q : ℚ} (h : Dbl.lt (.fin 0) (rnd q) = true) : 0 < q := by
  unfold rnd at h
  simp only [withInt_eq, withNat_eq, withRat_eq] at h
  have hm := rnd_mag_nonneg q.num.natAbs q.den
  have hpos : ¬ q.num < 0 → q.num ≠ 0 → 0 < q := by
    intro h1 h2
    exact Rat.num_pos.mp (lt_of_le_of_ne (not_lt.mp h1) (Ne.symm h2))
  split_ifs at h with h1 h2 h3 h4
  · simp [Dbl.lt, Dbl.val] at h
  · have : ¬ q.num < 0 := by simpa [Dbl.lt] using h
    exact hpos this h1
  · by_cases hq : q.num < 0
    · simp [Dbl.zero, hq, Dbl.lt, Dbl.val] at h
    · simp [Dbl.zero, hq, Dbl.lt, Dbl.val] at h
  · simp only [Dbl.lt, Dbl.val, decide_eq_true_eq] at h
    linarith
  · exact hpos h4 h1

/-- A computed product below zero has factors of strictly opposite signs. -/
theorem mul_neg_opp {x y : Dbl} (h : x * y < 0.0) : opp_sign x y := by
  unfold opp_sign
  rw [zero_lit] at h ⊢
  simp only [lt_def, mul_def] at h ⊢
  cases x <;> cases y <;>
    simp only [Dbl.mul, Dbl.zero?, Dbl.neg?, Dbl.zero, Dbl.val] at h <;>
    (try split_ifs at h) <;>
    solve
    | (have h' := rnd_neg h
       rcases mul_neg_iff.mp h' with ⟨a, b⟩ | ⟨a, b⟩ <;> simp_all [Dbl.lt, Dbl.val])
    | simp [Dbl.lt, Dbl.val] at h
    | (simp only [Dbl.lt, Dbl.val] at h ⊢
       simp at h ⊢
       solve
       | (rename_i s t _ _
          cases s <;> cases t <;> simp_all)
       | (rename_i q t hq
          have hq' : q ≠ 0 := by simpa using hq
          rcases lt_or_gt_of_ne hq' with a | a <;> cases t <;>
            simp [a, not_lt_of_gt a] at h ⊢)
       | (rename_i t q hq
          have hq' : q ≠ 0 := by simpa using hq
          rcases lt_or_gt_of_ne hq' with a | a <;> cases t <;>
            simp [a, not_lt_of_gt a] at h ⊢))

/-- A computed product above zero has factors of the same strict sign. -/
theorem mul_pos_same {x y : Dbl} (h : 0.0 < x * y) : same_sign x y := by
  unfold same_sign
  rw [zero_lit] at h ⊢
  simp only [lt_def, mul_def] at h ⊢
  cases x <;> cases y <;>
    simp only [Dbl.mul, Dbl.zero?, Dbl.neg?, Dbl.zero, Dbl.val] at h <;>
    (try split_ifs at h) <;>
    solve
    | (have h' := rnd_pos h
       rcases mul_pos_iff.mp h' with ⟨a, b⟩ | ⟨a, b⟩ <;> simp_all [Dbl.lt, Dbl.val])
    | simp [Dbl.lt, Dbl.val] at h
    | (simp only [Dbl.lt, Dbl.val] at h ⊢
       simp at h ⊢
       solve
       | (rename_i s t _ _
          cases s <;> cases t <;> simp_all)
       | (rename_i q t hq
          have hq' : q ≠ 0 := by simpa using hq
          rcases lt_or_gt_of_ne hq' with a | a <;> cases t <;>
            simp [a, not_lt_of_gt a] at h ⊢)
       | (rename_i t q hq
          have hq' : q ≠ 0 := by simpa using hq
          rcases lt_or_gt_of_ne hq' with a | a <;> cases t <;>
            simp [a, not_lt_of_gt a] at h ⊢))

theorem not_neg_pos {x : Dbl} (h1 : x < 0.0) (h2 : 0.0 < x) : False := by
  rw [zero_lit] at h1 h2
  simp only [lt_def] at h1 h2
  cases x <;> simp_all [Dbl.lt, Dbl.val]
  exact absurd h1 (not_lt_of_gt h2)

/-- Values of strictly opposite signs have a computed product that is not above zero:
they pass the bracket check of line 86. -/
theorem opp_not_pos {x y : Dbl} (h : opp_sign x y) : ¬ 0.0 < x * y := by
  intro hp
  rcases mul_pos_same hp with ⟨a, b⟩ | ⟨a, b⟩ <;> rcases h with ⟨c, d⟩ | ⟨c, d⟩
  · exact not_neg_pos b d
  · exact not_neg_pos a c
  · exact not_neg_pos c a
  · exact not_neg_pos d b

theorem fp_pass_fail_d {a b c tol : Dbl} {s : FPState} {e : String}
    (h : fp_pass a b c tol s = .fail e) : fabs (s.fxl - s.fxu) < 1e-15 ∧ e = DENOM_MSG := by
  unfold fp_pass at h
  simp only [withDbl_eq] at h
  split_ifs at h with h1 h2 h3
  · exact ⟨h1, by injection h with h; exact h.symm⟩

theorem fp_pass_conv_d {a b c tol : Dbl} {s : FPState} {rows : Nat → FPRow} {xr : Dbl}
    (h : fp_pass a b c tol s = .conv rows xr) :
    ¬ fabs (s.fxl - s.fxu) < 1e-15 ∧ conv_test a b c tol s ∧ xr = xr_of s ∧
      rows = Function.update s.rows s.n (row_of a b c s) := by
  unfold fp_pass at h
  simp only [withDbl_eq] at h
  split_ifs at h with h1 h2 h3
  · injection h with hr hx
    exact ⟨h1, h2, hx.symm, hr.symm⟩

theorem fp_pass_cont_d {a b c tol : Dbl} {s s' : FPState}
    (h : fp_pass a b c tol s = .cont s') :
    ¬ fabs (s.fxl - s.fxu) < 1e-15 ∧ ¬ conv_test a b c tol s ∧ s' = fp_next a b c s := by
  unfold fp_pass at h
  simp only [withDbl_eq] at h
  split_ifs at h with h1 h2 h3
  · injection h with h
    refine ⟨h1, h2, ?_⟩
    rw [← h]
    exact (if_pos h3).symm
  · injection h with h
    refine ⟨h1, h2, ?_⟩
    rw [← h]
    exact (if_neg h3).symm

/-- A pass ends in the convergence return exactly when its denominator is accepted and
the convergence test holds. -/
theorem fp_pass_conv_iff_d (a b c tol : Dbl) (s : FPState) :
    (∃ rows xr, fp_pass a b c tol s = .conv rows xr) ↔
      (¬ fabs (s.fxl - s.fxu) < 1e-15 ∧ conv_test a b c tol s) := by
  constructor
  · rintro ⟨rows, xr, h⟩
    exact ⟨(fp_pass_conv_d h).1, (fp_pass_conv_d h).2.1⟩
  · rintro ⟨h1, h2⟩
    refine ⟨Function.update s.rows s.n (row_of a b c s), xr_of s, ?_⟩
    unfold fp_pass
    simp only [withDbl_eq]
    rw [if_neg h1]
    exact if_pos h2

theorem fp_next_n_d (a b c : Dbl) (s : FPState) : (fp_next a b c s).n = s.n + 1 := by
  unfold fp_next; split <;> rfl

theorem fp_next_rows_d (a b c : Dbl) (s : FPState) :
    (fp_next a b c s).rows = Function.update s.rows s.n (row_of a b c s) := by
  unfold fp_next; split <;> rfl

theorem fp_next_xr_old_d (a b c : Dbl) (s : FPState) :
    (fp_next a b c s).xr_old = xr_of s := by
  unfold fp_next; split <;> rfl

theorem fp_loop_succ_d (a b c tol root : Dbl) (err : String) (k : Nat) (s : FPState) :
    fp_loop a b c tol root err (k + 1) s =
      match fp_pass a b c tol s with
      | .fail e => ⟨-1, s.rows, root, e⟩
      | .conv rows xr => ⟨(s.n : Int) + 1, rows, xr, err⟩
      | .cont s' => fp_loop a b c tol root err k s' := rfl

theorem fp_state_succ_d (a b c : Dbl) (s : FPState) (i : Nat) :
    fp_state a b c s (i + 1) = fp_state a b c (fp_next a b c s) i := by
  unfold fp_state; rw [Function.iterate_succ_apply]

theorem fp_state_succ2_d (a b c : Dbl) (s : FPState) (i : Nat) :
    fp_state a b c s (i + 1) = fp_next a b c (fp_state a b c s i) := by
  unfold fp_state; rw [Function.iterate_succ_apply']

/-- The run of the loop: the passes `0 .. j-1` go on, and pass `j` fails, converges, or
`j` passes were all there were. -/
theorem fp_loop_spec_d (a b c tol root : Dbl) (err : String) :
    ∀ (k : Nat) (s : FPState), ∃ j, j ≤ k ∧
      (∀ i, i < j → ¬ fabs ((fp_state a b c s i).fxl - (fp_state a b c s i).fxu) < 1e-15 ∧
        ¬ conv_test a b c tol (fp_state a b c s i)) ∧
      ((j < k ∧ fabs ((fp_state a b c s j).fxl - (fp_state a b c s j).fxu) < 1e-15 ∧
          fp_loop a b c tol root err k s = ⟨-1, (fp_state a b c s j).rows, root, DENOM_MSG⟩) ∨
        (j < k ∧ ¬ fabs ((fp_state a b c s j).fxl - (fp_state a b c s j).fxu) < 1e-15 ∧
          conv_test a b c tol (fp_state a b c s j) ∧
          fp_loop a b c tol root err k s =
            ⟨((fp_state a b c s j).n : Int) + 1, (fp_state a b c s (j + 1)).rows,
              xr_of (fp_state a b c s j), err⟩) ∨
        (j = k ∧ fp_loop a b c tol root err k s =
            ⟨((fp_state a b c s j).n : Int), (fp_state a b c s j).rows,
              ((fp_state a b c s j).rows ((fp_state a b c s j).n - 1)).xr, err⟩)) := by
  intro k
  induction k with
  | zero =>
    intro s
    exact ⟨0, le_refl _, fun i hi => absurd hi (Nat.not_lt_zero i), Or.inr (Or.inr ⟨rfl, rfl⟩)⟩
  | succ k ih =>
    intro s
    cases hp : fp_pass a b c tol s with
    | fail e =>
      obtain ⟨h1, rfl⟩ := fp_pass_fail_d hp
      refine ⟨0, Nat.zero_le _, fun i hi => absurd hi (Nat.not_lt_zero i),
        Or.inl ⟨Nat.succ_pos k, h1, ?_⟩⟩
      rw [fp_loop_succ_d, hp]; rfl
    | conv rows xr =>
      obtain ⟨h1, h2, rfl, rfl⟩ := fp_pass_conv_d hp
      refine ⟨0, Nat.zero_le _, fun i hi => absurd hi (Nat.not_lt_zero i),
        Or.inr (Or.inl ⟨Nat.succ_pos k, h1, h2, ?_⟩)⟩
      rw [fp_loop_succ_d, hp]
      show _ = FPOut.mk _ (fp_next a b c s).rows _ _
      rw [fp_next_rows_d]; rfl
    | cont s' =>
      obtain ⟨h1, h2, hs'⟩ := fp_pass_cont_d hp
      subst hs'
      have hl : fp_loop a b c tol root err (k + 1) s =
          fp_loop a b c tol root err k (fp_next a b c s) := by
        rw [fp_loop_succ_d, hp]
      obtain ⟨j, hjk, hgo, hend⟩ := ih (fp_next a b c s)
      refine ⟨j + 1, Nat.succ_le_succ hjk, ?_, ?_⟩
      · intro i hi
        cases i with
        | zero => exact ⟨h1, h2⟩
        | succ i =>
          rw [fp_state_succ_d]
          exact hgo i (Nat.lt_of_succ_lt_succ hi)
      · rw [hl]
        simp only [fp_state_succ_d]
        rcases hend with ⟨hj, hd, he⟩ | ⟨hj, hd, hc, he⟩ | ⟨hj, he⟩
        · exact Or.inl ⟨Nat.succ_lt_succ hj, hd, he⟩
        · exact Or.inr (Or.inl ⟨Nat.succ_lt_succ hj, hd, hc, he⟩)
        · exact Or.inr (Or.inr ⟨by rw [hj], he⟩)

theorem fp_state_n_d (a b c : Dbl) (s : FPState) (i : Nat) :
    (fp_state a b c s i).n = s.n + i := by
  induction i with
  | zero => rfl
  | succ i ih => rw [fp_state_succ2_d, fp_next_n_d, ih]; rfl

theorem fp_state_init_n_d (a b c xl xu : Dbl) (rows : Nat → FPRow) (i : Nat) :
    (fp_state a b c (fp_init a b c xl xu rows) i).n = i := by
  rw [fp_state_n_d]; exact Nat.zero_add i

/-- Pass `i` writes the row of index `s.n + i` only. -/
theorem fp_state_rows_d (a b c : Dbl) (s : FPState) (i idx : Nat) :
    (fp_state a b c s i).rows idx =
      if s.n ≤ idx ∧ idx < s.n + i then row_of a b c (fp_state a b c s (idx - s.n))
      else s.rows idx := by
  induction i with
  | zero =>
    rw [if_neg (by omega)]; rfl
  | succ i ih =>
    rw [fp_state_succ2_d, fp_next_rows_d, fp_state_n_d, Function.update_apply]
    by_cases h : idx = s.n + i
    · rw [if_pos h, if_pos (by omega)]
      have : idx - s.n = i := by omega
      rw [this]
    · rw [if_neg h, ih]
      by_cases h2 : s.n ≤ idx ∧ idx < s.n + i
      · rw [if_pos h2, if_pos (by omega)]
      · rw [if_neg h2, if_neg (by omega)]

/-- The rows of the buffer after `m` passes: row `i < m` is the row of pass `i`, the
others are the caller's. -/
theorem fp_init_rows_d (a b c xl xu : Dbl) (rows : Nat → FPRow) (m idx : Nat) :
    (fp_state a b c (fp_init a b c xl xu rows) m).rows idx =
      if idx < m then row_of a b c (fp_state a b c (fp_init a b c xl xu rows) idx)
      else rows idx := by
  rw [fp_state_rows_d]
  have h0 : (fp_init a b c xl xu rows).n = 0 := rfl
  rw [h0]
  by_cases h : idx < m
  · rw [if_pos h, if_pos (by omega)]; rfl
  · rw [if_neg h, if_neg (by omega)]; rfl

theorem false_position_no_bracket_d (a b c xl xu tol : Dbl) (rows : Nat → FPRow) (root : Dbl)
    (err : String) (h : fquad a b c xl * fquad a b c xu > 0.0) :
    false_position a b c xl xu tol rows root err = ⟨-1, rows, root, NO_BRACKET_MSG⟩ := by
  unfold false_position
  simp only [withDbl_eq]
  rw [if_pos h]

theorem false_position_loop_d (a b c xl xu tol : Dbl) (rows : Nat → FPRow) (root : Dbl)
    (err : String) (h : ¬ fquad a b c xl * fquad a b c xu > 0.0) :
    false_position a b c xl xu tol rows root err =
      fp_loop a b c (norm_tol tol) root err MAX_ITER (fp_init a b c xl xu rows) := by
  unfold false_position
  simp only [withDbl_eq]
  rw [if_neg h]
  rfl

/-- The carried values are the values of `fquad` at the endpoints, in every pass. -/
theorem fp_state_values_d (a b c xl xu : Dbl) (rows : Nat → FPRow) (i : Nat) :
    (fp_state a b c (fp_init a b c xl xu rows) i).fxl =
        fquad a b c (fp_state a b c (fp_init a b c xl xu rows) i).xl ∧
      (fp_state a b c (fp_init a b c xl xu rows) i).fxu =
        fquad a b c (fp_state a b c (fp_init a b c xl xu rows) i).xu := by
  induction i with
  | zero => exact ⟨rfl, rfl⟩
  | succ i ih =>
    rw [fp_state_succ2_d]
    unfold fp_next
    split
    · exact ⟨ih.1, rfl⟩
    · exact ⟨rfl, ih.2⟩

/-- The record view of a run that passed the bracket check. Either pass `j + 1` fails on
its denominator, the `j` records of the passes before it staying in the buffer, or the
call returns `m` records; row `i` is the row of pass `i`, no pass before the last meets the
convergence test, and the last one does unless it is pass 200. -/
theorem false_position_records_d (a b c xl xu tol : Dbl) (rows : Nat → FPRow) (root : Dbl)
    (err : String) (h : ¬ fquad a b c xl * fquad a b c xu > 0.0) :
    (∃ j : Nat, j < 200 ∧
      fabs ((fp_state a b c (fp_init a b c xl xu rows) j).fxl -
          (fp_state a b c (fp_init a b c xl xu rows) j).fxu) < 1e-15 ∧
      (∀ i, i < j → ¬ fabs ((fp_state a b c (fp_init a b c xl xu rows) i).fxl -
          (fp_state a b c (fp_init a b c xl xu rows) i).fxu) < 1e-15 ∧
        ¬ conv_test a b c (norm_tol tol) (fp_state a b c (fp_init a b c xl xu rows) i)) ∧
      (false_position a b c xl xu tol rows root err).ret = -1 ∧
      (false_position a b c xl xu tol rows root err).err = DENOM_MSG ∧
      (false_position a b c xl xu tol rows root err).root = root ∧
      (∀ i, i < j → (false_position a b c xl xu tol rows root err).rows i =
        row_of a b c (fp_state a b c (fp_init a b c xl xu rows) i)) ∧
      (∀ i, j ≤ i → (false_position a b c xl xu tol rows root err).rows i = rows i)) ∨
    (∃ m : Nat, 1 ≤ m ∧ m ≤ 200 ∧
      (false_position a b c xl xu tol rows root err).ret = ((m : Nat) : Int) ∧
      (false_position a b c xl xu tol rows root err).err = err ∧
      (false_position a b c xl xu tol rows root err).root =
        xr_of (fp_state a b c (fp_init a b c xl xu rows) (m - 1)) ∧
      (∀ i, i < m → (false_position a b c xl xu tol rows root err).rows i =
        row_of a b c (fp_state a b c (fp_init a b c xl xu rows) i)) ∧
      (∀ i, m ≤ i → (false_position a b c xl xu tol rows root err).rows i = rows i) ∧
      (∀ i, i < m → ¬ fabs ((fp_state a b c (fp_init a b c xl xu rows) i).fxl -
          (fp_state a b c (fp_init a b c xl xu rows) i).fxu) < 1e-15) ∧
      (∀ i, i + 1 < m →
        ¬ conv_test a b c (norm_tol tol) (fp_state a b c (fp_init a b c xl xu rows) i)) ∧
      (conv_test a b c (norm_tol tol) (fp_state a b c (fp_init a b c xl xu rows) (m - 1)) ∨
        m = 200)) := by
  rw [false_position_loop_d a b c xl xu tol rows root err h]
  obtain ⟨j, hj, hgo, hend⟩ :=
    fp_loop_spec_d a b c (norm_tol tol) root err MAX_ITER (fp_init a b c xl xu rows)
  have hM : MAX_ITER = 200 := rfl
  rw [hM] at hj hend ⊢
  have hn := fp_state_init_n_d a b c xl xu rows
  rcases hend with ⟨hlt, hd, he⟩ | ⟨hlt, hd, hc, he⟩ | ⟨heq, he⟩
  · refine Or.inl ⟨j, hlt, hd, hgo, by rw [he], by rw [he], by rw [he], ?_, ?_⟩
    · intro i hi
      rw [he]
      dsimp only
      rw [fp_init_rows_d, if_pos hi]
    · intro i hi
      rw [he]
      dsimp only
      rw [fp_init_rows_d, if_neg (by omega)]
  · refine Or.inr ⟨j + 1, Nat.succ_pos j, hlt, ?_, by rw [he], by rw [he]; rfl, ?_, ?_, ?_, ?_,
      Or.inl hc⟩
    · rw [he, hn]; rfl
    · intro i hi
      rw [he]
      dsimp only
      rw [fp_init_rows_d, if_pos hi]
    · intro i hi
      rw [he]
      dsimp only
      rw [fp_init_rows_d, if_neg (by omega)]
    · intro i hi
      rcases Nat.lt_succ_iff_lt_or_eq.mp hi with h1 | h1
      · exact (hgo i h1).1
      · rw [h1]; exact hd
    · intro i hi
      exact (hgo i (by omega)).2
  · subst heq
    refine Or.inr ⟨200, by norm_num, le_refl _, ?_, by rw [he], ?_, ?_, ?_,
      fun i hi => (hgo i hi).1, fun i hi => (hgo i (by omega)).2, Or.inr rfl⟩
    · rw [he, hn]
    · rw [he, hn]
      dsimp only
      rw [fp_init_rows_d, if_pos (by norm_num)]
      rfl
    · intro i hi
      rw [he]
      dsimp only
      rw [fp_init_rows_d, if_pos hi]
    · intro i hi
      rw [he]
      dsimp only
      rw [fp_init_rows_d, if_neg (by omega)]

/-- One pass of the bracket update keeps endpoint values of strictly opposite signs,
provided the computed product `fxl * fxr` is below or above zero (not a zero, not NaN). -/
theorem fp_next_opp_d (a b c : Dbl) (s : FPState) (hs : opp_sign s.fxl s.fxu)
    (hp : s.fxl * fquad a b c (xr_of s) < 0.0 ∨ 0.0 < s.fxl * fquad a b c (xr_of s)) :
    opp_sign (fp_next a b c s).fxl (fp_next a b c s).fxu := by
  unfold fp_next
  rcases hp with hp | hp
  · rw [if_pos hp]
    exact mul_neg_opp hp
  · have hn : ¬ s.fxl * fquad a b c (xr_of s) < 0.0 := fun h => not_neg_pos h hp
    rw [if_neg hn]
    show opp_sign (fquad a b c (xr_of s)) s.fxu
    rcases mul_pos_same hp with ⟨h1, h2⟩ | ⟨h1, h2⟩ <;> rcases hs with ⟨h3, h4⟩ | ⟨h3, h4⟩
    · exact Or.inl ⟨h2, h4⟩
    · exact (not_neg_pos h1 h3).elim
    · exact (not_neg_pos h3 h1).elim
    · exact Or.inr ⟨h2, h4⟩

/-- From endpoint values of strictly opposite signs, the state of pass `k` has endpoint
values of strictly opposite signs when the computed product `fxl * fxr` of every earlier
pass was below or above zero. -/
theorem fp_state_opp_d (a b c : Dbl) (s : FPState) (hs : opp_sign s.fxl s.fxu) (k : Nat)
    (hp : ∀ i, i < k → (fp_state a b c s i).fxl * fquad a b c (xr_of (fp_state a b c s i)) < 0.0 ∨
      0.0 < (fp_state a b c s i).fxl * fquad a b c (xr_of (fp_state a b c s i))) :
    opp_sign (fp_state a b c s k).fxl (fp_state a b c s k).fxu := by
  induction k with
  | zero => exact hs
  | succ k ih =>
    rw [fp_state_succ2_d]
    exact fp_next_opp_d a b c _ (ih (fun i hi => hp i (Nat.lt_succ_of_lt hi)))
      (hp k (Nat.lt_succ_self k))

theorem failure_body_ne : failure_body DENOM_MSG ≠ failure_body NO_BRACKET_MSG ∧
    DOMAIN_BODY ≠ failure_body NO_BRACKET_MSG ∧ DENOM_MSG ≠ NO_BRACKET_MSG := by
  decide

end B64

/-! ## The claims -/

section Claims

variable {K : Type} [LinearOrderedField K]

namespace B64

/-- C1 (counterexample): three quadratics whose endpoint values have strictly opposite
signs, as real numbers, and which refute the claim as stated. For `x² − 1e-32` on
`[0, 2e-16]` the solver fails on the denominator check. For `x² − 1` on `[0, 1e6]` with the
default tolerance it returns after pass 200 with a root whose residual is not below `1e-14`
and a last `ea` that is not below the tolerance. For `x² − 2.2x + 1.21` on
`[1.100000014, 2]` the value `f(xl)` is about `−3.5e-17`, but the program computes a value
above zero for it and fails on the bracket check. -/
theorem C1_counterexample :
    (real_f 1 0 (-1e-32) 0 < 0 ∧ 0 < real_f 1 0 (-1e-32) 2e-16 ∧
      (false_position 1 0 (-1e-32) 0 2e-16 0 zeroRows 0.0 "").ret = -1 ∧
      (false_position 1 0 (-1e-32) 0 2e-16 0 zeroRows 0.0 "").err = DENOM_MSG) ∧
    (real_f 1 0 (-1) 0 < 0 ∧ 0 < real_f 1 0 (-1) 1e6 ∧
      (false_position 1 0 (-1) 0 1e6 0 zeroRows 0.0 "").ret = 200 ∧
      ¬ fabs (fquad 1 0 (-1) (false_position 1 0 (-1) 0 1e6 0 zeroRows 0.0 "").root) < 1e-14 ∧
      ¬ ((false_position 1 0 (-1) 0 1e6 0 zeroRows 0.0 "").rows 199).ea < 1e-4) ∧
    (real_f 1 (-2.2) 1.21 1.100000014 < 0 ∧ 0 < real_f 1 (-2.2) 1.21 2 ∧
      0.0 < fquad 1 (-2.2) 1.21 1.100000014 ∧
      (false_position 1 (-2.2) 1.21 1.100000014 2 0 zeroRows 0.0 "").ret = -1 ∧
      (false_position 1 (-2.2) 1.21 1.100000014 2 0 zeroRows 0.0 "").err = NO_BRACKET_MSG) := by
  decide!

/-- C1 (amended): for every start at which the two endpoint values the program computes
have strictly opposite signs, `false_position` ends within 200 passes, and either it fails
with the denominator message, `*root` untouched, or it succeeds with `1 ≤ n ≤ 200` records
and a root `r`, the `xr` of the last record, such that the computed `|f(r)|` is below
`1e-14`, or `n ≥ 2` and the `ea` of the last record is below the tolerance (`1e-4` when
`tol ≤ 0`), or `n = 200`. -/
theorem C1_bracketed_run (a b c xl xu tol : Dbl) (rows : Nat → FPRow) (root : Dbl)
    (err : String) (hb : opp_sign (fquad a b c xl) (fquad a b c xu)) :
    ((false_position a b c xl xu tol rows root err).ret = -1 ∧
      (false_position a b c xl xu tol rows root err).err = DENOM_MSG ∧
      (false_position a b c xl xu tol rows root err).root = root) ∨
    (1 ≤ (false_position a b c xl xu tol rows root err).ret ∧
      (false_position a b c xl xu tol rows root err).ret ≤ 200 ∧
      (false_position a b c xl xu tol rows root err).err = err ∧
      (false_position a b c xl xu tol rows root err).root =
        ((false_position a b c xl xu tol rows root err).rows
          ((false_position a b c xl xu tol rows root err).ret.toNat - 1)).xr ∧
      (fabs (fquad a b c (false_position a b c xl xu tol rows root err).root) < 1e-14 ∨
        (2 ≤ (false_position a b c xl xu tol rows root err).ret ∧
          ((false_position a b c xl xu tol rows root err).rows
            ((false_position a b c xl xu tol rows root err).ret.toNat - 1)).ea <
              (if tol ≤ 0.0 then 1e-4 else tol)) ∨
        (false_position a b c xl xu tol rows root err).ret = 200)) := by
  rcases false_position_records_d a b c xl xu tol rows root err (opp_not_pos hb) with
    ⟨j, _, _, _, hret, herr, hroot, _, _⟩ | ⟨m, hm1, hm2, hret, herr, hroot, hrows, _, _, _, hc⟩
  · exact Or.inl ⟨hret, herr, hroot⟩
  · have hlast := hrows (m - 1) (by omega)
    have htn : (false_position a b c xl xu tol rows root err).ret.toNat - 1 = m - 1 := by
      rw [hret]; rfl
    refine Or.inr ⟨by rw [hret]; exact_mod_cast hm1, by rw [hret]; exact_mod_cast hm2, herr,
      ?_, ?_⟩
    · rw [htn, hlast, hroot]; rfl
    · rw [htn, hlast, hroot]
      rcases hc with (hc | ⟨h0, hc⟩) | hc
      · exact Or.inl hc
      · refine Or.inr (Or.inl ⟨?_, ?_⟩)
        · rw [hret]
          rw [fp_state_init_n_d] at h0
          have : 2 ≤ m := by omega
          exact_mod_cast this
        · exact hc
      · exact Or.inr (Or.inr (by rw [hret, hc]; rfl))

/-- C1 (witness): the amended statement at scenario 1, `x² − 3x + 2` on `[0, 1.5]` with
`tol = 0.001`, whose computed endpoint values are `2` and `−0.25`. -/
theorem C1_bracketed_run_witness :
    opp_sign (fquad 1 (-3) 2 0) (fquad 1 (-3) 2 1.5) ∧
    (((false_position 1 (-3) 2 0 1.5 0.001 zeroRows 0.0 "").ret = -1 ∧
      (false_position 1 (-3) 2 0 1.5 0.001 zeroRows 0.0 "").err = DENOM_MSG ∧
      (false_position 1 (-3) 2 0 1.5 0.001 zeroRows 0.0 "").root = 0.0) ∨
    (1 ≤ (false_position 1 (-3) 2 0 1.5 0.001 zeroRows 0.0 "").ret ∧
      (false_position 1 (-3) 2 0 1.5 0.001 zeroRows 0.0 "").ret ≤ 200 ∧
      (false_position 1 (-3) 2 0 1.5 0.001 zeroRows 0.0 "").err = "" ∧
      (false_position 1 (-3) 2 0 1.5 0.001 zeroRows 0.0 "").root =
        ((false_position 1 (-3) 2 0 1.5 0.001 zeroRows 0.0 "").rows
          ((false_position 1 (-3) 2 0 1.5 0.001 zeroRows 0.0 "").ret.toNat - 1)).xr ∧
      (fabs (fquad 1 (-3) 2 (false_position 1 (-3) 2 0 1.5 0.001 zeroRows 0.0 "").root) < 1e-14 ∨
        (2 ≤ (false_position 1 (-3) 2 0 1.5 0.001 zeroRows 0.0 "").ret ∧
          ((false_position 1 (-3) 2 0 1.5 0.001 zeroRows 0.0 "").rows
            ((false_position 1 (-3) 2 0 1.5 0.001 zeroRows 0.0 "").ret.toNat - 1)).ea <
              (if (0.001 : Dbl) ≤ 0.0 then 1e-4 else 0.001)) ∨
        (false_position 1 (-3) 2 0 1.5 0.001 zeroRows 0.0 "").ret = 200))) :=
  ⟨by decide!, C1_bracketed_run 1 (-3) 2 0 1.5 0.001 zeroRows 0.0 "" (by decide!)⟩

end B64

namespace B64

/-- C2 (counterexample): two quadratics with `f(xl)·f(xu) ≥ 0` for which the NoBracket
failure is not what comes back. For `x² − 1` on `[1, 2]` the value `f(1)` is exactly zero,
the solver succeeds at the first pass with root `1`, and the response is not the NoBracket
failure. For `1e-11·x² + 1` on `[0, 1]` (`a ≠ 0`, both values positive) the response of the
handler is the message for `a = 0`. -/
theorem C2_counterexample :
    (real_f 1 0 (-1) 1 * real_f 1 0 (-1) 2 ≥ 0 ∧
      (false_position 1 0 (-1) 1 2 0 zeroRows 0.0 "").ret = 1 ∧
      (false_position 1 0 (-1) 1 2 0 zeroRows 0.0 "").root = 1 ∧
      (false_position 1 0 (-1) 1 2 0 zeroRows 0.0 "").err ≠ NO_BRACKET_MSG ∧
      (handle_solve dsqrt 1 0 (-1) 1 2 0 zeroRows).1 ≠ .failure (failure_body NO_BRACKET_MSG)) ∧
    ((1e-11 : Dbl).val ≠ 0 ∧ real_f 1e-11 0 1 0 * real_f 1e-11 0 1 1 ≥ 0 ∧
      (handle_solve dsqrt 1e-11 0 1 0 1 0 zeroRows).1 = .failure DOMAIN_BODY ∧
      (handle_solve dsqrt 1e-11 0 1 0 1 0 zeroRows).1 ≠
        .failure (failure_body NO_BRACKET_MSG)) := by
  decide!

/-- C2 (amended): the solver fails with the message of the bracket check exactly when the
product of the two computed endpoint values, itself computed as a `double`, is above zero;
it then leaves the row buffer and `*root` as they were. A computed product that is zero
(an endpoint value of zero, or an underflow), below zero or NaN passes the check. The
handler answers with the failure body of that message exactly when, in addition,
`fabs(a) < 1e-10` does not hold. -/
theorem C2_no_bracket (sqrt : Dbl → Dbl) (a b c xl xu tol : Dbl) (rows : Nat → FPRow)
    (root : Dbl) (err : String) :
    (((false_position a b c xl xu tol rows root err).ret = -1 ∧
        (false_position a b c xl xu tol rows root err).err = NO_BRACKET_MSG) ↔
      fquad a b c xl * fquad a b c xu > 0.0) ∧
    (fquad a b c xl * fquad a b c xu > 0.0 →
      false_position a b c xl xu tol rows root err = ⟨-1, rows, root, NO_BRACKET_MSG⟩) ∧
    ((handle_solve sqrt a b c xl xu tol rows).1 = .failure (failure_body NO_BRACKET_MSG) ↔
      (¬ fabs a < 1e-10 ∧ fquad a b c xl * fquad a b c xu > 0.0)) := by
  have key : ∀ (root : Dbl) (err : String), ¬ fquad a b c xl * fquad a b c xu > 0.0 →
      (false_position a b c xl xu tol rows root err).ret = -1 →
      (false_position a b c xl xu tol rows root err).err = DENOM_MSG := by
    intro root err hp hret
    rcases false_position_records_d a b c xl xu tol rows root err hp with
      ⟨j, _, _, _, _, herr, _⟩ | ⟨m, hm1, _, hret', _⟩
    · exact herr
    · rw [hret'] at hret
      have : (1 : Int) ≤ ((m : Nat) : Int) := by exact_mod_cast hm1
      omega
  refine ⟨⟨?_, ?_⟩, false_position_no_bracket_d a b c xl xu tol rows root err, ⟨?_, ?_⟩⟩
  · rintro ⟨hret, herr⟩
    by_contra hp
    rw [key root err hp hret] at herr
    exact failure_body_ne.2.2 herr
  · intro hp
    rw [false_position_no_bracket_d a b c xl xu tol rows root err hp]
    exact ⟨rfl, rfl⟩
  · intro h
    unfold handle_solve at h
    by_cases ha : fabs a < 1e-10
    · rw [if_pos ha] at h
      injection h with h
      exact absurd h failure_body_ne.2.1
    · rw [if_neg ha] at h
      refine ⟨ha, ?_⟩
      by_contra hp
      simp only at h
      by_cases hr : (false_position a b c xl xu tol rows 0.0 "").ret < 0
      · rw [if_pos hr] at h
        have hret : (false_position a b c xl xu tol rows 0.0 "").ret = -1 := by
          rcases false_position_records_d a b c xl xu tol rows 0.0 "" hp with
            ⟨j, _, _, _, hret, _⟩ | ⟨m, _, _, hret', _⟩
          · exact hret
          · rw [hret'] at hr
            have : (0 : Int) ≤ ((m : Nat) : Int) := Int.natCast_nonneg m
            omega
        rw [key 0.0 "" hp hret] at h
        injection h with h
        exact failure_body_ne.1 h
      · rw [if_neg hr] at h
        unfold build_json at h
        simp only at h
        exact Response.noConfusion h
  · rintro ⟨ha, hp⟩
    unfold handle_solve
    rw [if_neg ha]
    simp only
    rw [false_position_no_bracket_d a b c xl xu tol rows 0.0 "" hp]
    rfl

/-- C2 (witness): the amended statement at `x² + 1` on `[-2, 2]`, where the computed
product is `25`, and at `x² − 1` on `[1, 2]`, where it is zero. -/
theorem C2_no_bracket_witness :
    ((false_position 1 0 1 (-2) 2 0 zeroRows 0.0 "").ret = -1 ∧
      (false_position 1 0 1 (-2) 2 0 zeroRows 0.0 "").err = NO_BRACKET_MSG) ∧
    (handle_solve dsqrt 1 0 1 (-2) 2 0 zeroRows).1 = .failure (failure_body NO_BRACKET_MSG) ∧
    ¬ ((false_position 1 0 (-1) 1 2 0 zeroRows 0.0 "").ret = -1 ∧
      (false_position 1 0 (-1) 1 2 0 zeroRows 0.0 "").err = NO_BRACKET_MSG) :=
  ⟨(C2_no_bracket dsqrt 1 0 1 (-2) 2 0 zeroRows 0.0 "").1.mpr (by decide!),
    (C2_no_bracket dsqrt 1 0 1 (-2) 2 0 zeroRows 0.0 "").2.2.mpr ⟨by decide!, by decide!⟩,
    fun h => absurd ((C2_no_bracket dsqrt 1 0 (-1) 1 2 0 zeroRows 0.0 "").1.mp h) (by decide!)⟩

end B64

namespace B64

/-- C3 (counterexample): two inputs with `|a| = 1` whose endpoint values, as real numbers,
have the same strict sign, and which do not get the NoBracket failure. For `x²` on
`[2^-300, 2^-299]` the computed values are zero, the bracket check passes and the solver
fails with the message of the denominator check. For `x² − 2x + 1` on `[1.00000001, 2]`
the computed `f(xl)` is zero, and the solver succeeds with one record and root `xl`. -/
theorem C3_counterexample :
    ((4.909093465297727e-91 : Dbl) = .fin (1 / 2 ^ 300) ∧
      (9.818186930595453e-91 : Dbl) = .fin (1 / 2 ^ 299) ∧
      real_f 1 0 0 4.909093465297727e-91 * real_f 1 0 0 9.818186930595453e-91 > 0 ∧
      ¬ fabs 1 < 1e-10 ∧
      (false_position 1 0 0 4.909093465297727e-91 9.818186930595453e-91 0 zeroRows 0.0 "").ret
        = -1 ∧
      (false_position 1 0 0 4.909093465297727e-91 9.818186930595453e-91 0 zeroRows 0.0 "").err
        = DENOM_MSG ∧
      (handle_solve dsqrt 1 0 0 4.909093465297727e-91 9.818186930595453e-91 0 zeroRows).1 =
        .failure (failure_body DENOM_MSG)) ∧
    (real_f 1 (-2) 1 1.00000001 * real_f 1 (-2) 1 2 > 0 ∧
      (false_position 1 (-2) 1 1.00000001 2 0 zeroRows 0.0 "").ret = 1 ∧
      (false_position 1 (-2) 1 1.00000001 2 0 zeroRows 0.0 "").root = 1.00000001 ∧
      ((false_position 1 (-2) 1 1.00000001 2 0 zeroRows 0.0 "").rows 0).n = 1) := by
  decide!

/-- C3 (amended): whenever `fabs(a) < 1e-10` does not hold and the product of the two
computed endpoint values, computed as a `double`, is above zero, `false_position` returns
`-1` with the fixed message of the bracket check and leaves the row buffer and `*root` as
they were (no record is produced), and `handle_solve` answers with exactly the failure body
built from that message, which carries no root, table or graph. -/
theorem C3_same_sign_failure (sqrt : Dbl → Dbl) (a b c xl xu tol : Dbl) (rows : Nat → FPRow)
    (root : Dbl) (err : String) (ha : ¬ fabs a < 1e-10)
    (hp : fquad a b c xl * fquad a b c xu > 0.0) :
    false_position a b c xl xu tol rows root err = ⟨-1, rows, root, NO_BRACKET_MSG⟩ ∧
    handle_solve sqrt a b c xl xu tol rows = (.failure (failure_body NO_BRACKET_MSG), rows) ∧
    failure_body NO_BRACKET_MSG =
      "\x7b\"success\":false,\"error\":\"f(xL) and f(xU) must have opposite signs. No root is bracketed in this interval.\"\x7d" := by
  refine ⟨false_position_no_bracket_d a b c xl xu tol rows root err hp, ?_, by decide⟩
  unfold handle_solve
  rw [if_neg ha]
  simp only
  rw [false_position_no_bracket_d a b c xl xu tol rows 0.0 "" hp]
  rfl

/-- C3 (witness): the amended statement at the three inputs the claim names,
`(a,b,c,xl,xu) = (1,2,1,-3,0)`, `(1,0,1,-2,2)` and `(1,-2,1,0,2)`. -/
theorem C3_same_sign_failure_witness :
    ((¬ fabs 1 < 1e-10 ∧ fquad 1 2 1 (-3) * fquad 1 2 1 0 > 0.0) ∧
      false_position 1 2 1 (-3) 0 0 zeroRows 0.0 "" = ⟨-1, zeroRows, 0.0, NO_BRACKET_MSG⟩ ∧
      handle_solve dsqrt 1 2 1 (-3) 0 0 zeroRows =
        (.failure (failure_body NO_BRACKET_MSG), zeroRows)) ∧
    ((¬ fabs 1 < 1e-10 ∧ fquad 1 0 1 (-2) * fquad 1 0 1 2 > 0.0) ∧
      false_position 1 0 1 (-2) 2 0 zeroRows 0.0 "" = ⟨-1, zeroRows, 0.0, NO_BRACKET_MSG⟩ ∧
      handle_solve dsqrt 1 0 1 (-2) 2 0 zeroRows =
        (.failure (failure_body NO_BRACKET_MSG), zeroRows)) ∧
    ((¬ fabs 1 < 1e-10 ∧ fquad 1 (-2) 1 0 * fquad 1 (-2) 1 2 > 0.0) ∧
      false_position 1 (-2) 1 0 2 0 zeroRows 0.0 "" = ⟨-1, zeroRows, 0.0, NO_BRACKET_MSG⟩ ∧
      handle_solve dsqrt 1 (-2) 1 0 2 0 zeroRows =
        (.failure (failure_body NO_BRACKET_MSG), zeroRows)) :=
  ⟨⟨⟨by decide!, by decide!⟩,
      (C3_same_sign_failure dsqrt 1 2 1 (-3) 0 0 zeroRows 0.0 "" (by decide!) (by decide!)).1,
      (C3_same_sign_failure dsqrt 1 2 1 (-3) 0 0 zeroRows 0.0 "" (by decide!) (by decide!)).2.1⟩,
    ⟨⟨by decide!, by decide!⟩,
      (C3_same_sign_failure dsqrt 1 0 1 (-2) 2 0 zeroRows 0.0 "" (by decide!) (by decide!)).1,
      (C3_same_sign_failure dsqrt 1 0 1 (-2) 2 0 zeroRows 0.0 "" (by decide!) (by decide!)).2.1⟩,
    ⟨⟨by decide!, by decide!⟩,
      (C3_same_sign_failure dsqrt 1 (-2) 1 0 2 0 zeroRows 0.0 "" (by decide!) (by decide!)).1,
      (C3_same_sign_failure dsqrt 1 (-2) 1 0 2 0 zeroRows 0.0 "" (by decide!) (by decide!)).2.1⟩⟩

end B64

/-- C4: for `a = 0` and every `b`, `c`, `xl`, `xu`, `tol`, every content of the row buffer
and every C library, `handle_solve` answers with the fixed failure body for a zero leading
coefficient and leaves the row buffer untouched: nothing of the solver, the classifier or
the sample generator enters the result. -/
theorem C4_domain_error (lib : LibC K) (b c xl xu tol : K) (rows : Nat → FPRow K) :
    handle_solve lib 0 b c xl xu tol rows = (.failure DOMAIN_BODY, rows) ∧
    DOMAIN_BODY =
      "\x7b\"success\":false,\"error\":\"Coefficient \x27a\x27 cannot be zero — that would not be a quadratic equation.\"\x7d" := by
  refine ⟨?_, rfl⟩
  unfold handle_solve
  rw [if_pos (by rw [abs_zero]; norm_num)]

/-- C5: whenever `false_position` succeeds, the record count `n` it returns satisfies
`1 ≤ n ≤ 200`, the records carry the indices `1, 2, …, n` in that order, and the root is the
`xr` of the `n`-th record; the success response `build_json` makes of it reports the root,
`froot = f(root)`, `iterations = n` and `last_ea` equal to the `ea` of the last record, which
is `100` when `n = 1`. -/
theorem C5_success_shape (lib : LibC K) (a b c xl xu tol : K) (rows : Nat → FPRow K) (root : K)
    (err : String) (hs : 0 ≤ (false_position a b c xl xu tol rows root err).ret) :
    1 ≤ (false_position a b c xl xu tol rows root err).ret ∧
    (false_position a b c xl xu tol rows root err).ret ≤ 200 ∧
    (∀ i : Nat, (i : Int) < (false_position a b c xl xu tol rows root err).ret →
      ((false_position a b c xl xu tol rows root err).rows i).n = (i : Int) + 1) ∧
    (false_position a b c xl xu tol rows root err).root =
      ((false_position a b c xl xu tol rows root err).rows
        ((false_position a b c xl xu tol rows root err).ret.toNat - 1)).xr ∧
    build_json lib a b c xl xu (false_position a b c xl xu tol rows root err).rows
        (false_position a b c xl xu tol rows root err).ret
        (false_position a b c xl xu tol rows root err).root =
      .success (false_position a b c xl xu tol rows root err).root
        (fquad a b c (false_position a b c xl xu tol rows root err).root)
        (false_position a b c xl xu tol rows root err).ret
        ((false_position a b c xl xu tol rows root err).rows
          ((false_position a b c xl xu tol rows root err).ret.toNat - 1)).ea
        (discriminant_info lib a b c 0 0).1 (b * b - 4 * a * c)
        (discriminant_info lib a b c 0 0).2.1 (discriminant_info lib a b c 0 0).2.2
        (graph_json lib a b c xl xu 65536)
        (table_loop lib (false_position a b c xl xu tol rows root err).rows 65536
          (false_position a b c xl xu tol rows root err).ret.toNat 0 1 []) ∧
    ((false_position a b c xl xu tol rows root err).ret = 1 →
      ((false_position a b c xl xu tol rows root err).rows 0).ea = some 100) := by
  by_cases hp : fquad a b c xl * fquad a b c xu > 0
  · rw [false_position_no_bracket a b c xl xu tol rows root err hp] at hs
    exact absurd (show (0 : Int) ≤ -1 from hs) (by decide)
  rcases false_position_records a b c xl xu tol rows root err hp with
    ⟨_, he⟩ | ⟨_, m, hm1, hm2, hret, _, hroot, hrows, _, _, _⟩
  · rw [he] at hs
    exact absurd (show (0 : Int) ≤ -1 from hs) (by decide)
  have htn : (false_position a b c xl xu tol rows root err).ret.toNat - 1 = m - 1 := by
    rw [hret]; rfl
  have hlast := hrows (m - 1) (by omega)
  have hfirst := hrows 0 (by omega)
  refine ⟨by rw [hret]; exact_mod_cast hm1, by rw [hret]; exact_mod_cast hm2, ?_, ?_, ?_, ?_⟩
  · intro i hi
    rw [hret] at hi
    rw [hrows i (by exact_mod_cast hi)]
    show ((fp_state a b c (fp_init a b c xl xu rows) i).n : Int) + 1 = _
    rw [fp_state_init_n]
  · rw [htn, hlast, hroot]; rfl
  · unfold build_json
    simp only
    rw [htn]
    by_cases h1 : (false_position a b c xl xu tol rows root err).ret > 1
    · rw [if_pos h1]
      have : ((false_position a b c xl xu tol rows root err).ret - 1).toNat = m - 1 := by
        rw [hret]; omega
      rw [this]
    · rw [if_neg h1]
      have hm : m = 1 := by
        rw [hret] at h1; omega
      subst hm
      rw [hfirst]
      rfl
  · intro _
    rw [hfirst]
    rfl

/-- C5 (witness): the statement at scenario 1, `x² − 3x + 2` on `[0, 1.5]` with
`tol = 0.001`, where the solver succeeds, and its last part at `x² − 1` on `[1, 2]`, where it
succeeds with one record. -/
theorem C5_success_shape_witness :
    (0 ≤ (false_position (1 : ℚ) (-3) 2 0 (3 / 2) (1 / 1000) zeroRows 0 "").ret ∧
    (1 ≤ (false_position (1 : ℚ) (-3) 2 0 (3 / 2) (1 / 1000) zeroRows 0 "").ret ∧
    (false_position (1 : ℚ) (-3) 2 0 (3 / 2) (1 / 1000) zeroRows 0 "").ret ≤ 200 ∧
    (∀ i : Nat, (i : Int) < (false_position (1 : ℚ) (-3) 2 0 (3 / 2) (1 / 1000) zeroRows 0 "").ret →
      ((false_position (1 : ℚ) (-3) 2 0 (3 / 2) (1 / 1000) zeroRows 0 "").rows i).n =
        (i : Int) + 1) ∧
    (false_position (1 : ℚ) (-3) 2 0 (3 / 2) (1 / 1000) zeroRows 0 "").root =
      ((false_position (1 : ℚ) (-3) 2 0 (3 / 2) (1 / 1000) zeroRows 0 "").rows
        ((false_position (1 : ℚ) (-3) 2 0 (3 / 2) (1 / 1000) zeroRows 0 "").ret.toNat - 1)).xr ∧
    build_json libQ 1 (-3) 2 0 (3 / 2)
        (false_position (1 : ℚ) (-3) 2 0 (3 / 2) (1 / 1000) zeroRows 0 "").rows
        (false_position (1 : ℚ) (-3) 2 0 (3 / 2) (1 / 1000) zeroRows 0 "").ret
        (false_position (1 : ℚ) (-3) 2 0 (3 / 2) (1 / 1000) zeroRows 0 "").root =
      .success (false_position (1 : ℚ) (-3) 2 0 (3 / 2) (1 / 1000) zeroRows 0 "").root
        (fquad 1 (-3) 2 (false_position (1 : ℚ) (-3) 2 0 (3 / 2) (1 / 1000) zeroRows 0 "").root)
        (false_position (1 : ℚ) (-3) 2 0 (3 / 2) (1 / 1000) zeroRows 0 "").ret
        ((false_position (1 : ℚ) (-3) 2 0 (3 / 2) (1 / 1000) zeroRows 0 "").rows
          ((false_position (1 : ℚ) (-3) 2 0 (3 / 2) (1 / 1000) zeroRows 0 "").ret.toNat - 1)).ea
        (discriminant_info libQ 1 (-3) 2 0 0).1 ((-3) * (-3) - 4 * 1 * 2)
        (discriminant_info libQ 1 (-3) 2 0 0).2.1 (discriminant_info libQ 1 (-3) 2 0 0).2.2
        (graph_json libQ 1 (-3) 2 0 (3 / 2) 65536)
        (table_loop libQ (false_position (1 : ℚ) (-3) 2 0 (3 / 2) (1 / 1000) zeroRows 0 "").rows
          65536 (false_position (1 : ℚ) (-3) 2 0 (3 / 2) (1 / 1000) zeroRows 0 "").ret.toNat
          0 1 []) ∧
    ((false_position (1 : ℚ) (-3) 2 0 (3 / 2) (1 / 1000) zeroRows 0 "").ret = 1 →
      ((false_position (1 : ℚ) (-3) 2 0 (3 / 2) (1 / 1000) zeroRows 0 "").rows 0).ea =
        some 100))) ∧
    ((0 ≤ (false_position (1 : ℚ) 0 (-1) 1 2 0 zeroRows 0 "").ret ∧
        (false_position (1 : ℚ) 0 (-1) 1 2 0 zeroRows 0 "").ret = 1) ∧
      ((false_position (1 : ℚ) 0 (-1) 1 2 0 zeroRows 0 "").rows 0).ea = some 100) :=
  ⟨⟨by decide!, C5_success_shape libQ (1 : ℚ) (-3) 2 0 (3 / 2) (1 / 1000) zeroRows 0 ""
      (by decide!)⟩,
    ⟨⟨by decide!, by decide!⟩,
      (C5_success_shape libQ (1 : ℚ) 0 (-1) 1 2 0 zeroRows 0 "" (by decide!)).2.2.2.2.2
        (by decide!)⟩⟩

namespace B64

/-- C6 (counterexample): `x² + 7x − 1e-320` on `[0, 7e6]`. The endpoint values `−1e-320`
and `4.9e13` have a product below zero, as real numbers and as computed. The first pass
neither fails nor converges; its product `fxl * fxr` of `−1e-320` and `6.5e-9` underflows
to `-0.0`, which is not below zero, so line 124 replaces `xl`, and the second record has
`fxl` and `fxu` both above zero. -/
theorem C6_counterexample :
    real_f 1 7 (-1e-320) 0 * real_f 1 7 (-1e-320) 7e6 < 0 ∧
    fquad 1 7 (-1e-320) 0 * fquad 1 7 (-1e-320) 7e6 < 0.0 ∧
    (false_position 1 7 (-1e-320) 0 7e6 0 zeroRows 0.0 "").ret = 2 ∧
    ((false_position 1 7 (-1e-320) 0 7e6 0 zeroRows 0.0 "").rows 0).fxl *
      ((false_position 1 7 (-1e-320) 0 7e6 0 zeroRows 0.0 "").rows 0).fxr = Dbl.nzero ∧
    0.0 < ((false_position 1 7 (-1e-320) 0 7e6 0 zeroRows 0.0 "").rows 1).fxl ∧
    0.0 < ((false_position 1 7 (-1e-320) 0 7e6 0 zeroRows 0.0 "").rows 1).fxu ∧
    ¬ ((false_position 1 7 (-1e-320) 0 7e6 0 zeroRows 0.0 "").rows 1).fxl *
      ((false_position 1 7 (-1e-320) 0 7e6 0 zeroRows 0.0 "").rows 1).fxu < 0.0 := by
  decide!

/-- C6 (amended): a pass that neither fails nor converges, given endpoint values of
strictly opposite signs, hands endpoint values of strictly opposite signs on to the next
pass whenever its computed product `fxl * fxr` is below zero or above zero; when that
product is a zero (as after an underflow) or NaN, line 124 replaces `xl` and nothing is
kept. Hence, from every start whose computed endpoint values have strictly opposite signs,
record `k` of a successful run has `fxl` and `fxu` of strictly opposite signs when the
product `fxl * fxr` of every record before it is below or above zero. -/
theorem C6_bracket_invariant (a b c xl xu tol : Dbl) (rows : Nat → FPRow) (root : Dbl)
    (err : String) (hb : opp_sign (fquad a b c xl) (fquad a b c xu)) :
    (∀ (t : Dbl) (s s' : FPState), opp_sign s.fxl s.fxu → fp_pass a b c t s = .cont s' →
      (s.fxl * fquad a b c (xr_of s) < 0.0 ∨ 0.0 < s.fxl * fquad a b c (xr_of s)) →
      opp_sign s'.fxl s'.fxu) ∧
    (∀ k : Nat, (k : Int) < (false_position a b c xl xu tol rows root err).ret →
      (∀ i, i < k →
        ((false_position a b c xl xu tol rows root err).rows i).fxl *
            ((false_position a b c xl xu tol rows root err).rows i).fxr < 0.0 ∨
          0.0 < ((false_position a b c xl xu tol rows root err).rows i).fxl *
            ((false_position a b c xl xu tol rows root err).rows i).fxr) →
      opp_sign ((false_position a b c xl xu tol rows root err).rows k).fxl
        ((false_position a b c xl xu tol rows root err).rows k).fxu) := by
  constructor
  · intro t s s' hs hp hx
    rw [(fp_pass_cont_d hp).2.2]
    exact fp_next_opp_d a b c s hs hx
  · rcases false_position_records_d a b c xl xu tol rows root err (opp_not_pos hb) with
      ⟨j, _, _, _, hret, _⟩ | ⟨m, _, _, hret, _, _, hrows, _⟩
    · intro k hk
      rw [hret] at hk
      omega
    · intro k hk hx
      rw [hret] at hk
      have hk' : k < m := by exact_mod_cast hk
      rw [hrows k hk']
      refine fp_state_opp_d a b c (fp_init a b c xl xu rows) hb k ?_
      intro i hi
      have h := hx i hi
      rw [hrows i (by omega)] at h
      exact h

/-- C6 (witness): the amended statement at scenario 1 with `tol = 200`, whose computed
endpoint values are `2` and `−0.25`: the first pass has a product `fxl * fxr` below zero,
and the second of the two records has `fxl` and `fxu` of opposite signs. -/
theorem C6_bracket_invariant_witness :
    opp_sign (fquad 1 (-3) 2 0) (fquad 1 (-3) 2 1.5) ∧
    (false_position 1 (-3) 2 0 1.5 200 zeroRows 0.0 "").ret = 2 ∧
    opp_sign ((false_position 1 (-3) 2 0 1.5 200 zeroRows 0.0 "").rows 1).fxl
      ((false_position 1 (-3) 2 0 1.5 200 zeroRows 0.0 "").rows 1).fxu :=
  ⟨by decide!, by decide!,
    (C6_bracket_invariant 1 (-3) 2 0 1.5 200 zeroRows 0.0 "" (by decide!)).2 1 (by decide!)
      (by decide!)⟩

end B64

namespace B64

/-- C8 (failing input): `x² − 1` on `[0, 25·2^494]`. The text of a sample takes up to 476
characters here, more than the 80 bytes the guard of line 164 keeps free. The loop stops
after 139 of the 201 samples; 138 of them are written in full, the 139th is cut off where
the buffer ends, and `pos` is `65707` after the loop, beyond the 65536 bytes of `gbuf`, so
that line 171 hands `snprintf` the address `buf + 65707` and a negative size. -/
theorem C8_buffer_overrun :
    (1.2786682062094304e150 : Dbl) = .fin (25 * 2 ^ 494) ∧
    (graph_json 1 0 (-1) 0 1.2786682062094304e150 65536).whole.length = 138 ∧
    (graph_json 1 0 (-1) 0 1.2786682062094304e150 65536).pos = 65707 ∧
    (65536 : Int) < (graph_json 1 0 (-1) 0 1.2786682062094304e150 65536).pos := by
  decide!

end B64

namespace B64

/-- C9 (counterexample): two quadratics with `a = 1` whose `Δ = b² − 4ac` is above zero as
a real number and for which `discriminant_info` returns tag 1, not 2, because the
computed `b*b - 4.0*a*c` is `0.0`: `b = 1 + 2^-27`, `c = (1 + 2^-26)/4`, with `Δ = 2^-54`,
and `b = 100000001`, `c = 2500000050000000`, with `Δ = 1`. -/
theorem C9_counterexample :
    ((1.0000000074505806 : Dbl) = .fin (1 + 1 / 2 ^ 27) ∧
      (0.2500000037252903 : Dbl) = .fin ((1 + 1 / 2 ^ 26) / 4) ∧
      real_disc 1 1.0000000074505806 0.2500000037252903 = 1 / 2 ^ 54 ∧
      (discriminant_info dsqrt 1 1.0000000074505806 0.2500000037252903 0.0 0.0).1 = 1) ∧
    (real_disc 1 100000001 2500000050000000 = 1 ∧
      (discriminant_info dsqrt 1 100000001 2500000050000000 0.0 0.0).1 = 1) := by
  decide!

/-- C9 (amended): with `Δ` the `double` the program computes as `b*b - 4.0*a*c`,
`discriminant_info` returns tag 2 exactly when `Δ > 0.0`, with `r1 = (-b + sqrt(Δ))/(2.0*a)`
and `r2 = (-b - sqrt(Δ))/(2.0*a)`; tag 1 exactly when `Δ > 0.0` does not hold and
`fabs(Δ) < 1e-12`, with `r1 = r2 = -b/(2.0*a)`; and tag 0 otherwise (a `Δ` of `-1e-12` or
less, or NaN), with `r1` and `r2` left as they were. Every operation is the rounded one. -/
theorem C9_discriminant (sqrt : Dbl → Dbl) (a b c r1 r2 : Dbl) :
    ((discriminant_info sqrt a b c r1 r2).1 = 2 ↔ b * b - 4.0 * a * c > 0.0) ∧
    (b * b - 4.0 * a * c > 0.0 → discriminant_info sqrt a b c r1 r2 =
      (2, (-b + sqrt (b * b - 4.0 * a * c)) / (2.0 * a),
        (-b - sqrt (b * b - 4.0 * a * c)) / (2.0 * a))) ∧
    ((discriminant_info sqrt a b c r1 r2).1 = 1 ↔
      (¬ b * b - 4.0 * a * c > 0.0 ∧ fabs (b * b - 4.0 * a * c) < 1e-12)) ∧
    (¬ b * b - 4.0 * a * c > 0.0 → fabs (b * b - 4.0 * a * c) < 1e-12 →
      discriminant_info sqrt a b c r1 r2 = (1, -b / (2.0 * a), -b / (2.0 * a))) ∧
    ((discriminant_info sqrt a b c r1 r2).1 = 0 ↔
      (¬ b * b - 4.0 * a * c > 0.0 ∧ ¬ fabs (b * b - 4.0 * a * c) < 1e-12)) ∧
    (¬ b * b - 4.0 * a * c > 0.0 → ¬ fabs (b * b - 4.0 * a * c) < 1e-12 →
      discriminant_info sqrt a b c r1 r2 = (0, r1, r2)) := by
  have h21 : ¬ (2 : Int) = 1 := by decide
  have h20 : ¬ (2 : Int) = 0 := by decide
  have h12 : ¬ (1 : Int) = 2 := by decide
  have h10 : ¬ (1 : Int) = 0 := by decide
  have h02 : ¬ (0 : Int) = 2 := by decide
  have h01 : ¬ (0 : Int) = 1 := by decide
  unfold discriminant_info
  simp only
  by_cases h1 : b * b - 4.0 * a * c > 0.0
  · rw [if_pos h1]
    exact ⟨⟨fun _ => h1, fun _ => rfl⟩, fun _ => rfl, ⟨fun h => (h21 h).elim, fun h =>
      absurd h1 h.1⟩, fun h => absurd h1 h, ⟨fun h => (h20 h).elim,
      fun h => absurd h1 h.1⟩, fun h => absurd h1 h⟩
  · rw [if_neg h1]
    by_cases h2 : fabs (b * b - 4.0 * a * c) < 1e-12
    · rw [if_pos h2]
      exact ⟨⟨fun h => (h12 h).elim, fun h => absurd h h1⟩, fun h => absurd h h1,
        ⟨fun _ => ⟨h1, h2⟩, fun _ => rfl⟩, fun _ _ => rfl,
        ⟨fun h => (h10 h).elim, fun h => absurd h2 h.2⟩, fun _ h => absurd h2 h⟩
    · rw [if_neg h2]
      exact ⟨⟨fun h => (h02 h).elim, fun h => absurd h h1⟩, fun h => absurd h h1,
        ⟨fun h => (h01 h).elim, fun h => absurd h.2 h2⟩, fun _ h => absurd h h2,
        ⟨fun _ => ⟨h1, h2⟩, fun _ => rfl⟩, fun _ _ => rfl⟩

/-- C9 (witness): the three inputs the claim names: `(1,-2,1)` gives tag 1 and root `1`,
`(1,2,1)` gives tag 1 and root `−1`, `(1,0,1)` gives tag 0; and `(1,-3,2)` gives tag 2 with
the roots `2` and `1`. -/
theorem C9_discriminant_witness :
    discriminant_info dsqrt 1 (-2) 1 0.0 0.0 = (1, 1, 1) ∧
    discriminant_info dsqrt 1 2 1 0.0 0.0 = (1, -1, -1) ∧
    discriminant_info dsqrt 1 0 1 0.0 0.0 = (0, 0.0, 0.0) ∧
    discriminant_info dsqrt 1 (-3) 2 0.0 0.0 = (2, 2, 1) :=
  ⟨by
      rw [(C9_discriminant dsqrt 1 (-2) 1 0.0 0.0).2.2.2.1 (by decide!) (by decide!)]
      decide!,
    by
      rw [(C9_discriminant dsqrt 1 2 1 0.0 0.0).2.2.2.1 (by decide!) (by decide!)]
      decide!,
    (C9_discriminant dsqrt 1 0 1 0.0 0.0).2.2.2.2.2 (by decide!) (by decide!),
    by
      rw [(C9_discriminant dsqrt 1 (-3) 2 0.0 0.0).2.1 (by decide!)]
      decide!⟩

end B64

/-- C10: scenario 1, `a=1, b=−3, c=2, xl=0, xu=1.5, tol=0.001`, from any row buffer: the
first record has `f(xl) = 2` and `f(xu) = −0.25`, `false_position` succeeds with 17 records,
short of the cap of 200, with a root `r` such that `|r − 1| < 1e-4`, and `discriminant_info`,
with a `sqrt` that has `√1 = 1`, returns tag 2 with `Δ = 1`, `r1 = 2` and `r2 = 1`. -/
theorem C10_scenario_one (lib : LibC ℚ) (rows : Nat → FPRow ℚ) (root : ℚ) (err : String)
    (r1 r2 : ℚ) (hsqrt : lib.sqrt 1 = 1) :
    ((false_position (1 : ℚ) (-3) 2 0 (3 / 2) (1 / 1000) rows root err).rows 0).fxl = 2 ∧
    ((false_position (1 : ℚ) (-3) 2 0 (3 / 2) (1 / 1000) rows root err).rows 0).fxu = -(1 / 4) ∧
    (false_position (1 : ℚ) (-3) 2 0 (3 / 2) (1 / 1000) rows root err).ret = 17 ∧
    (0 ≤ (false_position (1 : ℚ) (-3) 2 0 (3 / 2) (1 / 1000) rows root err).ret ∧
      (false_position (1 : ℚ) (-3) 2 0 (3 / 2) (1 / 1000) rows root err).ret < 200) ∧
    |(false_position (1 : ℚ) (-3) 2 0 (3 / 2) (1 / 1000) rows root err).root - 1| < 1e-4 ∧
    (-3 : ℚ) * (-3) - 4 * 1 * 2 = 1 ∧
    discriminant_info lib (1 : ℚ) (-3) 2 r1 r2 = (2, 2, 1) := by
  obtain ⟨hret, hroot, hrows⟩ := false_position_stop (1 : ℚ) (-3) 2 0 (3 / 2) (1 / 1000)
    rows zeroRows root err 16 (by decide) (by decide!) (by decide!) (by decide!) (by decide!)
  have h0 := hrows 0 (by decide)
  refine ⟨?_, ?_, ?_, ?_, ?_, by norm_num, ?_⟩
  · rw [h0]; decide!
  · rw [h0]; decide!
  · rw [hret]; rfl
  · rw [hret]; decide
  · rw [hroot]; decide!
  · have hd : (-3 : ℚ) * (-3) - 4 * 1 * 2 = 1 := by norm_num
    unfold discriminant_info
    simp only
    rw [hd, if_pos (by norm_num), hsqrt]
    norm_num

/-- C10 (witness): the statement with the rational square root `qsqrt`, for which
`qsqrt 1 = 1`, and the zero-initialised row buffer. -/
theorem C10_scenario_one_witness :
    libQ.sqrt 1 = 1 ∧
    (((false_position (1 : ℚ) (-3) 2 0 (3 / 2) (1 / 1000) zeroRows 0 "").rows 0).fxl = 2 ∧
    ((false_position (1 : ℚ) (-3) 2 0 (3 / 2) (1 / 1000) zeroRows 0 "").rows 0).fxu = -(1 / 4) ∧
    (false_position (1 : ℚ) (-3) 2 0 (3 / 2) (1 / 1000) zeroRows 0 "").ret = 17 ∧
    (0 ≤ (false_position (1 : ℚ) (-3) 2 0 (3 / 2) (1 / 1000) zeroRows 0 "").ret ∧
      (false_position (1 : ℚ) (-3) 2 0 (3 / 2) (1 / 1000) zeroRows 0 "").ret < 200) ∧
    |(false_position (1 : ℚ) (-3) 2 0 (3 / 2) (1 / 1000) zeroRows 0 "").root - 1| < 1e-4 ∧
    (-3 : ℚ) * (-3) - 4 * 1 * 2 = 1 ∧
    discriminant_info libQ (1 : ℚ) (-3) 2 0 0 = (2, 2, 1)) :=
  ⟨by decide!, C10_scenario_one libQ zeroRows 0 "" 0 0 (by decide!)⟩

/-- C11: for every `tol ≤ 0`, `false_position` with `tol` and with `1e-4` leave the same
return value, the same row buffer, the same root and the same message. -/
theorem C11_tolerance_default (a b c xl xu tol : K) (rows : Nat → FPRow K) (root : K)
    (err : String) (ht : tol ≤ 0) :
    false_position a b c xl xu tol rows root err =
      false_position a b c xl xu 1e-4 rows root err := by
  by_cases hp : fquad a b c xl * fquad a b c xu > 0
  · rw [false_position_no_bracket a b c xl xu tol rows root err hp,
      false_position_no_bracket a b c xl xu 1e-4 rows root err hp]
  · rw [false_position_loop a b c xl xu tol rows root err hp,
      false_position_loop a b c xl xu 1e-4 rows root err hp, norm_tol_default tol ht,
      norm_tol_fixed]

/-- C11 (witness): the statement at scenario 1 with `tol = 0` and with `tol = -5`. -/
theorem C11_tolerance_default_witness :
    ((0 : ℚ) ≤ 0 ∧
      false_position (1 : ℚ) (-3) 2 0 (3 / 2) 0 zeroRows 0 "" =
        false_position (1 : ℚ) (-3) 2 0 (3 / 2) 1e-4 zeroRows 0 "") ∧
    ((-5 : ℚ) ≤ 0 ∧
      false_position (1 : ℚ) (-3) 2 0 (3 / 2) (-5) zeroRows 0 "" =
        false_position (1 : ℚ) (-3) 2 0 (3 / 2) 1e-4 zeroRows 0 "") :=
  ⟨⟨by decide!, C11_tolerance_default (1 : ℚ) (-3) 2 0 (3 / 2) 0 zeroRows 0 "" (by decide!)⟩,
    ⟨by decide!, C11_tolerance_default (1 : ℚ) (-3) 2 0 (3 / 2) (-5) zeroRows 0 "" (by decide!)⟩⟩

/-- C12: two calls with the same `(a, b, c, xl, xu, tol)` give the same response, the same
return value, root and message, and the same rows below the return value, whatever the
static row buffer held before each call: the result reads only rows the current call has
written. -/
theorem C12_buffer_independence (lib : LibC K) (a b c xl xu tol : K)
    (rows rows' : Nat → FPRow K) :
    (handle_solve lib a b c xl xu tol rows).1 = (handle_solve lib a b c xl xu tol rows').1 ∧
    (false_position a b c xl xu tol rows 0 "").ret =
      (false_position a b c xl xu tol rows' 0 "").ret ∧
    (false_position a b c xl xu tol rows 0 "").root =
      (false_position a b c xl xu tol rows' 0 "").root ∧
    (false_position a b c xl xu tol rows 0 "").err =
      (false_position a b c xl xu tol rows' 0 "").err ∧
    (∀ i : Nat, (i : Int) < (false_position a b c xl xu tol rows 0 "").ret →
      (false_position a b c xl xu tol rows 0 "").rows i =
        (false_position a b c xl xu tol rows' 0 "").rows i) := by
  obtain ⟨hret, hroot, herr, hrows⟩ := false_position_indep a b c xl xu tol rows rows' 0 ""
  refine ⟨?_, hret, hroot, herr, hrows⟩
  unfold handle_solve
  by_cases ha : |a| < 1e-10
  · rw [if_pos ha, if_pos ha]
  · rw [if_neg ha, if_neg ha]
    simp only
    by_cases hf : (false_position a b c xl xu tol rows 0 "").ret < 0
    · rw [if_pos hf, if_pos (by rw [← hret]; exact hf), herr]
    · rw [if_neg hf, if_neg (by rw [← hret]; exact hf), ← hret, ← hroot,
        build_json_congr lib a b c xl xu _ _ _ _ hrows]

/-- C12 (witness): scenario 1 from the zero-initialised buffer and from a buffer an earlier
request has filled: the same response, and the same second row. -/
theorem C12_buffer_independence_witness :
    (handle_solve libQ (1 : ℚ) (-3) 2 0 (3 / 2) (1 / 1000) zeroRows).1 =
      (handle_solve libQ (1 : ℚ) (-3) 2 0 (3 / 2) (1 / 1000) usedRows).1 ∧
    (((1 : Nat) : Int) < (false_position (1 : ℚ) (-3) 2 0 (3 / 2) (1 / 1000) zeroRows 0 "").ret ∧
      (false_position (1 : ℚ) (-3) 2 0 (3 / 2) (1 / 1000) zeroRows 0 "").rows 1 =
        (false_position (1 : ℚ) (-3) 2 0 (3 / 2) (1 / 1000) usedRows 0 "").rows 1) ∧
    zeroRows 1 ≠ usedRows 1 :=
  ⟨(C12_buffer_independence libQ (1 : ℚ) (-3) 2 0 (3 / 2) (1 / 1000) zeroRows usedRows).1,
    ⟨by decide!,
      (C12_buffer_independence libQ (1 : ℚ) (-3) 2 0 (3 / 2) (1 / 1000) zeroRows
        usedRows).2.2.2.2 1 (by decide!)⟩,
    by decide!⟩

/-- C13: `false_position` fails exactly when `f(xl)·f(xu) > 0` or `|f(xl) − f(xu)| < 1e-15`
at the caller's `xl`, `xu`: with the message of the bracket check in the first case and of
the denominator check otherwise. A failed call has written no record and left `*root` as
it was, so the denominator check never fails from the second pass on; every other call
succeeds with `1 ≤ n ≤ 200` records, the cap of 200 included. -/
theorem C13_failure_at_start (a b c xl xu tol : K) (rows : Nat → FPRow K) (root : K)
    (err : String) :
    ((false_position a b c xl xu tol rows root err).ret < 0 ↔
      (fquad a b c xl * fquad a b c xu > 0 ∨ |fquad a b c xl - fquad a b c xu| < 1e-15)) ∧
    (fquad a b c xl * fquad a b c xu > 0 →
      false_position a b c xl xu tol rows root err = ⟨-1, rows, root, NO_BRACKET_MSG⟩) ∧
    (¬ fquad a b c xl * fquad a b c xu > 0 → |fquad a b c xl - fquad a b c xu| < 1e-15 →
      false_position a b c xl xu tol rows root err = ⟨-1, rows, root, DENOM_MSG⟩) ∧
    ((false_position a b c xl xu tol rows root err).ret < 0 →
      (false_position a b c xl xu tol rows root err).rows = rows ∧
      (false_position a b c xl xu tol rows root err).root = root) ∧
    (¬ (false_position a b c xl xu tol rows root err).ret < 0 →
      1 ≤ (false_position a b c xl xu tol rows root err).ret ∧
      (false_position a b c xl xu tol rows root err).ret ≤ 200 ∧
      (false_position a b c xl xu tol rows root err).err = err) := by
  have hneg : ((-1 : Int) < 0) := by decide
  by_cases hp : fquad a b c xl * fquad a b c xu > 0
  · have he := false_position_no_bracket a b c xl xu tol rows root err hp
    rw [he]
    exact ⟨⟨fun _ => Or.inl hp, fun _ => hneg⟩, fun _ => rfl, fun h => absurd hp h,
      fun _ => ⟨rfl, rfl⟩, fun h => absurd hneg h⟩
  · rcases false_position_records a b c xl xu tol rows root err hp with
      ⟨hd, he⟩ | ⟨hd, m, hm1, hm2, hret, herr, _, _, _, _, _⟩
    · rw [he]
      exact ⟨⟨fun _ => Or.inr hd, fun _ => hneg⟩, fun h => absurd h hp, fun _ _ => rfl,
        fun _ => ⟨rfl, rfl⟩, fun h => absurd hneg h⟩
    · have hnn : ¬ (false_position a b c xl xu tol rows root err).ret < 0 := by
        rw [hret]; omega
      refine ⟨⟨fun h => absurd h hnn, fun h => ?_⟩, fun h => absurd h hp,
        fun _ h => absurd h hd, fun h => absurd h hnn, fun _ => ?_⟩
      · rcases h with h | h
        · exact absurd h hp
        · exact absurd h hd
      · rw [hret]
        exact ⟨by exact_mod_cast hm1, by exact_mod_cast hm2, herr⟩

/-- C13 (witness): the parts of the statement at `x² + 1` on `[-2, 2]` (same sign),
at `x² − 1e-32` on `[0, 2e-16]` (values closer than `1e-15`), and at `x² − 1` on `[0, 1e6]`,
which succeeds with 200 records. -/
theorem C13_failure_at_start_witness :
    (fquad (1 : ℚ) 0 1 (-2) * fquad (1 : ℚ) 0 1 2 > 0 ∧
      false_position (1 : ℚ) 0 1 (-2) 2 0 zeroRows 0 "" = ⟨-1, zeroRows, 0, NO_BRACKET_MSG⟩) ∧
    ((¬ fquad (1 : ℚ) 0 (-1e-32) 0 * fquad (1 : ℚ) 0 (-1e-32) 2e-16 > 0 ∧
        |fquad (1 : ℚ) 0 (-1e-32) 0 - fquad (1 : ℚ) 0 (-1e-32) 2e-16| < 1e-15) ∧
      false_position (1 : ℚ) 0 (-1e-32) 0 2e-16 0 zeroRows 0 "" = ⟨-1, zeroRows, 0, DENOM_MSG⟩) ∧
    ((¬ (false_position (1 : ℚ) 0 (-1) 0 1000000 0 zeroRows 0 "").ret < 0 ∧
        (false_position (1 : ℚ) 0 (-1) 0 1000000 0 zeroRows 0 "").ret = 200) ∧
      1 ≤ (false_position (1 : ℚ) 0 (-1) 0 1000000 0 zeroRows 0 "").ret ∧
      (false_position (1 : ℚ) 0 (-1) 0 1000000 0 zeroRows 0 "").ret ≤ 200 ∧
      (false_position (1 : ℚ) 0 (-1) 0 1000000 0 zeroRows 0 "").err = "") :=
  ⟨⟨by decide!, (C13_failure_at_start (1 : ℚ) 0 1 (-2) 2 0 zeroRows 0 "").2.1 (by decide!)⟩,
    ⟨⟨by decide!, by decide!⟩,
      (C13_failure_at_start (1 : ℚ) 0 (-1e-32) 0 2e-16 0 zeroRows 0 "").2.2.1 (by decide!)
        (by decide!)⟩,
    ⟨⟨by decide!, by decide!⟩,
      (C13_failure_at_start (1 : ℚ) 0 (-1) 0 1000000 0 zeroRows 0 "").2.2.2.2 (by decide!)⟩⟩

namespace B64

/-- C15 (counterexample): scenario 1 with `tol = 200`. The bracket check passes, the first
denominator is accepted, the first record carries the index `1 > 0` and `ea = 100 < tol`,
and yet the solver does not stop at the first pass: two records are returned. -/
theorem C15_counterexample :
    real_f 1 (-3) 2 0 * real_f 1 (-3) 2 1.5 < 0 ∧
    fquad 1 (-3) 2 0 * fquad 1 (-3) 2 1.5 < 0.0 ∧
    ¬ fabs (fquad 1 (-3) 2 0 - fquad 1 (-3) 2 1.5) < 1e-15 ∧
    (100.0 : Dbl) < 200 ∧
    ((false_position 1 (-3) 2 0 1.5 200 zeroRows 0.0 "").rows 0).n = 1 ∧
    ((false_position 1 (-3) 2 0 1.5 200 zeroRows 0.0 "").rows 0).n > 0 ∧
    ((false_position 1 (-3) 2 0 1.5 200 zeroRows 0.0 "").rows 0).ea < 200 ∧
    (false_position 1 (-3) 2 0 1.5 200 zeroRows 0.0 "").ret = 2 ∧
    (false_position 1 (-3) 2 0 1.5 200 zeroRows 0.0 "").ret ≠ 1 := by
  decide!

/-- C15 (amended): a pass stops the solver with success exactly when its denominator is
accepted and the computed `|f(xr)|` is below `1e-14`, or the 1-based index stored in its
record is greater than `1` (the loop counter `n` is greater than `0`) and `ea < tol`.
Hence for every start that passes the bracket check (the computed product of the endpoint
values is not above zero) with an accepted first denominator, and every `tol`, exactly one
record is returned if and only if the computed `|f(xr)|` of the first estimate is below
`1e-14`; otherwise at least two records are returned, or a later pass fails on its
denominator. -/
theorem C15_convergence_check (a b c : Dbl) :
    (∀ (t : Dbl) (s : FPState), (∃ rows xr, fp_pass a b c t s = .conv rows xr) ↔
      (¬ fabs (s.fxl - s.fxu) < 1e-15 ∧
        (fabs (row_of a b c s).fxr < 1e-14 ∨
          (1 < (row_of a b c s).n ∧ (row_of a b c s).ea < t)))) ∧
    (∀ (xl xu tol : Dbl) (rows : Nat → FPRow) (root : Dbl) (err : String),
      ¬ fquad a b c xl * fquad a b c xu > 0.0 →
      ¬ fabs (fquad a b c xl - fquad a b c xu) < 1e-15 →
      ((false_position a b c xl xu tol rows root err).ret = 1 ↔
        fabs (fquad a b c (xu - fquad a b c xu * (xl - xu) / (fquad a b c xl - fquad a b c xu)))
          < 1e-14) ∧
      (¬ fabs (fquad a b c (xu - fquad a b c xu * (xl - xu) / (fquad a b c xl - fquad a b c xu)))
          < 1e-14 →
        2 ≤ (false_position a b c xl xu tol rows root err).ret ∨
        ((false_position a b c xl xu tol rows root err).ret = -1 ∧
          (false_position a b c xl xu tol rows root err).err = DENOM_MSG ∧
          (false_position a b c xl xu tol rows root err).rows 0 =
            row_of a b c (fp_init a b c xl xu rows)))) := by
  constructor
  · intro t s
    rw [fp_pass_conv_iff_d]
    have hn : (1 < (row_of a b c s).n) ↔ 0 < s.n := by
      show (1 : Int) < (s.n : Int) + 1 ↔ 0 < s.n
      omega
    rw [hn]
    exact Iff.rfl
  · intro xl xu tol rows root err hb hd
    have hx : xr_of (fp_state a b c (fp_init a b c xl xu rows) 0) =
        xu - fquad a b c xu * (xl - xu) / (fquad a b c xl - fquad a b c xu) := rfl
    rcases false_position_records_d a b c xl xu tol rows root err hb with
      ⟨j, _, hdj, hgo, hret, herr, _, hrows, _⟩ | ⟨m, hm1, _, hret, _, _, _, _, _, hgo, hc⟩
    · have hj : 0 < j := by
        rcases Nat.eq_zero_or_pos j with h0 | h0
        · subst h0
          exact absurd hdj hd
        · exact h0
      have hnc : ¬ fabs (fquad a b c
          (xu - fquad a b c xu * (xl - xu) / (fquad a b c xl - fquad a b c xu))) < 1e-14 := by
        intro h
        exact (hgo 0 hj).2 (Or.inl (by rw [hx]; exact h))
      rw [hret]
      refine ⟨⟨fun h => absurd h (by decide), fun h => absurd h hnc⟩, fun _ =>
        Or.inr ⟨rfl, herr, hrows 0 hj⟩⟩
    · have hiff : m = 1 ↔
          fabs (fquad a b c
            (xu - fquad a b c xu * (xl - xu) / (fquad a b c xl - fquad a b c xu))) < 1e-14 := by
        constructor
        · intro h1
          subst h1
          rcases hc with hc | hc
          · rcases hc with hc | ⟨h0, _⟩
            · rw [← hx]; exact hc
            · exact absurd h0 (lt_irrefl 0)
          · exact absurd hc (by decide)
        · intro hconv
          by_contra hne
          exact hgo 0 (by omega) (Or.inl (by rw [hx]; exact hconv))
      rw [hret]
      constructor
      · rw [← hiff]
        constructor
        · intro h; exact_mod_cast h
        · intro h; rw [h]; rfl
      · intro hn
        have : m ≠ 1 := fun h => hn (hiff.mp h)
        have h2 : 2 ≤ m := by omega
        exact Or.inl (by exact_mod_cast h2)

/-- C15 (witness): the amended statement at scenario 1 with `tol = 200`: the first computed
residual is not below `1e-14`, and two records are returned. -/
theorem C15_convergence_check_witness :
    (¬ fquad 1 (-3) 2 0 * fquad 1 (-3) 2 1.5 > 0.0 ∧
      ¬ fabs (fquad 1 (-3) 2 0 - fquad 1 (-3) 2 1.5) < 1e-15 ∧
      ¬ fabs (fquad 1 (-3) 2 (1.5 - fquad 1 (-3) 2 1.5 * (0 - 1.5) /
          (fquad 1 (-3) 2 0 - fquad 1 (-3) 2 1.5))) < 1e-14) ∧
    (2 ≤ (false_position 1 (-3) 2 0 1.5 200 zeroRows 0.0 "").ret ∨
      ((false_position 1 (-3) 2 0 1.5 200 zeroRows 0.0 "").ret = -1 ∧
        (false_position 1 (-3) 2 0 1.5 200 zeroRows 0.0 "").err = DENOM_MSG ∧
        (false_position 1 (-3) 2 0 1.5 200 zeroRows 0.0 "").rows 0 =
          row_of 1 (-3) 2 (fp_init 1 (-3) 2 0 1.5 zeroRows))) ∧
    ¬ (false_position 1 (-3) 2 0 1.5 200 zeroRows 0.0 "").ret = 1 :=
  ⟨⟨by decide!, by decide!, by decide!⟩,
    ((C15_convergence_check 1 (-3) 2).2 0 1.5 200 zeroRows 0.0 "" (by decide!)
      (by decide!)).2 (by decide!),
    fun h => absurd (((C15_convergence_check 1 (-3) 2).2 0 1.5 200 zeroRows 0.0 "" (by decide!)
      (by decide!)).1.mp h) (by decide!)⟩

end B64

namespace B64

/-- C16 (counterexample): two runs in which a pass does not change exactly one endpoint in
the way the claim says. For `1 − x²` on `[2^70, 0.5]` the first estimate is computed as
`0.5`, the old `xu`: the second record has the same `xl` and `xu` as the first, and the run
ends there with `ea = 0` and the caller's `xu` as root. For `x² + 7x − 1e-320` on `[0, 7e6]`
the recorded `fxl` and `fxr` of the first pass have a product below zero as real numbers,
and yet the second record has `(xl, xu) = (xr, xu)` of the first, because the computed
product is `-0.0`. -/
theorem C16_counterexample :
    ((1.1805916207174113e21 : Dbl) = .fin (2 ^ 70) ∧
      (false_position (-1) 0 1 1.1805916207174113e21 0.5 0 zeroRows 0.0 "").ret = 2 ∧
      ((false_position (-1) 0 1 1.1805916207174113e21 0.5 0 zeroRows 0.0 "").rows 0).xr =
        ((false_position (-1) 0 1 1.1805916207174113e21 0.5 0 zeroRows 0.0 "").rows 0).xu ∧
      ((false_position (-1) 0 1 1.1805916207174113e21 0.5 0 zeroRows 0.0 "").rows 1).xl =
        ((false_position (-1) 0 1 1.1805916207174113e21 0.5 0 zeroRows 0.0 "").rows 0).xl ∧
      ((false_position (-1) 0 1 1.1805916207174113e21 0.5 0 zeroRows 0.0 "").rows 1).xu =
        ((false_position (-1) 0 1 1.1805916207174113e21 0.5 0 zeroRows 0.0 "").rows 0).xu ∧
      ((false_position (-1) 0 1 1.1805916207174113e21 0.5 0 zeroRows 0.0 "").rows 1).ea = 0.0 ∧
      (false_position (-1) 0 1 1.1805916207174113e21 0.5 0 zeroRows 0.0 "").root = 0.5) ∧
    ((false_position 1 7 (-1e-320) 0 7e6 0 zeroRows 0.0 "").ret = 2 ∧
      ((false_position 1 7 (-1e-320) 0 7e6 0 zeroRows 0.0 "").rows 0).fxl.val *
        ((false_position 1 7 (-1e-320) 0 7e6 0 zeroRows 0.0 "").rows 0).fxr.val < 0 ∧
      ((false_position 1 7 (-1e-320) 0 7e6 0 zeroRows 0.0 "").rows 1).xl =
        ((false_position 1 7 (-1e-320) 0 7e6 0 zeroRows 0.0 "").rows 0).xr ∧
      ((false_position 1 7 (-1e-320) 0 7e6 0 zeroRows 0.0 "").rows 1).xu =
        ((false_position 1 7 (-1e-320) 0 7e6 0 zeroRows 0.0 "").rows 0).xu ∧
      ((false_position 1 7 (-1e-320) 0 7e6 0 zeroRows 0.0 "").rows 1).xl ≠
        ((false_position 1 7 (-1e-320) 0 7e6 0 zeroRows 0.0 "").rows 0).xl) := by
  decide!

/-- C16 (amended): in every run that returns records, each record has `fxl`, `fxu` and
`fxr` equal to the `double`s `fquad` computes at its `xl`, `xu` and `xr`, and
`xr = xu - fxu*(xl - xu)/(fxl - fxu)` as computed; the first record has the caller's `xl`,
`xu`; and the record after record `k` has `(xl, xu) = (xl_k, xr_k)` if the computed product
`fxl_k * fxr_k` is below zero and `(xr_k, xu_k)` otherwise (a product that is zero or NaN
included). So one endpoint is assigned `xr_k` in every pass and the other is kept; the
value assigned may equal the one it replaces. -/
theorem C16_trace_consistency (a b c xl xu tol : Dbl) (rows : Nat → FPRow) (root : Dbl)
    (err : String) :
    (∀ i : Nat, (i : Int) < (false_position a b c xl xu tol rows root err).ret →
      ((false_position a b c xl xu tol rows root err).rows i).fxl =
        fquad a b c ((false_position a b c xl xu tol rows root err).rows i).xl ∧
      ((false_position a b c xl xu tol rows root err).rows i).fxu =
        fquad a b c ((false_position a b c xl xu tol rows root err).rows i).xu ∧
      ((false_position a b c xl xu tol rows root err).rows i).fxr =
        fquad a b c ((false_position a b c xl xu tol rows root err).rows i).xr ∧
      ((false_position a b c xl xu tol rows root err).rows i).xr =
        ((false_position a b c xl xu tol rows root err).rows i).xu -
          ((false_position a b c xl xu tol rows root err).rows i).fxu *
            (((false_position a b c xl xu tol rows root err).rows i).xl -
              ((false_position a b c xl xu tol rows root err).rows i).xu) /
            (((false_position a b c xl xu tol rows root err).rows i).fxl -
              ((false_position a b c xl xu tol rows root err).rows i).fxu)) ∧
    (1 ≤ (false_position a b c xl xu tol rows root err).ret →
      ((false_position a b c xl xu tol rows root err).rows 0).xl = xl ∧
      ((false_position a b c xl xu tol rows root err).rows 0).xu = xu) ∧
    (∀ i : Nat, (i : Int) + 1 < (false_position a b c xl xu tol rows root err).ret →
      (((false_position a b c xl xu tol rows root err).rows i).fxl *
          ((false_position a b c xl xu tol rows root err).rows i).fxr < 0.0 →
        ((false_position a b c xl xu tol rows root err).rows (i + 1)).xl =
          ((false_position a b c xl xu tol rows root err).rows i).xl ∧
        ((false_position a b c xl xu tol rows root err).rows (i + 1)).xu =
          ((false_position a b c xl xu tol rows root err).rows i).xr) ∧
      (¬ ((false_position a b c xl xu tol rows root err).rows i).fxl *
          ((false_position a b c xl xu tol rows root err).rows i).fxr < 0.0 →
        ((false_position a b c xl xu tol rows root err).rows (i + 1)).xl =
          ((false_position a b c xl xu tol rows root err).rows i).xr ∧
        ((false_position a b c xl xu tol rows root err).rows (i + 1)).xu =
          ((false_position a b c xl xu tol rows root err).rows i).xu)) := by
  have hneg : ∀ i : Nat, ¬ (i : Int) < -1 := fun i h => by omega
  have hneg1 : ∀ i : Nat, ¬ (i : Int) + 1 < -1 := fun i h => by omega
  by_cases hp : fquad a b c xl * fquad a b c xu > 0.0
  · rw [false_position_no_bracket_d a b c xl xu tol rows root err hp]
    exact ⟨fun i hi => absurd hi (hneg i),
      fun h => absurd (show (1 : Int) ≤ -1 from h) (by decide),
      fun i hi => absurd hi (hneg1 i)⟩
  rcases false_position_records_d a b c xl xu tol rows root err hp with
    ⟨j, _, _, _, hret, _⟩ | ⟨m, hm1, _, hret, _, _, hrows, _⟩
  · rw [hret]
    exact ⟨fun i hi => absurd hi (hneg i),
      fun h => absurd (show (1 : Int) ≤ -1 from h) (by decide),
      fun i hi => absurd hi (hneg1 i)⟩
  rw [hret]
  refine ⟨fun i hi => ?_, fun _ => ?_, fun i hi => ?_⟩
  · have hi' : i < m := by exact_mod_cast hi
    rw [hrows i hi']
    obtain ⟨v1, v2⟩ := fp_state_values_d a b c xl xu rows i
    exact ⟨v1, v2, rfl, rfl⟩
  · rw [hrows 0 (by omega)]
    exact ⟨rfl, rfl⟩
  · have hi' : i + 1 < m := by exact_mod_cast hi
    rw [hrows i (by omega), hrows (i + 1) hi']
    constructor
    · intro hlt
      have hlt' : (fp_state a b c (fp_init a b c xl xu rows) i).fxl *
          fquad a b c (xr_of (fp_state a b c (fp_init a b c xl xu rows) i)) < 0.0 := hlt
      have hn : fp_state a b c (fp_init a b c xl xu rows) (i + 1) =
          ⟨(fp_state a b c (fp_init a b c xl xu rows) i).n + 1,
            (fp_state a b c (fp_init a b c xl xu rows) i).xl,
            xr_of (fp_state a b c (fp_init a b c xl xu rows) i),
            (fp_state a b c (fp_init a b c xl xu rows) i).fxl,
            fquad a b c (xr_of (fp_state a b c (fp_init a b c xl xu rows) i)),
            xr_of (fp_state a b c (fp_init a b c xl xu rows) i),
            Function.update (fp_state a b c (fp_init a b c xl xu rows) i).rows
              (fp_state a b c (fp_init a b c xl xu rows) i).n
              (row_of a b c (fp_state a b c (fp_init a b c xl xu rows) i))⟩ := by
        rw [fp_state_succ2_d]
        unfold fp_next
        rw [if_pos hlt']
      rw [hn]
      exact ⟨rfl, rfl⟩
    · intro hlt
      have hlt' : ¬ (fp_state a b c (fp_init a b c xl xu rows) i).fxl *
          fquad a b c (xr_of (fp_state a b c (fp_init a b c xl xu rows) i)) < 0.0 := hlt
      have hn : fp_state a b c (fp_init a b c xl xu rows) (i + 1) =
          ⟨(fp_state a b c (fp_init a b c xl xu rows) i).n + 1,
            xr_of (fp_state a b c (fp_init a b c xl xu rows) i),
            (fp_state a b c (fp_init a b c xl xu rows) i).xu,
            fquad a b c (xr_of (fp_state a b c (fp_init a b c xl xu rows) i)),
            (fp_state a b c (fp_init a b c xl xu rows) i).fxu,
            xr_of (fp_state a b c (fp_init a b c xl xu rows) i),
            Function.update (fp_state a b c (fp_init a b c xl xu rows) i).rows
              (fp_state a b c (fp_init a b c xl xu rows) i).n
              (row_of a b c (fp_state a b c (fp_init a b c xl xu rows) i))⟩ := by
        rw [fp_state_succ2_d]
        unfold fp_next
        rw [if_neg hlt']
      rw [hn]
      exact ⟨rfl, rfl⟩

/-- C16 (witness): the amended statement at the first record of scenario 1 with `tol = 200`, at its
first pass, which assigns `xu` (the computed `fxl * fxr` is below zero), and at the first pass of
`x² − 1` on `[0, 3]` with `tol = 50`, which assigns `xl`. -/
theorem C16_trace_consistency_witness :
    ((0 : Int) < (false_position 1 (-3) 2 0 1.5 200 zeroRows 0.0 "").ret ∧
      ((false_position 1 (-3) 2 0 1.5 200 zeroRows 0.0 "").rows 0).fxr =
        fquad 1 (-3) 2 ((false_position 1 (-3) 2 0 1.5 200 zeroRows 0.0 "").rows 0).xr) ∧
    ((1 : Int) ≤ (false_position 1 (-3) 2 0 1.5 200 zeroRows 0.0 "").ret ∧
      ((false_position 1 (-3) 2 0 1.5 200 zeroRows 0.0 "").rows 0).xl = 0 ∧
      ((false_position 1 (-3) 2 0 1.5 200 zeroRows 0.0 "").rows 0).xu = 1.5) ∧
    ((((0 : Nat) : Int) + 1 < (false_position 1 (-3) 2 0 1.5 200 zeroRows 0.0 "").ret ∧
        ((false_position 1 (-3) 2 0 1.5 200 zeroRows 0.0 "").rows 0).fxl *
          ((false_position 1 (-3) 2 0 1.5 200 zeroRows 0.0 "").rows 0).fxr < 0.0) ∧
      ((false_position 1 (-3) 2 0 1.5 200 zeroRows 0.0 "").rows (0 + 1)).xl =
        ((false_position 1 (-3) 2 0 1.5 200 zeroRows 0.0 "").rows 0).xl ∧
      ((false_position 1 (-3) 2 0 1.5 200 zeroRows 0.0 "").rows (0 + 1)).xu =
        ((false_position 1 (-3) 2 0 1.5 200 zeroRows 0.0 "").rows 0).xr) ∧
    ((((0 : Nat) : Int) + 1 < (false_position 1 0 (-1) 0 3 50 zeroRows 0.0 "").ret ∧
        ¬ ((false_position 1 0 (-1) 0 3 50 zeroRows 0.0 "").rows 0).fxl *
          ((false_position 1 0 (-1) 0 3 50 zeroRows 0.0 "").rows 0).fxr < 0.0) ∧
      ((false_position 1 0 (-1) 0 3 50 zeroRows 0.0 "").rows (0 + 1)).xl =
        ((false_position 1 0 (-1) 0 3 50 zeroRows 0.0 "").rows 0).xr ∧
      ((false_position 1 0 (-1) 0 3 50 zeroRows 0.0 "").rows (0 + 1)).xu =
        ((false_position 1 0 (-1) 0 3 50 zeroRows 0.0 "").rows 0).xu) :=
  ⟨⟨by decide!,
      ((C16_trace_consistency 1 (-3) 2 0 1.5 200 zeroRows 0.0 "").1 0 (by decide!)).2.2.1⟩,
    ⟨by decide!,
      (C16_trace_consistency 1 (-3) 2 0 1.5 200 zeroRows 0.0 "").2.1 (by decide!)⟩,
    ⟨⟨by decide!, by decide!⟩,
      ((C16_trace_consistency 1 (-3) 2 0 1.5 200 zeroRows 0.0 "").2.2 0
        (by decide!)).1 (by decide!)⟩,
    ⟨⟨by decide!, by decide!⟩,
      ((C16_trace_consistency 1 0 (-1) 0 3 50 zeroRows 0.0 "").2.2 0
        (by decide!)).2 (by decide!)⟩⟩

end B64

/-- C17: from every start with `f(xl)·f(xu) < 0` that does not fail, the `xr` of every
record lies strictly between that record's `xl` and `xu`, in whichever order they are; the
bracket of each record lies inside the bracket of the record before it; and the returned
root lies strictly between the caller's `xl` and `xu`. -/
theorem C17_estimates_inside (a b c xl xu tol : K) (rows : Nat → FPRow K) (root : K)
    (err : String) (hb : fquad a b c xl * fquad a b c xu < 0)
    (hs : 0 ≤ (false_position a b c xl xu tol rows root err).ret) :
    (∀ i : Nat, (i : Int) < (false_position a b c xl xu tol rows root err).ret →
      min ((false_position a b c xl xu tol rows root err).rows i).xl
          ((false_position a b c xl xu tol rows root err).rows i).xu <
        ((false_position a b c xl xu tol rows root err).rows i).xr ∧
      ((false_position a b c xl xu tol rows root err).rows i).xr <
        max ((false_position a b c xl xu tol rows root err).rows i).xl
          ((false_position a b c xl xu tol rows root err).rows i).xu) ∧
    (∀ i : Nat, (i : Int) + 1 < (false_position a b c xl xu tol rows root err).ret →
      min ((false_position a b c xl xu tol rows root err).rows i).xl
          ((false_position a b c xl xu tol rows root err).rows i).xu ≤
        min ((false_position a b c xl xu tol rows root err).rows (i + 1)).xl
          ((false_position a b c xl xu tol rows root err).rows (i + 1)).xu ∧
      max ((false_position a b c xl xu tol rows root err).rows (i + 1)).xl
          ((false_position a b c xl xu tol rows root err).rows (i + 1)).xu ≤
        max ((false_position a b c xl xu tol rows root err).rows i).xl
          ((false_position a b c xl xu tol rows root err).rows i).xu) ∧
    (min xl xu < (false_position a b c xl xu tol rows root err).root ∧
      (false_position a b c xl xu tol rows root err).root < max xl xu) := by
  have hp : ¬ fquad a b c xl * fquad a b c xu > 0 := not_lt.mpr hb.le
  rcases false_position_records a b c xl xu tol rows root err hp with
    ⟨_, he⟩ | ⟨_, m, hm1, _, hret, _, hroot, hrows, _, hgo, _⟩
  · rw [he] at hs
    exact absurd (show (0 : Int) ≤ -1 from hs) (by decide)
  have hbetween : ∀ i, i < m →
      min (fp_state a b c (fp_init a b c xl xu rows) i).xl
          (fp_state a b c (fp_init a b c xl xu rows) i).xu <
        xr_of (fp_state a b c (fp_init a b c xl xu rows) i) ∧
      xr_of (fp_state a b c (fp_init a b c xl xu rows) i) <
        max (fp_state a b c (fp_init a b c xl xu rows) i).xl
          (fp_state a b c (fp_init a b c xl xu rows) i).xu := by
    intro i hi
    have hgo' : ∀ k, k < i →
        ¬ conv_test a b c (norm_tol tol) (fp_state a b c (fp_init a b c xl xu rows) k) :=
      fun k hk => hgo k (by omega)
    exact xr_of_between _
      (fp_state_bracket a b c (norm_tol tol) (fp_init a b c xl xu rows) hb i hgo').1
      (fp_state_ends_ne a b c (norm_tol tol) xl xu rows hb i hgo')
  rw [hret]
  refine ⟨fun i hi => ?_, fun i hi => ?_, ?_⟩
  · have hi' : i < m := by exact_mod_cast hi
    rw [hrows i hi']
    exact hbetween i hi'
  · have hi' : i + 1 < m := by exact_mod_cast hi
    rw [hrows i (by omega), hrows (i + 1) hi']
    have h := fp_next_inside a b c _ (hbetween i (by omega))
    rw [← fp_state_succ2] at h
    exact h
  · rw [hroot]
    have hin := fp_state_inside a b c (norm_tol tol) xl xu rows hb (m - 1)
      (fun k hk => hgo k (by omega))
    have hbw := hbetween (m - 1) (by omega)
    exact ⟨lt_of_le_of_lt hin.1 hbw.1, lt_of_lt_of_le hbw.2 hin.2⟩

/-- C17 (witness): the statement at scenario 1. -/
theorem C17_estimates_inside_witness :
    (fquad (1 : ℚ) (-3) 2 0 * fquad (1 : ℚ) (-3) 2 (3 / 2) < 0 ∧
      0 ≤ (false_position (1 : ℚ) (-3) 2 0 (3 / 2) (1 / 1000) zeroRows 0 "").ret) ∧
    (min (0 : ℚ) (3 / 2) < (false_position (1 : ℚ) (-3) 2 0 (3 / 2) (1 / 1000) zeroRows 0 "").root ∧
      (false_position (1 : ℚ) (-3) 2 0 (3 / 2) (1 / 1000) zeroRows 0 "").root < max (0 : ℚ) (3 / 2)) :=
  ⟨⟨by decide!, by decide!⟩,
    (C17_estimates_inside (1 : ℚ) (-3) 2 0 (3 / 2) (1 / 1000) zeroRows 0 "" (by decide!)
      (by decide!)).2.2⟩

namespace B64

/-- C18 (counterexample): two quadratics for which `discriminant_info` returns tag 1 and a
value that is not a root. For `x² + 1e-14` (`Δ = −4e-14`) it returns `-0.0`, where the
quadratic is `1e-14`. For `3x² + 291145763x + 7063821276071015` (`Δ = −11`, computed as
`0.0`) it returns `−48524293.833333336`, where the quadratic is above `0.9` as a real
number and `1` as computed. -/
theorem C18_counterexample :
    (discriminant_info dsqrt 1 0 1e-14 0.0 0.0 = (1, Dbl.nzero, Dbl.nzero) ∧
      real_f 1 0 1e-14 Dbl.nzero ≠ 0 ∧ fquad 1 0 1e-14 Dbl.nzero = 1e-14) ∧
    (real_disc 3 291145763 7063821276071015 = -11 ∧
      discriminant_info dsqrt 3 291145763 7063821276071015 0.0 0.0 =
        (1, -48524293.833333336, -48524293.833333336) ∧
      real_f 3 291145763 7063821276071015 (-48524293.833333336) > 9 / 10 ∧
      fquad 3 291145763 7063821276071015 (-48524293.833333336) = 1) := by
  decide!

/-- C18 (amended): whenever `discriminant_info` returns tag 1, the values it returns are
`r1 = r2 = -b/(2.0*a)` as computed, and the computed `Δ = b*b - 4.0*a*c` is not above zero
and has `fabs(Δ) < 1e-12`; that `r1` is a root of the quadratic does not follow. -/
theorem C18_repeated_root (sqrt : Dbl → Dbl) (a b c r1 r2 : Dbl)
    (h1 : (discriminant_info sqrt a b c r1 r2).1 = 1) :
    (discriminant_info sqrt a b c r1 r2).2.1 = -b / (2.0 * a) ∧
    (discriminant_info sqrt a b c r1 r2).2.2 = -b / (2.0 * a) ∧
    ¬ b * b - 4.0 * a * c > 0.0 ∧ fabs (b * b - 4.0 * a * c) < 1e-12 := by
  unfold discriminant_info at h1 ⊢
  simp only at h1 ⊢
  by_cases hp : b * b - 4.0 * a * c > 0.0
  · rw [if_pos hp] at h1
    exact absurd (show (2 : Int) = 1 from h1) (by decide)
  · rw [if_neg hp] at h1 ⊢
    by_cases h2 : fabs (b * b - 4.0 * a * c) < 1e-12
    · rw [if_pos h2]
      exact ⟨rfl, rfl, hp, h2⟩
    · rw [if_neg h2] at h1
      exact absurd (show (0 : Int) = 1 from h1) (by decide)

/-- C18 (witness): the amended statement at `x² − 2x + 1`, where the value returned is `1`
and is a root. -/
theorem C18_repeated_root_witness :
    (discriminant_info dsqrt 1 (-2) 1 0.0 0.0).1 = 1 ∧
    ((discriminant_info dsqrt 1 (-2) 1 0.0 0.0).2.1 = -(-2) / (2.0 * 1) ∧
      (discriminant_info dsqrt 1 (-2) 1 0.0 0.0).2.2 = -(-2) / (2.0 * 1) ∧
      ¬ (-2 : Dbl) * (-2) - 4.0 * 1 * 1 > 0.0 ∧ fabs ((-2 : Dbl) * (-2) - 4.0 * 1 * 1) < 1e-12) ∧
    fquad 1 (-2) 1 (discriminant_info dsqrt 1 (-2) 1 0.0 0.0).2.1 = 0.0 :=
  ⟨by decide!, C18_repeated_root dsqrt 1 (-2) 1 0.0 0.0 (by decide!), by decide!⟩

end B64

namespace B64

/-- C19 (failing input): `x² − 1` on the reversed bracket `[25·2^494, 0]`. All samples are
the collapsed point, whose text takes 475 characters, more than the 80 bytes the guard of
line 164 keeps free. The loop stops after 138 of the 201 samples; 137 of them are written
in full, the 138th is cut off where the buffer ends, and `pos` is `65688` after the loop,
beyond the 65536 bytes of `gbuf`, so that line 171 hands `snprintf` the address
`buf + 65688` and a negative size. -/
theorem C19_buffer_overrun :
    (1.2786682062094304e150 : Dbl) = .fin (25 * 2 ^ 494) ∧
    (0 : Dbl) < 1.2786682062094304e150 ∧
    (graph_json 1 0 (-1) 1.2786682062094304e150 0 65536).whole.length = 137 ∧
    (graph_json 1 0 (-1) 1.2786682062094304e150 0 65536).pos = 65688 ∧
    (65536 : Int) < (graph_json 1 0 (-1) 1.2786682062094304e150 0 65536).pos := by
  decide!

end B64

/-- C20: in every run, a pass that reaches the bracket update (its `|fxr|` is not below
`1e-14`) has `fxl·fxr ≠ 0`, so the `else` branch is only taken with `fxl·fxr > 0`; and the
solver that sends a product of exactly zero to the other branch leaves the same return
value, row buffer, root and message on every input. -/
theorem C20_tie_unreachable (a b c xl xu tol : K) (rows : Nat → FPRow K) (root : K)
    (err : String) :
    (∀ i : Nat, (i : Int) < (false_position a b c xl xu tol rows root err).ret →
      ¬ |((false_position a b c xl xu tol rows root err).rows i).fxr| < 1e-14 →
      ((false_position a b c xl xu tol rows root err).rows i).fxl *
        ((false_position a b c xl xu tol rows root err).rows i).fxr ≠ 0 ∧
      (¬ ((false_position a b c xl xu tol rows root err).rows i).fxl *
          ((false_position a b c xl xu tol rows root err).rows i).fxr < 0 →
        0 < ((false_position a b c xl xu tol rows root err).rows i).fxl *
          ((false_position a b c xl xu tol rows root err).rows i).fxr)) ∧
    false_position_tie a b c xl xu tol rows root err =
      false_position a b c xl xu tol rows root err := by
  refine ⟨?_, false_position_tie_eq a b c xl xu tol rows root err⟩
  have hneg : ∀ i : Nat, ¬ (i : Int) < -1 := fun i h => by omega
  have hpos14 : (0 : K) < 1e-14 := by norm_num
  by_cases hp : fquad a b c xl * fquad a b c xu > 0
  · rw [false_position_no_bracket a b c xl xu tol rows root err hp]
    exact fun i hi => absurd hi (hneg i)
  rcases false_position_records a b c xl xu tol rows root err hp with
    ⟨_, he⟩ | ⟨hd, m, hm1, _, hret, _, _, hrows, _, hgo, _⟩
  · rw [he]
    exact fun i hi => absurd hi (hneg i)
  intro i hi hnc
  rw [hret] at hi
  have hi' : i < m := by exact_mod_cast hi
  rw [hrows i hi'] at hnc ⊢
  have hr : fquad a b c (xr_of (fp_state a b c (fp_init a b c xl xu rows) i)) ≠ 0 := by
    intro h0
    apply hnc
    show |fquad a b c (xr_of (fp_state a b c (fp_init a b c xl xu rows) i))| < 1e-14
    rw [h0, abs_zero]
    exact hpos14
  have hl : (fp_state a b c (fp_init a b c xl xu rows) i).fxl ≠ 0 := by
    rcases lt_or_eq_of_le (not_lt.mp hp) with hlt | heq
    · intro h0
      have hb := (fp_state_bracket a b c (norm_tol tol) (fp_init a b c xl xu rows) hlt i
        (fun k hk => hgo k (by omega))).1
      rw [h0, zero_mul] at hb
      exact lt_irrefl _ hb
    · exfalso
      have hz := (fp_init_zero a b c xl xu rows heq hd).1
      have hm : m = 1 := by
        by_contra hne
        exact hgo 0 (by omega) (Or.inl (by rw [fp_state_zero, hz, abs_zero]; exact hpos14))
      have hi0 : i = 0 := by omega
      subst hi0
      exact hr hz
  have hne : (fp_state a b c (fp_init a b c xl xu rows) i).fxl *
      fquad a b c (xr_of (fp_state a b c (fp_init a b c xl xu rows) i)) ≠ 0 :=
    mul_ne_zero hl hr
  exact ⟨hne, fun h => lt_of_le_of_ne (not_lt.mp h) (Ne.symm hne)⟩

/-- C20 (witness): the first part at the first pass of `x² − 1` on `[0, 1e6]`, which takes
the `else` branch with `fxl·fxr > 0`. -/
theorem C20_tie_unreachable_witness :
    (((0 : Nat) : Int) < (false_position (1 : ℚ) 0 (-1) 0 1000000 0 zeroRows 0 "").ret ∧
      ¬ |((false_position (1 : ℚ) 0 (-1) 0 1000000 0 zeroRows 0 "").rows 0).fxr| < 1e-14 ∧
      ¬ ((false_position (1 : ℚ) 0 (-1) 0 1000000 0 zeroRows 0 "").rows 0).fxl *
        ((false_position (1 : ℚ) 0 (-1) 0 1000000 0 zeroRows 0 "").rows 0).fxr < 0) ∧
    0 < ((false_position (1 : ℚ) 0 (-1) 0 1000000 0 zeroRows 0 "").rows 0).fxl *
      ((false_position (1 : ℚ) 0 (-1) 0 1000000 0 zeroRows 0 "").rows 0).fxr :=
  ⟨⟨by decide!, by decide!, by decide!⟩,
    (((C20_tie_unreachable (1 : ℚ) 0 (-1) 0 1000000 0 zeroRows 0 "").1 0 (by decide!))
      (by decide!)).2 (by decide!)⟩

end Claims
end FalsePosition
